import Mathlib

/-!
# Super Trunfo (CartasSuperTrunfo.c): embedding and checked properties

The C program reads two cards from standard input, derives three statistics
per card and compares the cards attribute by attribute.

Modelling conventions.

* Standard input is a list of characters, one element per C `char`.
  Standard output is a list of printed items.
* `unsigned long` and `long` are 64 bits wide and `int` is 32 bits wide (LP64).
* `float` is IEEE 754 binary32 with round-to-nearest-even, each operation
  rounded once (`FLT_EVAL_METHOD == 0`).
* The C library routines `fgets`, `strtoul`, `strtol`, `strtof` follow ISO C;
  the decimal point is `.` and `errno` is set only for range errors (for
  `strtof`: on overflow, and when a non-zero value is rounded inexactly to a
  subnormal number or to zero).
* Every loop of the program is embedded twice: a function bounded by a number
  of iterations, and the function itself, which runs it with a bound that is
  shown to be enough.
* In the statements an input line is a line of text `l` followed by a newline,
  where `l` holds no newline and no NUL.
-/

namespace CartasSuperTrunfo

/-! ## IEEE 754 binary32 -/

/-- Floor of the base-2 logarithm of `n` (0 for `n < 2`), by structural
recursion on a bound `fuel ≥ log2 n`. -/
def ilog2 : Nat → Nat → Nat
  | 0, _ => 0
  | fuel + 1, n => if n < 2 then 0 else ilog2 fuel (n / 2) + 1

/-- A binary32 datum. `fin neg m e` is the finite number `(-1)^neg * m * 2^e`
with `m < 2^24` and `-149 ≤ e ≤ 104`; it is normal when `2^23 ≤ m`, subnormal
when `0 < m < 2^23` and `e = -149`, and a zero when `m = 0` (then `e = 0`). -/
inductive F32 where
  | nan : F32
  | inf (neg : Bool) : F32
  | fin (neg : Bool) (m : Nat) (e : Int) : F32
  deriving DecidableEq

namespace F32

/-- Numerator and denominator of `(p / q) / 2^e`. -/
def scale (p q : Nat) (e : Int) : Nat × Nat :=
  if 0 ≤ e then (p, q * 2 ^ e.toNat) else (p * 2 ^ (-e).toNat, q)

/-- Correct rounding (to nearest, ties to even) of the rational `p / q`,
with sign `neg`, to binary32.  Overflow gives an infinity. -/
def round (neg : Bool) (p q : Nat) : F32 :=
  if p = 0 ∨ q = 0 then .fin neg 0 0
  else
    let e0 : Int := (ilog2 p p : Int) - (ilog2 q q : Int) - 23
    let s0 := scale p q e0
    let e1 : Int := if s0.1 / s0.2 < 2 ^ 23 then e0 - 1 else e0
    let e : Int := if e1 < -149 then -149 else e1
    let s := scale p q e
    let m := s.1 / s.2
    let r := s.1 % s.2
    let m1 := if s.2 < 2 * r ∨ (2 * r = s.2 ∧ m % 2 = 1) then m + 1 else m
    if m1 = 0 then .fin neg 0 0
    else if m1 = 2 ^ 24 then (if 104 < e + 1 then .inf neg else .fin neg (2 ^ 23) (e + 1))
    else if 104 < e then .inf neg
    else .fin neg m1 e

/-- Rounding of the dyadic number `n * 2^e`. -/
def roundDyadic (neg : Bool) (n : Nat) (e : Int) : F32 :=
  if 0 ≤ e then round neg (n * 2 ^ e.toNat) 1 else round neg n (2 ^ (-e).toNat)

/-- The literal `0.0f`. -/
def zero : F32 := .fin false 0 0

/-- Conversion `(float)n` of an unsigned integer. -/
def ofNat (n : Nat) : F32 := round false n 1

/-- Conversion `(float)i` of a signed integer. -/
def ofInt (i : Int) : F32 := round (decide (i < 0)) i.natAbs 1

/-- The literal `1.0f`. -/
def one : F32 := ofNat 1

/-- The signed integer `±m * 2^(e - e0)` for `e0 ≤ e`. -/
def signedAt (neg : Bool) (m : Nat) (e e0 : Int) : Int :=
  (if neg then -1 else 1) * ((m * 2 ^ (e - e0).toNat : Nat) : Int)

/-- Binary32 addition. -/
def add : F32 → F32 → F32
  | .nan, _ => .nan
  | _, .nan => .nan
  | .inf a, .inf b => if a = b then .inf a else .nan
  | .inf a, .fin _ _ _ => .inf a
  | .fin _ _ _, .inf b => .inf b
  | .fin s1 m1 e1, .fin s2 m2 e2 =>
    let e := min e1 e2
    let s := signedAt s1 m1 e1 e + signedAt s2 m2 e2 e
    if s = 0 then .fin (s1 && s2) 0 0
    else roundDyadic (decide (s < 0)) s.natAbs e

/-- Binary32 multiplication. -/
def mul : F32 → F32 → F32
  | .nan, _ => .nan
  | _, .nan => .nan
  | .inf a, .inf b => .inf (xor a b)
  | .inf a, .fin s m _ => if m = 0 then .nan else .inf (xor a s)
  | .fin s m _, .inf b => if m = 0 then .nan else .inf (xor s b)
  | .fin s1 m1 e1, .fin s2 m2 e2 => roundDyadic (xor s1 s2) (m1 * m2) (e1 + e2)

/-- Binary32 division. -/
def div : F32 → F32 → F32
  | .nan, _ => .nan
  | _, .nan => .nan
  | .inf _, .inf _ => .nan
  | .inf a, .fin s _ _ => .inf (xor a s)
  | .fin s _ _, .inf b => .fin (xor s b) 0 0
  | .fin s1 m1 e1, .fin s2 m2 e2 =>
    if m2 = 0 then (if m1 = 0 then .nan else .inf (xor s1 s2))
    else if e2 ≤ e1 then round (xor s1 s2) (m1 * 2 ^ (e1 - e2).toNat) m2
    else round (xor s1 s2) m1 (m2 * 2 ^ (e2 - e1).toNat)

/-- The comparison `x < y`; false when either side is a NaN. -/
def lt : F32 → F32 → Bool
  | .nan, _ => false
  | _, .nan => false
  | .inf a, .inf b => a && !b
  | .inf a, .fin _ _ _ => a
  | .fin _ _ _, .inf b => !b
  | .fin s1 m1 e1, .fin s2 m2 e2 =>
    decide (signedAt s1 m1 e1 (min e1 e2) < signedAt s2 m2 e2 (min e1 e2))

/-- The comparison `x > y`. -/
def gt (x y : F32) : Bool := lt y x

instance : Add F32 := ⟨add⟩
instance : Mul F32 := ⟨mul⟩
instance : Div F32 := ⟨div⟩

end F32

/-! ## Standard input and output -/

/-- One argument of a `printf` call. -/
inductive Arg where
  | c (ch : Char) : Arg
  | s (str : String) : Arg
  | lu (n : Nat) : Arg
  | d (i : Int) : Arg
  | f (x : F32) : Arg
  deriving DecidableEq

/-- One `printf` call: its format string and its arguments. -/
structure Printf where
  fmt : String
  args : List Arg
  deriving DecidableEq

/-- The part of the environment the program touches: the characters still
unread on standard input and the `printf` calls made so far. -/
structure World where
  stdin : List Char
  stdout : List Printf
  deriving DecidableEq

/-- Effect of `printf(fmt, args...)`. -/
def World.printf (w : World) (fmt : String) (args : List Arg) : World :=
  { w with stdout := w.stdout ++ [⟨fmt, args⟩] }

/-- Result of running a piece of the program: it returns a value, or the
process ends through `exit(code)`, or the step bound of the model ran out. -/
inductive Outcome (α : Type) where
  | ret (a : α) (w : World) : Outcome α
  | exit (code : Nat) (w : World) : Outcome α
  | timeout : Outcome α
  deriving DecidableEq

/-- The terminating character of a C string. -/
def NUL : Char := Char.ofNat 0

/-- Transfer loop of `fgets`: at most `n` characters, stopping after a newline.
Returns the characters stored and the characters left on the stream. -/
def fgetsAux : Nat → List Char → List Char × List Char
  | 0, s => ([], s)
  | _ + 1, [] => ([], [])
  | n + 1, c :: s =>
    if c = '\n' then ([c], s) else (c :: (fgetsAux n s).1, (fgetsAux n s).2)

/-- Model of `fgets(buf, bufSize, stdin)`: `none` is the `NULL` result (end of
file before any character), otherwise the characters stored in `buf` and the
rest of the stream. -/
def fgets (bufSize : Nat) (s : List Char) : Option (List Char × List Char) :=
  match s with
  | [] => none
  | _ :: _ => some (fgetsAux (bufSize - 1) s)

/-- The C string held by a buffer: its characters before the first NUL. -/
def cstr (buf : List Char) : List Char := buf.takeWhile (fun c => c != NUL)

/-- Character `s[i]` of a C string, the terminator included. -/
def charAt (s : List Char) (i : Nat) : Char := s.getD i NUL

/-! ## The C library number parsers -/

/-- Result of a `strto*` call: the value returned, the string left at `*end`,
and whether `errno` was set to `ERANGE`. -/
structure Parsed (α : Type) where
  val : α
  rest : List Char
  erange : Bool
  deriving DecidableEq

/-- The largest `unsigned long`. -/
def ULONG_MAX : Nat := 2 ^ 64 - 1

/-- The largest `long`. -/
def LONG_MAX : Int := 2 ^ 63 - 1

/-- The smallest `long`. -/
def LONG_MIN : Int := -(2 ^ 63)

/-- White space as `isspace` sees it in the C locale. -/
def isspace (c : Char) : Bool :=
  c == ' ' || c == '\t' || c == '\n' || c == Char.ofNat 11 || c == Char.ofNat 12 || c == '\r'

/-- Decimal digits. -/
def isdigit (c : Char) : Bool := decide ('0' ≤ c) && decide (c ≤ '9')

/-- Hexadecimal digits. -/
def isxdigit (c : Char) : Bool :=
  isdigit c || (decide ('a' ≤ c) && decide (c ≤ 'f')) || (decide ('A' ≤ c) && decide (c ≤ 'F'))

/-- Letters, digits and the underscore: the characters allowed inside `nan(...)`. -/
def isnchar (c : Char) : Bool :=
  isdigit c || (decide ('a' ≤ c) && decide (c ≤ 'z')) || (decide ('A' ≤ c) && decide (c ≤ 'Z'))
    || c == '_'

/-- Lower-case form of an ASCII letter. -/
def tolower (c : Char) : Char :=
  if 'A' ≤ c ∧ c ≤ 'Z' then Char.ofNat (c.toNat + 32) else c

/-- Value of a hexadecimal digit. -/
def hexDigit (c : Char) : Nat :=
  if isdigit c then c.toNat - '0'.toNat
  else if 'a' ≤ c ∧ c ≤ 'f' then c.toNat - 'a'.toNat + 10
  else c.toNat - 'A'.toNat + 10

/-- Value of a string of decimal digits. -/
def decVal (ds : List Char) : Nat :=
  ds.foldl (fun a c => 10 * a + (c.toNat - '0'.toNat)) 0

/-- Value of a string of hexadecimal digits. -/
def hexVal (ds : List Char) : Nat :=
  ds.foldl (fun a c => 16 * a + hexDigit c) 0

/-- An optional sign: whether it is a minus, and the string after it. -/
def optSign (s : List Char) : Bool × List Char :=
  match s with
  | [] => (false, [])
  | c :: t => if c = '-' then (true, t) else if c = '+' then (false, t) else (false, c :: t)

/-- Model of `strtoul(s, &end, 10)`. -/
def strtoul (s : List Char) : Parsed Nat :=
  let u := (optSign (s.dropWhile isspace)).2
  let neg := (optSign (s.dropWhile isspace)).1
  let ds := u.takeWhile isdigit
  if ds = [] then ⟨0, s, false⟩
  else if ULONG_MAX < decVal ds then ⟨ULONG_MAX, u.dropWhile isdigit, true⟩
  else ⟨if neg then (2 ^ 64 - decVal ds) % 2 ^ 64 else decVal ds, u.dropWhile isdigit, false⟩

/-- Model of `strtol(s, &end, 10)`. -/
def strtol (s : List Char) : Parsed Int :=
  let u := (optSign (s.dropWhile isspace)).2
  let neg := (optSign (s.dropWhile isspace)).1
  let ds := u.takeWhile isdigit
  if ds = [] then ⟨0, s, false⟩
  else if neg then
    (if -(decVal ds : Int) < LONG_MIN then ⟨LONG_MIN, u.dropWhile isdigit, true⟩
     else ⟨-(decVal ds : Int), u.dropWhile isdigit, false⟩)
  else
    (if LONG_MAX < (decVal ds : Int) then ⟨LONG_MAX, u.dropWhile isdigit, true⟩
     else ⟨(decVal ds : Int), u.dropWhile isdigit, false⟩)

/-- The string left after the keyword `kw` when `s` starts with it, ignoring case. -/
def stripKeyword : List Char → List Char → Option (List Char)
  | [], s => some s
  | _ :: _, [] => none
  | k :: kw, c :: s => if tolower c = k then stripKeyword kw s else none

/-- Optional exponent part `e[+-]digits` (marker `mk`, matched ignoring case):
the exponent and the string after it; the part counts only when a digit is there. -/
def expPart (mk : Char) (s : List Char) : Int × List Char :=
  match s with
  | [] => (0, [])
  | c :: t =>
    if tolower c = mk ∧ (optSign t).2.takeWhile isdigit ≠ [] then
      ((if (optSign t).1 then -1 else 1) * (decVal ((optSign t).2.takeWhile isdigit) : Int),
        (optSign t).2.dropWhile isdigit)
    else (0, c :: t)

/-- Optional fraction part `.digits` for the digit class `dig`: the digits and
the string after them. -/
def fracPart (dig : Char → Bool) (s : List Char) : List Char × List Char :=
  match s with
  | [] => ([], [])
  | c :: t => if c = '.' then (t.takeWhile dig, t.dropWhile dig) else ([], c :: t)

/-- Optional `(n-char-sequence)` after `nan`: the string after it. -/
def nanTail (s : List Char) : List Char :=
  match s with
  | [] => []
  | c :: t =>
    if c = '(' then
      (match t.dropWhile isnchar with
       | [] => c :: t
       | d :: r => if d = ')' then r else c :: t)
    else c :: t

/-- Whether the binary32 datum `fin _ m e` is exactly `p / q`. -/
def F32.exact (m : Nat) (e : Int) (p q : Nat) : Bool :=
  decide ((F32.scale p q e).1 = m * (F32.scale p q e).2)

/-- Whether converting `p / q` with result `r` is a range error: the result
overflowed, or a non-zero value was rounded inexactly to a subnormal or zero. -/
def F32.rangeError (p q : Nat) (r : F32) : Bool :=
  match r with
  | .nan => false
  | .inf _ => true
  | .fin _ m e => decide (p ≠ 0) && decide (m < 2 ^ 23) && !F32.exact m e p q

/-- Conversion of the rational `p / q` with sign `neg`, as `strtof` ends it. -/
def convert (neg : Bool) (p q : Nat) (rest : List Char) : Parsed F32 :=
  ⟨F32.round neg p q, rest, F32.rangeError p q (F32.round neg p q)⟩

/-- A hexadecimal floating constant after its `0x`: `none` when no hexadecimal
digit follows. -/
def strtofHex (neg : Bool) (u : List Char) : Option (Parsed F32) :=
  let ip := u.takeWhile isxdigit
  let fr := fracPart isxdigit (u.dropWhile isxdigit)
  if ip = [] ∧ fr.1 = [] then none
  else
    let ex := expPart 'p' fr.2
    let k : Int := ex.1 - 4 * fr.1.length
    if 0 ≤ k then some (convert neg (hexVal (ip ++ fr.1) * 2 ^ k.toNat) 1 ex.2)
    else some (convert neg (hexVal (ip ++ fr.1)) (2 ^ (-k).toNat) ex.2)

/-- A decimal floating constant: `none` when there is no digit. -/
def strtofDec (neg : Bool) (u : List Char) : Option (Parsed F32) :=
  let ip := u.takeWhile isdigit
  let fr := fracPart isdigit (u.dropWhile isdigit)
  if ip = [] ∧ fr.1 = [] then none
  else
    let ex := expPart 'e' fr.2
    let k : Int := ex.1 - fr.1.length
    if 0 ≤ k then some (convert neg (decVal (ip ++ fr.1) * 10 ^ k.toNat) 1 ex.2)
    else some (convert neg (decVal (ip ++ fr.1)) (10 ^ (-k).toNat) ex.2)

/-- Model of `strtof(s, &end)`: white space, an optional sign, then `infinity`,
`inf`, `nan`, a hexadecimal or a decimal floating constant; with none of them
no conversion is made and `*end` is `s`. -/
def strtof (s : List Char) : Parsed F32 :=
  let u := (optSign (s.dropWhile isspace)).2
  let neg := (optSign (s.dropWhile isspace)).1
  match stripKeyword "infinity".toList u with
  | some r => ⟨.inf neg, r, false⟩
  | none =>
    match stripKeyword "inf".toList u with
    | some r => ⟨.inf neg, r, false⟩
    | none =>
      match stripKeyword "nan".toList u with
      | some r => ⟨.nan, nanTail r, false⟩
      | none =>
        match (stripKeyword "0x".toList u).bind (strtofHex neg) with
        | some r => r
        | none =>
          match strtofDec neg u with
          | some r => r
          | none => ⟨F32.zero, s, false⟩

/-- Conversion `(int)v` of a `long`: reduction modulo `2^32` into the `int` range, which
is what gcc and clang define for a value out of range. -/
def toInt32 (v : Int) : Int := (v + 2 ^ 31) % 2 ^ 32 - 2 ^ 31

/-- The loop `while (*end == ' ' || *end == '\t') end++`. -/
def skipBlanks (s : List Char) : List Char :=
  s.dropWhile (fun c => c == ' ' || c == '\t')

/-! ## The line readers -/

/-- Embedding of `strip_newline`: removes every trailing newline and carriage return. -/
def strip_newline (s : List Char) : List Char :=
  s.rdropWhile (fun c => c == '\n' || c == '\r')

/-- The loop of `read_line`, bounded by `fuel` iterations. -/
def read_line_fuel (prompt : String) (bufSize : Nat) : Nat → World → Outcome (List Char)
  | 0, _ => .timeout
  | fuel + 1, w =>
    let w1 := w.printf "%s" [.s prompt]
    match fgets bufSize w1.stdin with
    | none => .exit 1 (w1.printf "\nEntrada encerrada (EOF). Finalizando.\n" [])
    | some (buf, rest) =>
      match strip_newline (cstr buf) with
      | [] =>
        read_line_fuel prompt bufSize fuel
          (World.printf ⟨rest, w1.stdout⟩ "Entrada vazia. Tente novamente.\n" [])
      | c :: cs => .ret (c :: cs) ⟨rest, w1.stdout⟩

/-- Embedding of `read_line`: every iteration consumes a character or exits, so
one more iteration than there are characters is enough. -/
def read_line (prompt : String) (bufSize : Nat) (w : World) : Outcome (List Char) :=
  read_line_fuel prompt bufSize (w.stdin.length + 1) w

/-- The loop of `read_estado`, bounded by `fuel` iterations. -/
def read_estado_fuel (prompt : String) : Nat → World → Outcome Char
  | 0, _ => .timeout
  | fuel + 1, w =>
    match read_line prompt 64 w with
    | .timeout => .timeout
    | .exit code w1 => .exit code w1
    | .ret line w1 =>
      if 'A' ≤ charAt line 0 ∧ charAt line 0 ≤ 'H' ∧ charAt line 1 = NUL then
        .ret (charAt line 0) w1
      else if 'a' ≤ charAt line 0 ∧ charAt line 0 ≤ 'h' ∧ charAt line 1 = NUL then
        .ret (Char.ofNat ((charAt line 0).toNat - ('a'.toNat - 'A'.toNat))) w1
      else
        read_estado_fuel prompt fuel
          (w1.printf "Valor invalido. Digite uma letra de A a H.\n" [])

/-- Embedding of `read_estado`. -/
def read_estado (prompt : String) (w : World) : Outcome Char :=
  read_estado_fuel prompt (w.stdin.length + 1) w

/-- The loop of `read_codigo`, bounded by `fuel` iterations. -/
def read_codigo_fuel (prompt : String) (estadoEsperado : Char) :
    Nat → World → Outcome (List Char)
  | 0, _ => .timeout
  | fuel + 1, w =>
    match read_line prompt 64 w with
    | .timeout => .timeout
    | .exit code w1 => .exit code w1
    | .ret line w1 =>
      let s0 : Char :=
        if 'a' ≤ charAt line 0 ∧ charAt line 0 ≤ 'h' then
          Char.ofNat ((charAt line 0).toNat - ('a'.toNat - 'A'.toNat))
        else charAt line 0
      let n : Int :=
        (((charAt line 1).toNat : Int) - '0'.toNat) * 10
          + (((charAt line 2).toNat : Int) - '0'.toNat)
      if line.length = 3 ∧ s0 = estadoEsperado ∧
          '0' ≤ charAt line 1 ∧ charAt line 1 ≤ '9' ∧
          '0' ≤ charAt line 2 ∧ charAt line 2 ≤ '9' ∧ 1 ≤ n ∧ n ≤ 4 then
        .ret [s0, charAt line 1, charAt line 2] w1
      else
        read_codigo_fuel prompt estadoEsperado fuel
          (w1.printf "Codigo invalido. Use o formato %c01 a %c04 (ex: %c01).\n"
            [.c estadoEsperado, .c estadoEsperado, .c estadoEsperado])

/-- Embedding of `read_codigo`; the result is the content of `out`. -/
def read_codigo (prompt : String) (estadoEsperado : Char) (w : World) :
    Outcome (List Char) :=
  read_codigo_fuel prompt estadoEsperado (w.stdin.length + 1) w

/-- The loop of `read_ulong`, bounded by `fuel` iterations. -/
def read_ulong_fuel (prompt : String) : Nat → World → Outcome Nat
  | 0, _ => .timeout
  | fuel + 1, w =>
    match read_line prompt 128 w with
    | .timeout => .timeout
    | .exit code w1 => .exit code w1
    | .ret line w1 =>
      if (strtoul line).erange = false ∧ skipBlanks (strtoul line).rest = [] then
        .ret (strtoul line).val w1
      else
        read_ulong_fuel prompt fuel
          (w1.printf "Valor invalido. Digite um numero inteiro (ex: 123).\n" [])

/-- Embedding of `read_ulong`. -/
def read_ulong (prompt : String) (w : World) : Outcome Nat :=
  read_ulong_fuel prompt (w.stdin.length + 1) w

/-- The loop of `read_int`, bounded by `fuel` iterations. -/
def read_int_fuel (prompt : String) : Nat → World → Outcome Int
  | 0, _ => .timeout
  | fuel + 1, w =>
    match read_line prompt 128 w with
    | .timeout => .timeout
    | .exit code w1 => .exit code w1
    | .ret line w1 =>
      if (strtol line).erange = false ∧ skipBlanks (strtol line).rest = [] then
        .ret (toInt32 (strtol line).val) w1
      else
        read_int_fuel prompt fuel
          (w1.printf "Valor invalido. Digite um numero inteiro (ex: 50).\n" [])

/-- Embedding of `read_int`. -/
def read_int (prompt : String) (w : World) : Outcome Int :=
  read_int_fuel prompt (w.stdin.length + 1) w

/-- The loop of `read_float`, bounded by `fuel` iterations. -/
def read_float_fuel (prompt : String) : Nat → World → Outcome F32
  | 0, _ => .timeout
  | fuel + 1, w =>
    match read_line prompt 128 w with
    | .timeout => .timeout
    | .exit code w1 => .exit code w1
    | .ret line w1 =>
      if (strtof line).erange = false ∧ skipBlanks (strtof line).rest = [] then
        .ret (strtof line).val w1
      else
        read_float_fuel prompt fuel
          (w1.printf "Valor invalido. Digite um numero (use ponto, ex: 12.5).\n" [])

/-- Embedding of `read_float`. -/
def read_float (prompt : String) (w : World) : Outcome F32 :=
  read_float_fuel prompt (w.stdin.length + 1) w

/-! ## Cards -/

/-- Sequencing of two program steps. -/
def Outcome.bind {α β : Type} (x : Outcome α) (k : α → World → Outcome β) : Outcome β :=
  match x with
  | .ret a w => k a w
  | .exit code w => .exit code w
  | .timeout => .timeout

/-- The record `Carta`. `codigo` and `nomeCidade` hold the C strings stored in
the two character arrays. -/
structure Carta where
  estado : Char
  codigo : List Char
  nomeCidade : List Char
  populacao : Nat
  area : F32
  pib : F32
  pontosTuristicos : Int
  densidadePopulacional : F32
  pibPerCapita : F32
  superPoder : F32
  deriving DecidableEq

/-- The area loop of `cadastrar_carta`, bounded by `fuel` iterations. -/
def read_area_fuel : Nat → World → Outcome F32
  | 0, _ => .timeout
  | fuel + 1, w =>
    match read_float "Area (km2): " w with
    | .timeout => .timeout
    | .exit code w1 => .exit code w1
    | .ret a w1 =>
      if F32.gt a F32.zero = true then .ret a w1
      else read_area_fuel fuel (w1.printf "Area invalida. Digite um valor maior que 0.\n" [])

/-- The area loop of `cadastrar_carta`. -/
def read_area (w : World) : Outcome F32 :=
  read_area_fuel (w.stdin.length + 1) w

/-- Embedding of `cadastrar_carta`; the result is the record written through `c`. -/
def cadastrar_carta (idx : Int) (w : World) : Outcome Carta :=
  (read_estado "Estado (A a H): " (w.printf "=== Cadastro da Carta %d ===\n" [.d idx])).bind
  fun estado w1 =>
  (read_codigo ("Codigo da Carta (ex: " ++ String.singleton estado ++ "01): ") estado w1).bind
  fun codigo w2 =>
  (read_line "Nome da Cidade: " 100 w2).bind fun nomeCidade w3 =>
  (read_ulong "Populacao: " w3).bind fun populacao w4 =>
  (read_area w4).bind fun area w5 =>
  (read_float "PIB (em bilhoes de reais): " w5).bind fun pib w6 =>
  (read_int "Numero de Pontos Turisticos: " w6).bind fun pontosTuristicos w7 =>
    let densidadePopulacional : F32 :=
      if populacao = 0 then F32.zero else F32.ofNat populacao / area
    let pibPerCapita : F32 :=
      if populacao = 0 then F32.zero
      else (pib * F32.ofNat 1000000000) / F32.ofNat populacao
    let invDensidade : F32 :=
      if F32.gt densidadePopulacional F32.zero = true then F32.one / densidadePopulacional
      else F32.zero
    .ret
      { estado := estado
        codigo := codigo
        nomeCidade := nomeCidade
        populacao := populacao
        area := area
        pib := pib
        pontosTuristicos := pontosTuristicos
        densidadePopulacional := densidadePopulacional
        pibPerCapita := pibPerCapita
        superPoder :=
          F32.ofNat populacao + area + pib + F32.ofInt pontosTuristicos + pibPerCapita
            + invDensidade }
      w7

/-- Embedding of `imprimir_carta`. -/
def imprimir_carta (idx : Int) (c : Carta) (w : World) : World :=
  ((((((((((((w.printf "\n==============================\n" []).printf
    "Carta %d:\n" [.d idx]).printf
    "Estado: %c\n" [.c c.estado]).printf
    "Codigo: %s\n" [.s (String.mk c.codigo)]).printf
    "Nome da Cidade: %s\n" [.s (String.mk c.nomeCidade)]).printf
    "Populacao: %lu\n" [.lu c.populacao]).printf
    "Area: %.2f km2\n" [.f c.area]).printf
    "PIB: %.2f bilhoes de reais\n" [.f c.pib]).printf
    "Numero de Pontos Turisticos: %d\n" [.d c.pontosTuristicos]).printf
    "Densidade Populacional: %.2f hab/km2\n" [.f c.densidadePopulacional]).printf
    "PIB per Capita: %.2f reais\n" [.f c.pibPerCapita]).printf
    "Super Poder: %.2f\n" [.f c.superPoder])

/-- Embedding of `imprimir_resultado`. -/
def imprimir_resultado (label : String) (carta1Vence : Bool) (w : World) : World :=
  w.printf "%s: Carta %d venceu (%d)\n"
    [.s label, .d (if carta1Vence then 1 else 2), .d (if carta1Vence then 1 else 0)]

/-- Embedding of `main`; the value returned is the exit status. -/
def main (w : World) : Outcome Int :=
  (cadastrar_carta 1 w).bind fun c1 w1 =>
  (cadastrar_carta 2 (w1.printf "\n" [])).bind fun c2 w2 =>
    let w3 := imprimir_carta 2 c2 (imprimir_carta 1 c1 w2)
    let w4 := (w3.printf "\n==============================\n" []).printf
      "Comparacao de Cartas:\n\n" []
    let w5 := imprimir_resultado "Populacao" (decide (c1.populacao > c2.populacao)) w4
    let w6 := imprimir_resultado "Area" (F32.gt c1.area c2.area) w5
    let w7 := imprimir_resultado "PIB" (F32.gt c1.pib c2.pib) w6
    let w8 := imprimir_resultado "Pontos Turisticos"
      (decide (c1.pontosTuristicos > c2.pontosTuristicos)) w7
    let w9 := imprimir_resultado "Densidade Populacional"
      (F32.lt c1.densidadePopulacional c2.densidadePopulacional) w8
    let w10 := imprimir_resultado "PIB per Capita" (F32.gt c1.pibPerCapita c2.pibPerCapita) w9
    let w11 := imprimir_resultado "Super Poder" (F32.gt c1.superPoder c2.superPoder) w10
    .ret 0 w11

/-! ## Definitions used in the statements and proofs -/

/-- What `fgets` with a buffer of `bufSize` bytes leaves on the stream after it has read
the line of text `l`: the text after the newline or, when `l` alone fills the buffer, the
newline as well. -/
def leftover (bufSize : Nat) (l rest : List Char) : List Char :=
  if l.length + 2 ≤ bufSize then rest else '\n' :: rest

/-- The equations of a retry loop `f` bounded by fuel: `step` reads, `acc`
decides, and a rejected reading prints `fmt` with `args`. -/
def LoopEq {α β : Type} (f : Nat → World → Outcome β) (step : World → Outcome α)
    (acc : α → Option β) (fmt : String) (args : List Arg) : Prop :=
  (∀ w, f 0 w = .timeout) ∧
  ∀ k w, f (k + 1) w =
    match step w with
    | .timeout => .timeout
    | .exit code w1 => .exit code w1
    | .ret a w1 =>
      match acc a with
      | some b => .ret b w1
      | none => f k (w1.printf fmt args)

/-- A step that always ends and consumes input whenever it returns. -/
def StepOk {α : Type} (step : World → Outcome α) : Prop :=
  (∀ w, step w ≠ .timeout) ∧ ∀ w a w1, step w = .ret a w1 → w1.stdin.length < w.stdin.length

/-- Decision of `read_estado` on a delivered line. -/
def estadoAcc (line : List Char) : Option Char :=
  if 'A' ≤ charAt line 0 ∧ charAt line 0 ≤ 'H' ∧ charAt line 1 = NUL then
    some (charAt line 0)
  else if 'a' ≤ charAt line 0 ∧ charAt line 0 ≤ 'h' ∧ charAt line 1 = NUL then
    some (Char.ofNat ((charAt line 0).toNat - ('a'.toNat - 'A'.toNat)))
  else none

/-- Decision of `read_codigo` on a delivered line. -/
def codigoAcc (estadoEsperado : Char) (line : List Char) : Option (List Char) :=
  let s0 : Char :=
    if 'a' ≤ charAt line 0 ∧ charAt line 0 ≤ 'h' then
      Char.ofNat ((charAt line 0).toNat - ('a'.toNat - 'A'.toNat))
    else charAt line 0
  let n : Int :=
    (((charAt line 1).toNat : Int) - '0'.toNat) * 10
      + (((charAt line 2).toNat : Int) - '0'.toNat)
  if line.length = 3 ∧ s0 = estadoEsperado ∧
      '0' ≤ charAt line 1 ∧ charAt line 1 ≤ '9' ∧
      '0' ≤ charAt line 2 ∧ charAt line 2 ≤ '9' ∧ 1 ≤ n ∧ n ≤ 4 then
    some [s0, charAt line 1, charAt line 2]
  else none

/-- Decision of `read_ulong` on a delivered line. -/
def ulongAcc (line : List Char) : Option Nat :=
  if (strtoul line).erange = false ∧ skipBlanks (strtoul line).rest = [] then
    some (strtoul line).val
  else none

/-- Decision of `read_int` on a delivered line. -/
def intAcc (line : List Char) : Option Int :=
  if (strtol line).erange = false ∧ skipBlanks (strtol line).rest = [] then
    some (toInt32 (strtol line).val)
  else none

/-- Decision of `read_float` on a delivered line. -/
def floatAcc (line : List Char) : Option F32 :=
  if (strtof line).erange = false ∧ skipBlanks (strtof line).rest = [] then
    some (strtof line).val
  else none

/-- Decision of the area loop on a value read. -/
def areaAcc (a : F32) : Option F32 :=
  if F32.gt a F32.zero = true then some a else none

/-- The output line of `imprimir_resultado`. -/
def linha (label : String) (vencedora indicador : Int) : Printf :=
  ⟨"%s: Carta %d venceu (%d)\n", [.s label, .d vencedora, .d indicador]⟩

/-- The prompts printed while a card is read from input without a rejected line. -/
def saidaCadastro (idx : Int) (estado : Char) : List Printf :=
  [⟨"=== Cadastro da Carta %d ===\n", [.d idx]⟩,
   ⟨"%s", [.s "Estado (A a H): "]⟩,
   ⟨"%s", [.s ("Codigo da Carta (ex: " ++ String.singleton estado ++ "01): ")]⟩,
   ⟨"%s", [.s "Nome da Cidade: "]⟩,
   ⟨"%s", [.s "Populacao: "]⟩,
   ⟨"%s", [.s "Area (km2): "]⟩,
   ⟨"%s", [.s "PIB (em bilhoes de reais): "]⟩,
   ⟨"%s", [.s "Numero de Pontos Turisticos: "]⟩]

/-- Input lines of a first example card. -/
def entradaA : List Char := "a\nA01\nSao Paulo\n100\n1\n1\n0\n".toList

/-- The card read from `entradaA`. -/
def cartaA : Carta :=
  { estado := 'A', codigo := "A01".toList, nomeCidade := "Sao Paulo".toList,
    populacao := 100, area := F32.ofNat 1, pib := F32.ofNat 1, pontosTuristicos := 0,
    densidadePopulacional := F32.ofNat 100, pibPerCapita := F32.ofNat 10000000,
    superPoder := F32.ofNat 10000102 }

/-- Input lines of a second example card. -/
def entradaB : List Char := "b\nB02\nRio\n50\n1\n1\n0\n".toList

/-- The card read from `entradaB`. -/
def cartaB : Carta :=
  { estado := 'B', codigo := "B02".toList, nomeCidade := "Rio".toList,
    populacao := 50, area := F32.ofNat 1, pib := F32.ofNat 1, pontosTuristicos := 0,
    densidadePopulacional := F32.ofNat 50, pibPerCapita := F32.ofNat 20000000,
    superPoder := F32.ofNat 20000052 }

/-- Input lines of an example card with population 0. -/
def entradaC : List Char := "c\nC03\nVila\n0\n2.5\n-1\n3\n".toList

/-- The card read from `entradaC`. -/
def cartaC : Carta :=
  { estado := 'C', codigo := "C03".toList, nomeCidade := "Vila".toList,
    populacao := 0, area := F32.round false 5 2, pib := F32.ofInt (-1), pontosTuristicos := 3,
    densidadePopulacional := F32.zero, pibPerCapita := F32.zero,
    superPoder := F32.round false 9 2 }

/-- Input lines of an example card with population 1,000,000 and area 500.0. -/
def entradaD : List Char := "d\nD04\nX\n1000000\n500.0\n1\n0\n".toList

/-- The card read from `entradaD`. -/
def cartaD : Carta :=
  { estado := 'D', codigo := "D04".toList, nomeCidade := "X".toList,
    populacao := 1000000, area := F32.ofNat 500, pib := F32.ofNat 1, pontosTuristicos := 0,
    densidadePopulacional := F32.ofNat 2000, pibPerCapita := F32.ofNat 1000,
    superPoder := F32.ofNat 1001501 }

/-- Input lines of an example card with population 2,000,000 and PIB 10.0. -/
def entradaE : List Char := "e\nE01\nY\n2000000\n1\n10.0\n0\n".toList

/-- The card read from `entradaE`. -/
def cartaE : Carta :=
  { estado := 'E', codigo := "E01".toList, nomeCidade := "Y".toList,
    populacao := 2000000, area := F32.ofNat 1, pib := F32.ofNat 10, pontosTuristicos := 0,
    densidadePopulacional := F32.ofNat 2000000, pibPerCapita := F32.ofNat 5000,
    superPoder := F32.ofNat 2005011 }

/-- Whether a binary32 datum is a zero. -/
def F32.isZero : F32 → Bool
  | .nan => false
  | .inf _ => false
  | .fin _ m _ => decide (m = 0)

/-- Binary32 division that fails on a zero divisor. -/
def F32.divChecked (x y : F32) : Option F32 :=
  if y.isZero = true then none else some (x / y)

/-- The computation of the derived fields in `cadastrar_carta` (density, PIB per capita and
super power, in this order), with every division replaced by the division that fails on a
zero divisor. -/
def derivados (populacao : Nat) (area pib : F32) (pontosTuristicos : Int) :
    Option (F32 × F32 × F32) :=
  (if populacao = 0 then some (F32.zero, F32.zero)
   else
    (F32.divChecked (F32.ofNat populacao) area).bind fun densidadePopulacional =>
    (F32.divChecked (pib * F32.ofNat 1000000000) (F32.ofNat populacao)).bind fun pibPerCapita =>
      some (densidadePopulacional, pibPerCapita)).bind fun dp =>
  (if F32.gt dp.1 F32.zero = true then F32.divChecked F32.one dp.1
   else some F32.zero).bind fun invDensidade =>
  some (dp.1, dp.2,
    F32.ofNat populacao + area + pib + F32.ofInt pontosTuristicos + dp.2 + invDensidade)

/-- The line of 126 zeros followed by `e5`, which denotes the number zero and does not
fit the 128-byte buffer of the numeric readers. -/
def linhaLonga : List Char := List.replicate 126 '0' ++ "e5".toList

/-- The super power that `cadastrar_carta` computes from the base fields of a card. -/
def superPoderDe (populacao : Nat) (area pib : F32) (pontosTuristicos : Int) : F32 :=
  let densidadePopulacional : F32 :=
    if populacao = 0 then F32.zero else F32.ofNat populacao / area
  let pibPerCapita : F32 :=
    if populacao = 0 then F32.zero
    else (pib * F32.ofNat 1000000000) / F32.ofNat populacao
  let invDensidade : F32 :=
    if F32.gt densidadePopulacional F32.zero = true then F32.one / densidadePopulacional
    else F32.zero
  F32.ofNat populacao + area + pib + F32.ofInt pontosTuristicos + pibPerCapita + invDensidade

/-- Input lines of an example card with population 100 and area 1000. -/
def entradaF : List Char := "f\nF01\nNorte\n100\n1000\n1\n0\n".toList

/-- The card read from `entradaF`. -/
def cartaF : Carta :=
  { estado := 'F', codigo := "F01".toList, nomeCidade := "Norte".toList,
    populacao := 100, area := F32.ofNat 1000, pib := F32.ofNat 1, pontosTuristicos := 0,
    densidadePopulacional := F32.round false 1 10, pibPerCapita := F32.ofNat 10000000,
    superPoder := F32.ofNat 10001111 }

/-- Input lines of an example card with population 200 and area 1000. -/
def entradaG : List Char := "g\nG02\nSul\n200\n1000\n1\n0\n".toList

/-- The card read from `entradaG`. -/
def cartaG : Carta :=
  { estado := 'G', codigo := "G02".toList, nomeCidade := "Sul".toList,
    populacao := 200, area := F32.ofNat 1000, pib := F32.ofNat 1, pontosTuristicos := 0,
    densidadePopulacional := F32.round false 1 5, pibPerCapita := F32.ofNat 5000000,
    superPoder := F32.ofNat 5001206 }

/-- The formats printed while the cards are read: the heading of a registration, the blank
line between the two registrations, the prompt, and the diagnostics of the readers. -/
def avisos : List String :=
  ["=== Cadastro da Carta %d ===\n", "\n", "%s",
   "Entrada vazia. Tente novamente.\n",
   "\nEntrada encerrada (EOF). Finalizando.\n",
   "Valor invalido. Digite uma letra de A a H.\n",
   "Codigo invalido. Use o formato %c01 a %c04 (ex: %c01).\n",
   "Valor invalido. Digite um numero inteiro (ex: 123).\n",
   "Valor invalido. Digite um numero inteiro (ex: 50).\n",
   "Valor invalido. Digite um numero (use ponto, ex: 12.5).\n",
   "Area invalida. Digite um valor maior que 0.\n"]

/-- The formats of the results: the lines of `imprimir_carta`, the heading of the comparison
in `main` and the line of `imprimir_resultado`. -/
def resultados : List String :=
  ["\n==============================\n", "Carta %d:\n", "Estado: %c\n", "Codigo: %s\n",
   "Nome da Cidade: %s\n", "Populacao: %lu\n", "Area: %.2f km2\n",
   "PIB: %.2f bilhoes de reais\n", "Numero de Pontos Turisticos: %d\n",
   "Densidade Populacional: %.2f hab/km2\n", "PIB per Capita: %.2f reais\n",
   "Super Poder: %.2f\n", "Comparacao de Cartas:\n\n", "%s: Carta %d venceu (%d)\n"]

/-- The output of `w1` is the output of `w` followed by items of the formats `avisos`. -/
def Avisou (w w1 : World) : Prop :=
  ∃ items : List Printf, w1.stdout = w.stdout ++ items ∧ ∀ p ∈ items, p.fmt ∈ avisos

/-- An outcome reached from `w` that is not a timeout, has added to the output only items of
the formats `avisos` and, when it is an exit, has status 1, an exhausted input and the
end-of-input message as its last output. -/
def Outcome.quiet {α : Type} (o : Outcome α) (w : World) : Prop :=
  match o with
  | .ret _ w1 => Avisou w w1
  | .exit code w1 =>
    code = 1 ∧ w1.stdin = [] ∧
      ∃ w0, Avisou w w0 ∧
        w1.stdout = w0.stdout ++ [⟨"\nEntrada encerrada (EOF). Finalizando.\n", []⟩]
  | .timeout => False

/-- The lines that `imprimir_carta` prints for the card `c` under the number `idx`: the
separator, the card number, and one line for each of the ten fields. -/
def despejo (idx : Int) (c : Carta) : List Printf :=
  [⟨"\n==============================\n", []⟩,
   ⟨"Carta %d:\n", [.d idx]⟩,
   ⟨"Estado: %c\n", [.c c.estado]⟩,
   ⟨"Codigo: %s\n", [.s (String.mk c.codigo)]⟩,
   ⟨"Nome da Cidade: %s\n", [.s (String.mk c.nomeCidade)]⟩,
   ⟨"Populacao: %lu\n", [.lu c.populacao]⟩,
   ⟨"Area: %.2f km2\n", [.f c.area]⟩,
   ⟨"PIB: %.2f bilhoes de reais\n", [.f c.pib]⟩,
   ⟨"Numero de Pontos Turisticos: %d\n", [.d c.pontosTuristicos]⟩,
   ⟨"Densidade Populacional: %.2f hab/km2\n", [.f c.densidadePopulacional]⟩,
   ⟨"PIB per Capita: %.2f reais\n", [.f c.pibPerCapita]⟩,
   ⟨"Super Poder: %.2f\n", [.f c.superPoder]⟩]

/-- Two outcomes that agree on everything but the output: the same value or exit status,
and the same input left. -/
def Outcome.mesmo {α : Type} (x y : Outcome α) : Prop :=
  match x, y with
  | .ret a w1, .ret b w2 => a = b ∧ w1.stdin = w2.stdin
  | .exit c1 w1, .exit c2 w2 => c1 = c2 ∧ w1.stdin = w2.stdin
  | .timeout, .timeout => True
  | _, _ => False

/-- A piece of the program whose outcome does not depend on what was printed before. -/
def Insensivel {α : Type} (F : World → Outcome α) : Prop :=
  ∀ (s : List Char) (o1 o2 : List Printf), (F ⟨s, o1⟩).mesmo (F ⟨s, o2⟩)

/-- A piece of the program that, when it returns and leaves input unread, has consumed a
prefix of the input and returns the same value whatever follows that prefix. -/
def Estavel {α : Type} (F : World → Outcome α) : Prop :=
  ∀ (w : World) (v : α) (w' : World), F w = .ret v w' →
    ∃ a, w.stdin = a ++ w'.stdin ∧
      (w'.stdin ≠ [] → ∀ (Y : List Char) (o : List Printf),
        (F ⟨a ++ Y, o⟩).mesmo (.ret v ⟨Y, o⟩))

/-- A reader `F` with a buffer of `n` bytes and the decision `dec`: at the end of the input
it exits with status 1; otherwise it takes the characters that `fgets` delivers, strips
them, and either returns the value that `dec` gives for them or, when `dec` gives none,
goes on as it would from the input left. All of this up to the output. -/
def Leitor {α : Type} (n : Nat) (dec : List Char → Option α) (F : World → Outcome α) : Prop :=
  dec [] = none ∧
  (∀ o, (F ⟨[], o⟩).mesmo (.exit 1 ⟨[], o⟩)) ∧
  (∀ s o buf rest a, fgets n s = some (buf, rest) → dec (strip_newline (cstr buf)) = some a →
    (F ⟨s, o⟩).mesmo (.ret a ⟨rest, o⟩)) ∧
  (∀ s o buf rest, fgets n s = some (buf, rest) → dec (strip_newline (cstr buf)) = none →
    ∃ o2, (F ⟨s, o⟩).mesmo (F ⟨rest, o2⟩))

/-- The reader with a buffer of `n` bytes and the decision `dec` rejects what it is
delivered from the input `s` until the input `X` is left. -/
inductive Rejeitados {α : Type} (n : Nat) (dec : List Char → Option α) :
    List Char → List Char → Prop where
  | aqui (s : List Char) : Rejeitados n dec s s
  | passo {s buf rest X : List Char} (hf : fgets n s = some (buf, rest))
      (hd : dec (strip_newline (cstr buf)) = none) (hr : Rejeitados n dec rest X) :
      Rejeitados n dec s X

/-- The decision of `read_line`: a stripped line is returned unless it is empty. -/
def naoVazia (line : List Char) : Option (List Char) :=
  if line = [] then none else some line

/-- The card with the base fields of `c` and the derived fields that `cadastrar_carta`
computes from them. -/
def derivar (c : Carta) : Carta :=
  let densidadePopulacional : F32 :=
    if c.populacao = 0 then F32.zero else F32.ofNat c.populacao / c.area
  let pibPerCapita : F32 :=
    if c.populacao = 0 then F32.zero
    else (c.pib * F32.ofNat 1000000000) / F32.ofNat c.populacao
  let invDensidade : F32 :=
    if F32.gt densidadePopulacional F32.zero = true then F32.one / densidadePopulacional
    else F32.zero
  { estado := c.estado
    codigo := c.codigo
    nomeCidade := c.nomeCidade
    populacao := c.populacao
    area := c.area
    pib := c.pib
    pontosTuristicos := c.pontosTuristicos
    densidadePopulacional := densidadePopulacional
    pibPerCapita := pibPerCapita
    superPoder :=
      F32.ofNat c.populacao + c.area + c.pib + F32.ofInt c.pontosTuristicos + pibPerCapita
        + invDensidade }

/-- The line of text `l` fits a buffer of `n` bytes, is not empty once its trailing carriage
returns are removed, and the validation `acc` accepts it with the value `v`. -/
def Vale {α : Type} (n : Nat) (acc : List Char → Option α) (l : List Char) (v : α) : Prop :=
  '\n' ∉ l ∧ NUL ∉ l ∧ l.length + 1 ≤ n ∧ strip_newline l ≠ [] ∧
    acc (strip_newline l) = some v

instance Vale.decidable {α : Type} [DecidableEq α] (n : Nat) (acc : List Char → Option α)
    (l : List Char) (v : α) : Decidable (Vale n acc l v) := by
  unfold Vale
  infer_instance

/-- Seven lines of text, one for each field of a card. -/
structure Linhas where
  estado : List Char
  codigo : List Char
  nomeCidade : List Char
  populacao : List Char
  area : List Char
  pib : List Char
  pontosTuristicos : List Char

/-- Each of the seven lines fits the buffer of its reader and is valid for its field, and the
base fields of `c` are the values of the lines. -/
def Linhas.validas (g : Linhas) (c : Carta) : Prop :=
  Vale 64 estadoAcc g.estado c.estado ∧
  Vale 64 (codigoAcc c.estado) g.codigo c.codigo ∧
  Vale 100 some g.nomeCidade c.nomeCidade ∧
  Vale 128 ulongAcc g.populacao c.populacao ∧
  Vale 128 (fun l => (floatAcc l).bind areaAcc) g.area c.area ∧
  Vale 128 floatAcc g.pib c.pib ∧
  Vale 128 intAcc g.pontosTuristicos c.pontosTuristicos

instance Linhas.validas.decidable (g : Linhas) (c : Carta) : Decidable (g.validas c) := by
  unfold Linhas.validas
  infer_instance

/-- A field of the card as `cadastrar_carta` reads it: the size of the line buffer, the
decision on a stripped line (the card with the value stored, or none when the line is
rejected), and the reader, which stores the value it returns in the card. -/
structure Campo where
  tam : Nat
  aceita : Carta → List Char → Option Carta
  ler : Carta → World → Outcome Carta

/-- The state: `read_estado`. -/
def campoEstado : Campo :=
  { tam := 64
    aceita := fun c l => ((naoVazia l).bind estadoAcc).map fun v => { c with estado := v }
    ler := fun c w =>
      (read_estado "Estado (A a H): " w).bind fun v w1 => .ret { c with estado := v } w1 }

/-- The code: `read_codigo` with the state already read. -/
def campoCodigo : Campo :=
  { tam := 64
    aceita := fun c l =>
      ((naoVazia l).bind (codigoAcc c.estado)).map fun v => { c with codigo := v }
    ler := fun c w =>
      (read_codigo ("Codigo da Carta (ex: " ++ String.singleton c.estado ++ "01): ")
        c.estado w).bind fun v w1 => .ret { c with codigo := v } w1 }

/-- The city name: `read_line` with the 100-byte buffer. -/
def campoNome : Campo :=
  { tam := 100
    aceita := fun c l => (naoVazia l).map fun v => { c with nomeCidade := v }
    ler := fun c w =>
      (read_line "Nome da Cidade: " 100 w).bind fun v w1 => .ret { c with nomeCidade := v } w1 }

/-- The population: `read_ulong`. -/
def campoPopulacao : Campo :=
  { tam := 128
    aceita := fun c l => ((naoVazia l).bind ulongAcc).map fun v => { c with populacao := v }
    ler := fun c w =>
      (read_ulong "Populacao: " w).bind fun v w1 => .ret { c with populacao := v } w1 }

/-- The area: the loop over `read_float` that asks for a value greater than zero. -/
def campoArea : Campo :=
  { tam := 128
    aceita := fun c l =>
      (((naoVazia l).bind floatAcc).bind areaAcc).map fun v => { c with area := v }
    ler := fun c w => (read_area w).bind fun v w1 => .ret { c with area := v } w1 }

/-- The PIB: `read_float`. -/
def campoPib : Campo :=
  { tam := 128
    aceita := fun c l => ((naoVazia l).bind floatAcc).map fun v => { c with pib := v }
    ler := fun c w =>
      (read_float "PIB (em bilhoes de reais): " w).bind fun v w1 => .ret { c with pib := v } w1 }

/-- The tourist spots: `read_int`. -/
def campoPontos : Campo :=
  { tam := 128
    aceita := fun c l =>
      ((naoVazia l).bind intAcc).map fun v => { c with pontosTuristicos := v }
    ler := fun c w =>
      (read_int "Numero de Pontos Turisticos: " w).bind fun v w1 =>
        .ret { c with pontosTuristicos := v } w1 }

/-- The seven fields in the order in which `cadastrar_carta` reads them. -/
def campos : List Campo :=
  [campoEstado, campoCodigo, campoNome, campoPopulacao, campoArea, campoPib, campoPontos]

/-- Reading a list of fields one after the other into a card. -/
def correr : List Campo → Carta → World → Outcome Carta
  | [], c, w => .ret c w
  | f :: fs, c, w => (f.ler c w).bind (correr fs)

/-- The card before any field is stored. -/
def cartaVazia : Carta :=
  { estado := NUL, codigo := [], nomeCidade := [], populacao := 0, area := F32.zero,
    pib := F32.zero, pontosTuristicos := 0, densidadePopulacional := F32.zero,
    pibPerCapita := F32.zero, superPoder := F32.zero }

/-- A line of 128 characters that is not a number: 127 letters followed by `5`. -/
def linhaRejeitada : List Char := List.replicate 127 'x' ++ "5".toList

/-- The card read from `entradaA` after `linhaRejeitada` is inserted before the population
line. -/
def cartaDeslocada : Carta :=
  derivar { cartaA with populacao := 5, area := F32.ofNat 100, pontosTuristicos := 1 }

/-- The card in which the first four fields of `entradaA` are stored. -/
def cartaParcial : Carta :=
  { cartaVazia with estado := 'A', codigo := "A01".toList, nomeCidade := "Sao Paulo".toList,
                    populacao := 100 }

/-! ## Lemmas and theorems -/

theorem fgetsAux_append : ∀ (n : Nat) (s : List Char), (fgetsAux n s).1 ++ (fgetsAux n s).2 = s
  | 0, s => by simp [fgetsAux]
  | _ + 1, [] => by simp [fgetsAux]
  | n + 1, c :: s => by
    by_cases h : c = '\n'
    · simp [fgetsAux, h]
    · simp [fgetsAux, h, fgetsAux_append n s]

theorem fgetsAux_progress (n : Nat) (c : Char) (s : List Char) :
    ((fgetsAux (n + 1) (c :: s)).2).length < (c :: s).length := by
  have h := fgetsAux_append n s
  by_cases hc : c = '\n'
  · simp [fgetsAux, hc]
  · simp only [fgetsAux, hc, if_false, List.length_cons]
    have : ((fgetsAux n s).1 ++ (fgetsAux n s).2).length = s.length := by rw [h]
    simp at this
    omega

theorem fgets_progress {n : Nat} (hn : 2 ≤ n) {s buf rest : List Char}
    (h : fgets n s = some (buf, rest)) : rest.length < s.length := by
  cases s with
  | nil => simp [fgets] at h
  | cons c s =>
    obtain ⟨k, rfl⟩ : ∃ k, n = k + 2 := ⟨n - 2, by omega⟩
    simp only [fgets, Nat.add_sub_cancel, Option.some.injEq] at h
    have := fgetsAux_progress k c s
    rw [show k + 2 - 1 = k + 1 by omega] at h
    rw [h] at this
    exact this

theorem fgetsAux_line : ∀ (n : Nat) (l rest : List Char), '\n' ∉ l → l.length < n →
    fgetsAux n (l ++ '\n' :: rest) = (l ++ ['\n'], rest)
  | 0, _, _, _, h => by simp at h
  | n + 1, [], rest, _, _ => by simp [fgetsAux]
  | n + 1, c :: l, rest, hl, hn => by
    have hc : c ≠ '\n' := fun h => hl (by simp [h])
    have hl2 : '\n' ∉ l := fun h => hl (by simp [h])
    have := fgetsAux_line n l rest hl2 (by simpa using hn)
    simp [fgetsAux, hc, this]

theorem cstr_eq_self {b : List Char} (h : NUL ∉ b) : cstr b = b := by
  unfold cstr
  rw [List.takeWhile_eq_self_iff]
  intro c hc
  simp
  intro h2
  exact h (h2 ▸ hc)

theorem strip_newline_snoc (l : List Char) : strip_newline (l ++ ['\n']) = strip_newline l := by
  unfold strip_newline
  rw [List.rdropWhile_concat]
  simp

theorem not_mem_cstr (b : List Char) : NUL ∉ cstr b := by
  unfold cstr
  intro h
  have := List.mem_takeWhile_imp h
  simp at this

theorem not_mem_strip (b : List Char) (h : NUL ∉ b) : NUL ∉ strip_newline b := by
  intro h2
  exact h (List.IsPrefix.subset ( List.rdropWhile_prefix _ b) h2)

theorem printf_stdin (w : World) (f : String) (a : List Arg) : (w.printf f a).stdin = w.stdin := rfl

theorem read_line_fuel_ret {p : String} {n : Nat} (hn : 2 ≤ n) :
    ∀ (fuel : Nat) (w : World) (line : List Char) (w1 : World),
      read_line_fuel p n fuel w = .ret line w1 →
      w1.stdin.length < w.stdin.length ∧ line ≠ [] ∧ NUL ∉ line := by
  intro fuel
  induction fuel with
  | zero => intro w line w1 h; simp [read_line_fuel] at h
  | succ k ih =>
    intro w line w1 h
    simp only [read_line_fuel, printf_stdin] at h
    cases hf : fgets n w.stdin with
    | none => simp [hf] at h
    | some br =>
      obtain ⟨buf, rest⟩ := br
      have hp := fgets_progress hn hf
      simp only [hf] at h
      cases hs : strip_newline (cstr buf) with
      | nil =>
        simp only [hs] at h
        have := ih _ _ _ h
        simp only [printf_stdin] at this
        exact ⟨by omega, this.2⟩
      | cons c cs =>
        simp only [hs, Outcome.ret.injEq] at h
        obtain ⟨h1, h2⟩ := h
        subst h1 h2
        refine ⟨hp, by simp, ?_⟩
        rw [← hs]
        exact not_mem_strip _ (not_mem_cstr buf)

theorem read_line_fuel_irrel {p : String} {n : Nat} (hn : 2 ≤ n) :
    ∀ (fuel fuel2 : Nat) (w : World), w.stdin.length < fuel → w.stdin.length < fuel2 →
      read_line_fuel p n fuel w = read_line_fuel p n fuel2 w := by
  intro fuel
  induction fuel with
  | zero => intro fuel2 w h; omega
  | succ k ih =>
    intro fuel2 w h1 h2
    obtain ⟨k2, rfl⟩ : ∃ k2, fuel2 = k2 + 1 := ⟨fuel2 - 1, by omega⟩
    simp only [read_line_fuel, printf_stdin]
    cases hf : fgets n w.stdin with
    | none => rfl
    | some br =>
      obtain ⟨buf, rest⟩ := br
      have hp := fgets_progress hn hf
      simp only
      cases hs : strip_newline (cstr buf) with
      | nil =>
        simp only
        apply ih
        · simp only [printf_stdin]; omega
        · simp only [printf_stdin]; omega
      | cons c cs => rfl

theorem fgets_cons (n : Nat) (s : List Char) (h : s ≠ []) :
    fgets n s = some (fgetsAux (n - 1) s) := by
  cases s with
  | nil => exact absurd rfl h
  | cons c s => rfl

/-- One iteration of `read_line`. -/
theorem read_line_eq {p : String} {n : Nat} (hn : 2 ≤ n) (w : World) :
    read_line p n w =
      match fgets n w.stdin with
      | none =>
        .exit 1 ((w.printf "%s" [.s p]).printf "\nEntrada encerrada (EOF). Finalizando.\n" [])
      | some (buf, rest) =>
        match strip_newline (cstr buf) with
        | [] =>
          read_line p n
            (World.printf ⟨rest, (w.printf "%s" [.s p]).stdout⟩
              "Entrada vazia. Tente novamente.\n" [])
        | c :: cs => .ret (c :: cs) ⟨rest, (w.printf "%s" [.s p]).stdout⟩ := by
  show read_line_fuel p n (w.stdin.length + 1) w = _
  rw [read_line_fuel]
  simp only [printf_stdin]
  cases hf : fgets n w.stdin with
  | none => rfl
  | some br =>
    obtain ⟨buf, rest⟩ := br
    have hp := fgets_progress hn hf
    simp only
    cases hs : strip_newline (cstr buf) with
    | nil =>
      simp only
      show _ = read_line_fuel p n _ _
      apply read_line_fuel_irrel hn
      · simp only [printf_stdin]; omega
      · simp only [printf_stdin]; omega
    | cons c cs => rfl

theorem read_line_ret {p : String} {n : Nat} (hn : 2 ≤ n) {w : World} {line : List Char}
    {w1 : World} (h : read_line p n w = .ret line w1) :
    w1.stdin.length < w.stdin.length ∧ line ≠ [] ∧ NUL ∉ line :=
  read_line_fuel_ret hn _ _ _ _ h

theorem read_line_fuel_total {p : String} {n : Nat} (hn : 2 ≤ n) :
    ∀ (fuel : Nat) (w : World), w.stdin.length < fuel → read_line_fuel p n fuel w ≠ .timeout := by
  intro fuel
  induction fuel with
  | zero => intro w h; omega
  | succ k ih =>
    intro w h1
    simp only [read_line_fuel, printf_stdin]
    cases hf : fgets n w.stdin with
    | none => simp
    | some br =>
      obtain ⟨buf, rest⟩ := br
      have hp := fgets_progress hn hf
      simp only
      cases hs : strip_newline (cstr buf) with
      | nil =>
        simp only
        apply ih
        simp only [printf_stdin]; omega
      | cons c cs => simp

theorem read_line_total {p : String} {n : Nat} (hn : 2 ≤ n) (w : World) :
    read_line p n w ≠ .timeout :=
  read_line_fuel_total hn _ _ (Nat.lt_succ_self _)

theorem fgetsAux_fill : ∀ (n : Nat) (l rest : List Char), '\n' ∉ l → l.length = n →
    fgetsAux n (l ++ '\n' :: rest) = (l, '\n' :: rest)
  | 0, [], rest, _, _ => by simp [fgetsAux]
  | 0, _ :: _, _, _, h => by simp at h
  | n + 1, [], _, _, h => by simp at h
  | n + 1, c :: l, rest, hl, hn => by
    have hc : c ≠ '\n' := fun h => hl (by simp [h])
    have hl2 : '\n' ∉ l := fun h => hl (by simp [h])
    have := fgetsAux_fill n l rest hl2 (by simpa using hn)
    simp [fgetsAux, hc, this]

theorem cstr_line {l : List Char} (hnul : NUL ∉ l) : cstr (l ++ ['\n']) = l ++ ['\n'] := by
  apply cstr_eq_self
  intro h
  rcases List.mem_append.1 h with h | h
  · exact hnul h
  · simp only [List.mem_singleton] at h
    exact absurd h (by decide)

/-- The C string that `fgets` and `strip_newline` produce from a line of text that fits
the buffer, and what is left on the stream. -/
theorem fgets_line {n : Nat} (hn : 2 ≤ n) {l : List Char} (rest : List Char)
    (hnl : '\n' ∉ l) (hnul : NUL ∉ l) (hlen : l.length + 1 ≤ n) :
    ∃ buf, fgets n (l ++ '\n' :: rest) = some (buf, leftover n l rest) ∧
      strip_newline (cstr buf) = strip_newline l := by
  by_cases h2 : l.length + 2 ≤ n
  · refine ⟨l ++ ['\n'], ?_, ?_⟩
    · rw [fgets_cons _ _ (by simp), fgetsAux_line (n - 1) l rest hnl (by omega)]
      simp [leftover, h2]
    · rw [cstr_line hnul, strip_newline_snoc]
  · refine ⟨l, ?_, ?_⟩
    · rw [fgets_cons _ _ (by simp), fgetsAux_fill (n - 1) l rest hnl (by omega)]
      simp [leftover, h2]
    · rw [cstr_eq_self hnul]

/-- A line of text that fits the buffer is delivered whole. -/
theorem read_line_line {p : String} {n : Nat} (hn : 2 ≤ n) {l : List Char} (rest : List Char)
    (out : List Printf) (hnl : '\n' ∉ l) (hnul : NUL ∉ l) (hlen : l.length + 1 ≤ n)
    (hne : strip_newline l ≠ []) :
    read_line p n ⟨l ++ '\n' :: rest, out⟩ =
      .ret (strip_newline l) ⟨leftover n l rest, out ++ [⟨"%s", [.s p]⟩]⟩ := by
  rw [read_line_eq hn]
  obtain ⟨buf, hf, hb⟩ := fgets_line hn rest hnl hnul hlen
  simp only [hf, hb]
  cases hs : strip_newline l with
  | nil => exact absurd hs hne
  | cons c cs => rfl

/-- An empty line of text that fits the buffer is skipped with a message. -/
theorem read_line_line_empty {p : String} {n : Nat} (hn : 2 ≤ n) {l : List Char}
    (rest : List Char) (out : List Printf) (hnl : '\n' ∉ l) (hnul : NUL ∉ l)
    (hlen : l.length + 1 ≤ n) (he : strip_newline l = []) :
    read_line p n ⟨l ++ '\n' :: rest, out⟩ =
      read_line p n
        ⟨leftover n l rest,
          out ++ [⟨"%s", [.s p]⟩, ⟨"Entrada vazia. Tente novamente.\n", []⟩]⟩ := by
  rw [read_line_eq hn]
  obtain ⟨buf, hf, hb⟩ := fgets_line hn rest hnl hnul hlen
  simp only [hf, hb, he]
  simp [World.printf]

/-! ## Retry loops

Every reader is a loop of the same shape: run a step that consumes input,
accept its result or print a message and start again. -/

section Loop

variable {α β : Type} {f : Nat → World → Outcome β} {step : World → Outcome α}
  {acc : α → Option β} {fmt : String} {args : List Arg}

theorem LoopEq.irrel (hl : LoopEq f step acc fmt args) (hs : StepOk step) :
    ∀ (k k2 : Nat) (w : World), w.stdin.length < k → w.stdin.length < k2 → f k w = f k2 w := by
  intro k
  induction k with
  | zero => intro k2 w h; omega
  | succ k ih =>
    intro k2 w h1 h2
    obtain ⟨j, rfl⟩ : ∃ j, k2 = j + 1 := ⟨k2 - 1, by omega⟩
    rw [hl.2, hl.2]
    cases hst : step w with
    | timeout => rfl
    | exit code w1 => rfl
    | ret a w1 =>
      have := hs.2 _ _ _ hst
      cases hacc : acc a with
      | some b => simp only [hacc]
      | none =>
        simp only [hacc]
        apply ih
        · simp only [printf_stdin]; omega
        · simp only [printf_stdin]; omega

theorem LoopEq.accept (hl : LoopEq f step acc fmt args) {w w1 : World} {a : α} {b : β}
    (hst : step w = .ret a w1) (hacc : acc a = some b) :
    f (w.stdin.length + 1) w = .ret b w1 := by
  rw [hl.2, hst]
  simp only [hacc]

theorem LoopEq.reject (hl : LoopEq f step acc fmt args) (hs : StepOk step) {w w1 : World}
    {a : α} (hst : step w = .ret a w1) (hacc : acc a = none) :
    f (w.stdin.length + 1) w =
      f ((w1.printf fmt args).stdin.length + 1) (w1.printf fmt args) := by
  rw [hl.2, hst]
  simp only [hacc]
  have := hs.2 _ _ _ hst
  apply hl.irrel hs
  · simp only [printf_stdin]; omega
  · simp only [printf_stdin]; omega

theorem LoopEq.exit (hl : LoopEq f step acc fmt args) {w w1 : World} {code : Nat}
    (hst : step w = .exit code w1) :
    f (w.stdin.length + 1) w = .exit code w1 := by
  rw [hl.2, hst]

theorem LoopEq.total (hl : LoopEq f step acc fmt args) (hs : StepOk step) :
    ∀ (k : Nat) (w : World), w.stdin.length < k → f k w ≠ .timeout := by
  intro k
  induction k with
  | zero => intro w h; omega
  | succ k ih =>
    intro w h1
    rw [hl.2]
    cases hst : step w with
    | timeout => exact absurd hst (hs.1 w)
    | exit code w1 => simp
    | ret a w1 =>
      have := hs.2 _ _ _ hst
      cases hacc : acc a with
      | some b => simp [hacc]
      | none =>
        simp only [hacc]
        apply ih
        simp only [printf_stdin]; omega

theorem LoopEq.shorter (hl : LoopEq f step acc fmt args) (hs : StepOk step) :
    ∀ (k : Nat) (w : World) (b : β) (w1 : World), f k w = .ret b w1 →
      w1.stdin.length < w.stdin.length := by
  intro k
  induction k with
  | zero => intro w b w1 h; rw [hl.1] at h; cases h
  | succ k ih =>
    intro w b w1 h
    rw [hl.2] at h
    cases hst : step w with
    | timeout => rw [hst] at h; cases h
    | exit code w2 => rw [hst] at h; cases h
    | ret a w2 =>
      have hlt := hs.2 _ _ _ hst
      rw [hst] at h
      simp only at h
      cases hacc : acc a with
      | some b2 =>
        rw [hacc] at h
        simp only [Outcome.ret.injEq] at h
        rw [← h.2]; exact hlt
      | none =>
        rw [hacc] at h
        have := ih _ _ _ h
        simp only [printf_stdin] at this
        omega

theorem LoopEq.congr_step (hl : LoopEq f step acc fmt args) (hs : StepOk step) {w w2 : World}
    (h : step w = step w2) :
    f (w.stdin.length + 1) w = f (w2.stdin.length + 1) w2 := by
  rw [hl.2, hl.2, h]
  cases hst : step w2 with
  | timeout => rfl
  | exit code w1 => rfl
  | ret a w1 =>
    have h2 := hs.2 _ _ _ hst
    have h1 := hs.2 _ _ _ (h.trans hst)
    cases hacc : acc a with
    | some b => simp only [hacc]
    | none =>
      simp only [hacc]
      apply hl.irrel hs
      · simp only [printf_stdin]; omega
      · simp only [printf_stdin]; omega

/-- A value returned by a retry loop was accepted from some reading. -/
theorem LoopEq.ret_acc (hl : LoopEq f step acc fmt args) :
    ∀ (k : Nat) (w : World) (b : β) (w1 : World), f k w = .ret b w1 →
      ∃ a w0, step w0 = .ret a w1 ∧ acc a = some b := by
  intro k
  induction k with
  | zero => intro w b w1 h; rw [hl.1] at h; cases h
  | succ k ih =>
    intro w b w1 h
    rw [hl.2] at h
    cases hst : step w with
    | timeout => rw [hst] at h; cases h
    | exit code w2 => rw [hst] at h; cases h
    | ret a w2 =>
      rw [hst] at h
      simp only at h
      cases hacc : acc a with
      | some b2 =>
        rw [hacc] at h
        simp only [Outcome.ret.injEq] at h
        exact ⟨a, w, by rw [hst, h.2], by rw [hacc, h.1]⟩
      | none =>
        rw [hacc] at h
        exact ih _ _ _ h

theorem LoopEq.stepOk (hl : LoopEq f step acc fmt args) (hs : StepOk step) :
    StepOk (fun w => f (w.stdin.length + 1) w) :=
  ⟨fun w => hl.total hs _ w (Nat.lt_succ_self _), fun w b w1 h => hl.shorter hs _ w b w1 h⟩

end Loop

theorem read_line_stepOk (p : String) {n : Nat} (hn : 2 ≤ n) : StepOk (read_line p n) :=
  ⟨read_line_total hn, fun _ _ _ h => (read_line_ret hn h).1⟩

theorem read_estado_loopEq (p : String) :
    LoopEq (read_estado_fuel p) (read_line p 64) estadoAcc
      "Valor invalido. Digite uma letra de A a H.\n" [] := by
  refine ⟨fun w => rfl, fun k w => ?_⟩
  rw [read_estado_fuel]
  cases read_line p 64 w with
  | timeout => rfl
  | exit code w1 => rfl
  | ret line w1 =>
    simp only [estadoAcc]
    split_ifs <;> rfl

theorem char_le_iff (a b : Char) : a ≤ b ↔ a.toNat ≤ b.toNat := by
  rw [Char.le_def]; exact Iff.rfl

theorem charAt_one_eq_nul {line : List Char} (h : NUL ∉ line) :
    charAt line 1 = NUL ↔ line.length ≤ 1 := by
  match line, h with
  | [], _ => simp [charAt]
  | [_], _ => simp [charAt]
  | a :: b :: t, h =>
    simp only [charAt, List.getD_cons_succ, List.getD_cons_zero, List.length_cons]
    constructor
    · intro hb; exact absurd (by simp [hb]) h
    · intro hl; omega

theorem toUpper_of_upper {c : Char} (h1 : 'A' ≤ c) (h2 : c ≤ 'H') : c.toUpper = c := by
  rw [char_le_iff] at h1 h2
  have e1 : 'A'.toNat = 65 := by decide
  have e2 : 'H'.toNat = 72 := by decide
  rw [e1] at h1; rw [e2] at h2
  unfold Char.toUpper
  simp only
  rw [if_neg]
  omega

theorem toUpper_of_lower {c : Char} (h1 : 'a' ≤ c) (h2 : c ≤ 'h') :
    Char.ofNat (c.toNat - ('a'.toNat - 'A'.toNat)) = c.toUpper := by
  rw [char_le_iff] at h1 h2
  have e1 : 'a'.toNat = 97 := by decide
  have e2 : 'h'.toNat = 104 := by decide
  have e3 : 'A'.toNat = 65 := by decide
  rw [e1] at h1; rw [e2] at h2
  unfold Char.toUpper
  simp only [e1, e3]
  rw [if_pos]
  omega

theorem upper_lower_disjoint {c : Char} (h2 : c ≤ 'H') : ¬ ('a' ≤ c) := by
  rw [char_le_iff] at h2 ⊢
  have e1 : 'a'.toNat = 97 := by decide
  have e2 : 'H'.toNat = 72 := by decide
  omega

/-- What `read_estado` decides on a delivered line. -/
theorem estadoAcc_single (c : Char) :
    estadoAcc [c] =
      if ('a' ≤ c ∧ c ≤ 'h') ∨ ('A' ≤ c ∧ c ≤ 'H') then some c.toUpper else none := by
  have h1 : charAt [c] 1 = NUL := rfl
  have h0 : charAt [c] 0 = c := rfl
  simp only [estadoAcc, h1, h0, and_true]
  by_cases hU : 'A' ≤ c ∧ c ≤ 'H'
  · rw [if_pos hU, if_pos (Or.inr hU), toUpper_of_upper hU.1 hU.2]
  · rw [if_neg hU]
    by_cases hL : 'a' ≤ c ∧ c ≤ 'h'
    · rw [if_pos hL, if_pos (Or.inl hL), toUpper_of_lower hL.1 hL.2]
    · rw [if_neg hL, if_neg (by tauto)]

theorem estadoAcc_long {line : List Char} (hnul : NUL ∉ line) (hlen : 2 ≤ line.length) :
    estadoAcc line = none := by
  have h1 : ¬ charAt line 1 = NUL := by
    rw [charAt_one_eq_nul hnul]; omega
  simp [estadoAcc, h1]

/-- A retry loop over `read_line` accepts a line of text that fits the buffer. -/
theorem LoopEq.line_accept {β : Type} {f : Nat → World → Outcome β} {p : String} {n : Nat}
    {acc : List Char → Option β} {fmt : String} {args : List Arg}
    (hl : LoopEq f (read_line p n) acc fmt args) (hn : 2 ≤ n) {l : List Char}
    (rest : List Char) (out : List Printf) (hnl : '\n' ∉ l) (hnul : NUL ∉ l)
    (hlen : l.length + 1 ≤ n) (hne : strip_newline l ≠ []) {b : β}
    (hacc : acc (strip_newline l) = some b) :
    f ((l ++ '\n' :: rest).length + 1) ⟨l ++ '\n' :: rest, out⟩ =
      .ret b ⟨leftover n l rest, out ++ [⟨"%s", [.s p]⟩]⟩ :=
  hl.accept (read_line_line hn rest out hnl hnul hlen hne) hacc

/-- A retry loop over `read_line` rejects a line of text that fits the buffer and goes on
with what is left on the stream. -/
theorem LoopEq.line_reject {β : Type} {f : Nat → World → Outcome β} {p : String} {n : Nat}
    {acc : List Char → Option β} {fmt : String} {args : List Arg}
    (hl : LoopEq f (read_line p n) acc fmt args) (hn : 2 ≤ n) {l : List Char}
    (rest : List Char) (out : List Printf) (hnl : '\n' ∉ l) (hnul : NUL ∉ l)
    (hlen : l.length + 1 ≤ n) (hne : strip_newline l ≠ [])
    (hacc : acc (strip_newline l) = none) :
    f ((l ++ '\n' :: rest).length + 1) ⟨l ++ '\n' :: rest, out⟩ =
      f ((leftover n l rest).length + 1)
        ⟨leftover n l rest, out ++ [⟨"%s", [.s p]⟩, ⟨fmt, args⟩]⟩ := by
  have h := hl.reject (read_line_stepOk p hn)
    (read_line_line hn rest out hnl hnul hlen hne) hacc
  simpa [World.printf] using h

/-- A retry loop over `read_line` skips an empty line of text that fits the buffer. -/
theorem LoopEq.line_empty {β : Type} {f : Nat → World → Outcome β} {p : String} {n : Nat}
    {acc : List Char → Option β} {fmt : String} {args : List Arg}
    (hl : LoopEq f (read_line p n) acc fmt args) (hn : 2 ≤ n) {l : List Char}
    (rest : List Char) (out : List Printf) (hnl : '\n' ∉ l) (hnul : NUL ∉ l)
    (hlen : l.length + 1 ≤ n) (he : strip_newline l = []) :
    f ((l ++ '\n' :: rest).length + 1) ⟨l ++ '\n' :: rest, out⟩ =
      f ((leftover n l rest).length + 1)
        ⟨leftover n l rest,
          out ++ [⟨"%s", [.s p]⟩, ⟨"Entrada vazia. Tente novamente.\n", []⟩]⟩ :=
  hl.congr_step (read_line_stepOk p hn) (read_line_line_empty hn rest out hnl hnul hlen he)

/-- C1 (amended). For every non-empty input line of at most 63 characters (the capacity of
the 64-byte buffer), `read_estado` accepts the line exactly when the line (trailing carriage
returns removed) is one character in a..h or A..H, and then returns its uppercase form; any
other such line is rejected and the reader goes on with what follows the line.
An input line is a line of text `l` followed by a newline: `l` holds no newline and no NUL.
What follows it on the stream is `leftover 64 l rest`: the text `rest` after the newline,
preceded by the newline itself when `l` has 63 characters. -/
theorem read_estado_accepts_iff (p : String) (l rest : List Char) (out : List Printf)
    (hnl : '\n' ∉ l) (hnul : NUL ∉ l) (hlen : l.length ≤ 63) (hne : strip_newline l ≠ []) :
    (∀ c, strip_newline l = [c] → (('a' ≤ c ∧ c ≤ 'h') ∨ ('A' ≤ c ∧ c ≤ 'H')) →
      read_estado p ⟨l ++ '\n' :: rest, out⟩ =
        .ret c.toUpper ⟨leftover 64 l rest, out ++ [⟨"%s", [.s p]⟩]⟩) ∧
    ((¬ ∃ c, strip_newline l = [c] ∧ (('a' ≤ c ∧ c ≤ 'h') ∨ ('A' ≤ c ∧ c ≤ 'H'))) →
      read_estado p ⟨l ++ '\n' :: rest, out⟩ =
        read_estado p
          ⟨leftover 64 l rest, out ++ [⟨"%s", [.s p]⟩,
            ⟨"Valor invalido. Digite uma letra de A a H.\n", []⟩]⟩) := by
  constructor
  · intro c hc hr
    apply (read_estado_loopEq p).line_accept (by decide) rest out hnl hnul (by omega) hne
    rw [hc, estadoAcc_single, if_pos hr]
  · intro hno
    apply (read_estado_loopEq p).line_reject (by decide) rest out hnl hnul (by omega) hne
    match hs : strip_newline l with
    | [] => exact absurd hs hne
    | [c] =>
      rw [estadoAcc_single, if_neg]
      intro hr
      exact hno ⟨c, hs, hr⟩
    | a :: b :: t =>
      apply estadoAcc_long
      · rw [← hs]; exact not_mem_strip _ hnul
      · simp

theorem read_estado_accepts_iff_witness :
    read_estado "Estado (A a H): " ⟨"b\r\nB02\n".toList, []⟩ =
        .ret 'B' ⟨"B02\n".toList, [⟨"%s", [.s "Estado (A a H): "]⟩]⟩ ∧
    read_estado "Estado (A a H): " ⟨"ab\nc\n".toList, []⟩ =
        read_estado "Estado (A a H): "
          ⟨"c\n".toList, [⟨"%s", [.s "Estado (A a H): "]⟩,
            ⟨"Valor invalido. Digite uma letra de A a H.\n", []⟩]⟩ :=
  ⟨(read_estado_accepts_iff "Estado (A a H): " "b\r".toList "B02\n".toList []
      (by decide) (by decide) (by decide) (by decide)).1 'b' (by decide) (by decide),
   (read_estado_accepts_iff "Estado (A a H): " "ab".toList "c\n".toList []
      (by decide) (by decide) (by decide) (by decide)).2 (by
        rintro ⟨c, hc, _⟩
        rw [show strip_newline "ab".toList = ['a', 'b'] by decide] at hc
        cases hc)⟩

/-- C1 (as stated) fails on a line of 64 characters, 63 times `x` and then `A`: the first
63 characters are rejected and the 64th, `A`, is then accepted as if it were a line of its
own, so `read_estado` returns `A` and does not go on to the next line, `B`. -/
theorem read_estado_long_line :
    (List.replicate 63 'x' ++ ['A']).length = 64 ∧
    read_estado "Estado (A a H): " ⟨List.replicate 63 'x' ++ ['A'] ++ "\nB\n".toList, []⟩ =
      .ret 'A' ⟨"B\n".toList,
        [⟨"%s", [.s "Estado (A a H): "]⟩,
         ⟨"Valor invalido. Digite uma letra de A a H.\n", []⟩,
         ⟨"%s", [.s "Estado (A a H): "]⟩]⟩ ∧
    read_estado "Estado (A a H): " ⟨List.replicate 63 'x' ++ ['A'] ++ "\nB\n".toList, []⟩ ≠
      read_estado "Estado (A a H): "
        ⟨"B\n".toList, [⟨"%s", [.s "Estado (A a H): "]⟩,
          ⟨"Valor invalido. Digite uma letra de A a H.\n", []⟩]⟩ := by
  decide!

theorem read_codigo_loopEq (p : String) (e : Char) :
    LoopEq (read_codigo_fuel p e) (read_line p 64) (codigoAcc e)
      "Codigo invalido. Use o formato %c01 a %c04 (ex: %c01).\n" [.c e, .c e, .c e] := by
  refine ⟨fun w => rfl, fun k w => ?_⟩
  rw [read_codigo_fuel]
  cases read_line p 64 w with
  | timeout => rfl
  | exit code w1 => rfl
  | ret line w1 =>
    simp only [codigoAcc]
    split_ifs <;> rfl

theorem toNat_ofNat_small (n : Nat) (h : n < 55296) : (Char.ofNat n).toNat = n := by
  have hv : n.isValidChar := Or.inl h
  simp only [Char.ofNat, hv, Char.ofNatAux, Char.toNat, dite_true]
  rfl

/-- For an expected state in A..H, the first-character test of `read_codigo`
is equality ignoring case. -/
theorem codigo_first_char {e : Char} (he1 : 'A' ≤ e) (he2 : e ≤ 'H') (c : Char) :
    (if 'a' ≤ c ∧ c ≤ 'h' then Char.ofNat (c.toNat - ('a'.toNat - 'A'.toNat)) else c) = e ↔
      c.toUpper = e := by
  by_cases hL : 'a' ≤ c ∧ c ≤ 'h'
  · rw [if_pos hL, toUpper_of_lower hL.1 hL.2]
  · rw [if_neg hL]
    constructor
    · intro h; rw [h]; exact toUpper_of_upper he1 he2
    · intro h
      rw [char_le_iff, char_le_iff] at hL
      rw [char_le_iff] at he1 he2
      have e1 : 'a'.toNat = 97 := by decide
      have e2 : 'h'.toNat = 104 := by decide
      have e3 : 'A'.toNat = 65 := by decide
      have e4 : 'H'.toNat = 72 := by decide
      rw [e1, e2] at hL
      rw [e3] at he1
      rw [e4] at he2
      unfold Char.toUpper at h
      simp only at h
      by_cases hz : c.toNat ≥ 97 ∧ c.toNat ≤ 122
      · rw [if_pos hz] at h
        have := toNat_ofNat_small (c.toNat - 32) (by omega)
        rw [h] at this
        omega
      · rw [if_neg hz] at h
        exact h

theorem codigoAcc_three {e : Char} (he1 : 'A' ≤ e) (he2 : e ≤ 'H') (c d1 d2 : Char) :
    codigoAcc e [c, d1, d2] =
      if c.toUpper = e ∧ '0' ≤ d1 ∧ d1 ≤ '9' ∧ '0' ≤ d2 ∧ d2 ≤ '9' ∧
          1 ≤ (d1.toNat - '0'.toNat) * 10 + (d2.toNat - '0'.toNat) ∧
          (d1.toNat - '0'.toNat) * 10 + (d2.toNat - '0'.toNat) ≤ 4 then
        some [e, d1, d2]
      else none := by
  have h0 : charAt [c, d1, d2] 0 = c := rfl
  have h1 : charAt [c, d1, d2] 1 = d1 := rfl
  have h2 : charAt [c, d1, d2] 2 = d2 := rfl
  have hl : [c, d1, d2].length = 3 := rfl
  have hz : '0'.toNat = 48 := by decide
  have key := codigo_first_char he1 he2 c
  unfold codigoAcc
  simp only [h0, h1, h2, hl, hz, true_and]
  simp only [hz] at key
  generalize (if 'a' ≤ c ∧ c ≤ 'h' then Char.ofNat (c.toNat - ('a'.toNat - 'A'.toNat))
    else c) = s0 at key ⊢
  by_cases hR : c.toUpper = e ∧ '0' ≤ d1 ∧ d1 ≤ '9' ∧ '0' ≤ d2 ∧ d2 ≤ '9' ∧
      1 ≤ (d1.toNat - 48) * 10 + (d2.toNat - 48) ∧
      (d1.toNat - 48) * 10 + (d2.toNat - 48) ≤ 4
  · rw [if_pos hR]
    obtain ⟨hc, a1, a2, a3, a4, n1, n2⟩ := hR
    have b1 := (char_le_iff _ _).1 a1
    have b3 := (char_le_iff _ _).1 a3
    rw [hz] at b1 b3
    rw [if_pos ⟨key.2 hc, a1, a2, a3, a4, by omega, by omega⟩, key.2 hc]
  · rw [if_neg hR, if_neg]
    rintro ⟨hs0, a1, a2, a3, a4, n1, n2⟩
    have b1 := (char_le_iff _ _).1 a1
    have b3 := (char_le_iff _ _).1 a3
    rw [hz] at b1 b3
    exact hR ⟨key.1 hs0, a1, a2, a3, a4, by omega, by omega⟩

theorem codigoAcc_length {e : Char} {line : List Char} (h : line.length ≠ 3) :
    codigoAcc e line = none := by
  simp [codigoAcc, h]

/-- C2 (amended). For every expected state letter `s` in A..H and every input line of at
most 63 characters (the capacity of the 64-byte buffer), `read_codigo` accepts the line
exactly when the line (trailing carriage returns removed) has length 3, its first character
equals `s` ignoring case, its second and third characters are decimal digits and the number
they form is between 1 and 4; the stored code is then `s` followed by the two digits. Any
other such line is rejected and the reader goes on with what follows the line, an empty
line with the message of `read_line` and a non-empty one with the message of `read_codigo`.
An input line is a line of text `l` followed by a newline: `l` holds no newline and no NUL.
What follows it on the stream is `leftover 64 l rest`: the text `rest` after the newline,
preceded by the newline itself when `l` has 63 characters. -/
theorem read_codigo_accepts_iff (p : String) (s : Char) (hs1 : 'A' ≤ s) (hs2 : s ≤ 'H')
    (l rest : List Char) (out : List Printf)
    (hnl : '\n' ∉ l) (hnul : NUL ∉ l) (hlen : l.length ≤ 63) :
    (∀ c d1 d2, strip_newline l = [c, d1, d2] → c.toUpper = s →
        '0' ≤ d1 → d1 ≤ '9' → '0' ≤ d2 → d2 ≤ '9' →
        1 ≤ (d1.toNat - '0'.toNat) * 10 + (d2.toNat - '0'.toNat) →
        (d1.toNat - '0'.toNat) * 10 + (d2.toNat - '0'.toNat) ≤ 4 →
      read_codigo p s ⟨l ++ '\n' :: rest, out⟩ =
        .ret [s, d1, d2] ⟨leftover 64 l rest, out ++ [⟨"%s", [.s p]⟩]⟩) ∧
    ((¬ ∃ c d1 d2, strip_newline l = [c, d1, d2] ∧ c.toUpper = s ∧
        '0' ≤ d1 ∧ d1 ≤ '9' ∧ '0' ≤ d2 ∧ d2 ≤ '9' ∧
        1 ≤ (d1.toNat - '0'.toNat) * 10 + (d2.toNat - '0'.toNat) ∧
        (d1.toNat - '0'.toNat) * 10 + (d2.toNat - '0'.toNat) ≤ 4) →
      read_codigo p s ⟨l ++ '\n' :: rest, out⟩ =
        read_codigo p s
          ⟨leftover 64 l rest, out ++ [⟨"%s", [.s p]⟩,
            if strip_newline l = [] then ⟨"Entrada vazia. Tente novamente.\n", []⟩
            else ⟨"Codigo invalido. Use o formato %c01 a %c04 (ex: %c01).\n",
              [.c s, .c s, .c s]⟩]⟩) := by
  constructor
  · intro c d1 d2 hl hc a1 a2 a3 a4 n1 n2
    have hne : strip_newline l ≠ [] := by rw [hl]; simp
    apply (read_codigo_loopEq p s).line_accept (by decide) rest out hnl hnul (by omega) hne
    rw [hl, codigoAcc_three hs1 hs2, if_pos ⟨hc, a1, a2, a3, a4, n1, n2⟩]
  · intro hno
    by_cases he : strip_newline l = []
    · rw [if_pos he]
      exact (read_codigo_loopEq p s).line_empty (by decide) rest out hnl hnul (by omega) he
    · rw [if_neg he]
      apply (read_codigo_loopEq p s).line_reject (by decide) rest out hnl hnul (by omega) he
      by_cases h3 : (strip_newline l).length = 3
      · match hl : strip_newline l, h3 with
        | [c, d1, d2], _ =>
          rw [codigoAcc_three hs1 hs2, if_neg]
          intro h
          exact hno ⟨c, d1, d2, hl, h⟩
      · exact codigoAcc_length h3

theorem read_codigo_accepts_iff_witness :
    read_codigo "Codigo da Carta (ex: B01): " 'B' ⟨"b03\nRio\n".toList, []⟩ =
        .ret "B03".toList ⟨"Rio\n".toList, [⟨"%s", [.s "Codigo da Carta (ex: B01): "]⟩]⟩ ∧
    read_codigo "Codigo da Carta (ex: B01): " 'B' ⟨"B05\nB01\n".toList, []⟩ =
        read_codigo "Codigo da Carta (ex: B01): " 'B'
          ⟨"B01\n".toList, [⟨"%s", [.s "Codigo da Carta (ex: B01): "]⟩,
            ⟨"Codigo invalido. Use o formato %c01 a %c04 (ex: %c01).\n",
              [.c 'B', .c 'B', .c 'B']⟩]⟩ ∧
    read_codigo "Codigo da Carta (ex: B01): " 'B' ⟨"A01\nB01\n".toList, []⟩ =
        read_codigo "Codigo da Carta (ex: B01): " 'B'
          ⟨"B01\n".toList, [⟨"%s", [.s "Codigo da Carta (ex: B01): "]⟩,
            ⟨"Codigo invalido. Use o formato %c01 a %c04 (ex: %c01).\n",
              [.c 'B', .c 'B', .c 'B']⟩]⟩ :=
  ⟨(read_codigo_accepts_iff "Codigo da Carta (ex: B01): " 'B' (by decide) (by decide)
      "b03".toList "Rio\n".toList [] (by decide) (by decide) (by decide)).1
      'b' '0' '3' (by decide) (by decide) (by decide) (by decide) (by decide) (by decide)
      (by decide) (by decide),
   (read_codigo_accepts_iff "Codigo da Carta (ex: B01): " 'B' (by decide) (by decide)
      "B05".toList "B01\n".toList [] (by decide) (by decide) (by decide)).2 (by
        rintro ⟨c, d1, d2, hl, -, -, -, -, -, -, h⟩
        rw [show strip_newline "B05".toList = ['B', '0', '5'] by decide] at hl
        cases hl
        exact absurd h (by decide)),
   (read_codigo_accepts_iff "Codigo da Carta (ex: B01): " 'B' (by decide) (by decide)
      "A01".toList "B01\n".toList [] (by decide) (by decide) (by decide)).2 (by
        rintro ⟨c, d1, d2, hl, h, -⟩
        rw [show strip_newline "A01".toList = ['A', '0', '1'] by decide] at hl
        cases hl
        exact absurd h (by decide))⟩

/-- C2 (as stated) fails on a line of 66 characters, 63 times `x` and then `B03`: the
first 63 characters are rejected and the last three are then accepted as if they were a
line, so `read_codigo` stores `B03` and does not go on to the next line. -/
theorem read_codigo_long_line :
    (List.replicate 63 'x' ++ "B03".toList).length = 66 ∧
    read_codigo "Codigo da Carta (ex: B01): " 'B'
        ⟨List.replicate 63 'x' ++ "B03".toList ++ "\nB01\n".toList, []⟩ =
      .ret "B03".toList ⟨"B01\n".toList,
        [⟨"%s", [.s "Codigo da Carta (ex: B01): "]⟩,
         ⟨"Codigo invalido. Use o formato %c01 a %c04 (ex: %c01).\n", [.c 'B', .c 'B', .c 'B']⟩,
         ⟨"%s", [.s "Codigo da Carta (ex: B01): "]⟩]⟩ ∧
    read_codigo "Codigo da Carta (ex: B01): " 'B'
        ⟨List.replicate 63 'x' ++ "B03".toList ++ "\nB01\n".toList, []⟩ ≠
      read_codigo "Codigo da Carta (ex: B01): " 'B'
        ⟨"B01\n".toList, [⟨"%s", [.s "Codigo da Carta (ex: B01): "]⟩,
          ⟨"Codigo invalido. Use o formato %c01 a %c04 (ex: %c01).\n",
            [.c 'B', .c 'B', .c 'B']⟩]⟩ := by
  decide!

theorem read_ulong_loopEq (p : String) :
    LoopEq (read_ulong_fuel p) (read_line p 128) ulongAcc
      "Valor invalido. Digite um numero inteiro (ex: 123).\n" [] := by
  refine ⟨fun w => rfl, fun k w => ?_⟩
  rw [read_ulong_fuel]
  cases read_line p 128 w with
  | timeout => rfl
  | exit code w1 => rfl
  | ret line w1 =>
    simp only [ulongAcc]
    split_ifs <;> rfl

theorem read_int_loopEq (p : String) :
    LoopEq (read_int_fuel p) (read_line p 128) intAcc
      "Valor invalido. Digite um numero inteiro (ex: 50).\n" [] := by
  refine ⟨fun w => rfl, fun k w => ?_⟩
  rw [read_int_fuel]
  cases read_line p 128 w with
  | timeout => rfl
  | exit code w1 => rfl
  | ret line w1 =>
    simp only [intAcc]
    split_ifs <;> rfl

theorem read_float_loopEq (p : String) :
    LoopEq (read_float_fuel p) (read_line p 128) floatAcc
      "Valor invalido. Digite um numero (use ponto, ex: 12.5).\n" [] := by
  refine ⟨fun w => rfl, fun k w => ?_⟩
  rw [read_float_fuel]
  cases read_line p 128 w with
  | timeout => rfl
  | exit code w1 => rfl
  | ret line w1 =>
    simp only [floatAcc]
    split_ifs <;> rfl

theorem read_area_loopEq :
    LoopEq read_area_fuel (read_float "Area (km2): ") areaAcc
      "Area invalida. Digite um valor maior que 0.\n" [] := by
  refine ⟨fun w => rfl, fun k w => ?_⟩
  rw [read_area_fuel]
  cases read_float "Area (km2): " w with
  | timeout => rfl
  | exit code w1 => rfl
  | ret line w1 =>
    simp only [areaAcc]
    split_ifs <;> rfl

theorem read_estado_stepOk (p : String) : StepOk (read_estado p) :=
  (read_estado_loopEq p).stepOk (read_line_stepOk p (by decide))

theorem read_codigo_stepOk (p : String) (e : Char) : StepOk (read_codigo p e) :=
  (read_codigo_loopEq p e).stepOk (read_line_stepOk p (by decide))

theorem read_ulong_stepOk (p : String) : StepOk (read_ulong p) :=
  (read_ulong_loopEq p).stepOk (read_line_stepOk p (by decide))

theorem read_int_stepOk (p : String) : StepOk (read_int p) :=
  (read_int_loopEq p).stepOk (read_line_stepOk p (by decide))

theorem read_float_stepOk (p : String) : StepOk (read_float p) :=
  (read_float_loopEq p).stepOk (read_line_stepOk p (by decide))

theorem read_area_stepOk : StepOk read_area :=
  read_area_loopEq.stepOk (read_float_stepOk _)

theorem skipBlanks_cons {c : Char} {t : List Char} (h1 : c ≠ ' ') (h2 : c ≠ '\t') :
    skipBlanks (c :: t) ≠ [] := by
  have h : (c == ' ' || c == '\t') = false := by simp [h1, h2]
  unfold skipBlanks
  rw [List.dropWhile_cons_of_neg (by simp [h])]
  simp

theorem strtoul_nil : (strtoul []).rest = [] := rfl

theorem strtol_nil : (strtol []).rest = [] := rfl

theorem strtof_nil : (strtof []).rest = [] := rfl

/-- C8 (amended). For every numeric field reader (`read_ulong`, `read_int`, `read_float`)
and every input line of at most 127 characters (the capacity of the 128-byte buffer): when
the numeric prefix converted by `strtoul`, `strtol` or `strtof` is followed by a character
that is neither a space nor a tab, the line is rejected and the reader goes on with what
follows the line, so the value of the prefix is never returned.
An input line is a line of text `l` followed by a newline: `l` holds no newline and no NUL.
What follows it on the stream is `leftover 128 l rest`: the text `rest` after the newline,
preceded by the newline itself when `l` has 127 characters. -/
theorem numeric_readers_reject_suffix (p : String) (l rest : List Char) (out : List Printf)
    (hnl : '\n' ∉ l) (hnul : NUL ∉ l) (hlen : l.length ≤ 127) :
    (∀ c t, (strtoul (strip_newline l)).rest = c :: t → c ≠ ' ' → c ≠ '\t' →
      read_ulong p ⟨l ++ '\n' :: rest, out⟩ =
        read_ulong p ⟨leftover 128 l rest, out ++ [⟨"%s", [.s p]⟩,
          ⟨"Valor invalido. Digite um numero inteiro (ex: 123).\n", []⟩]⟩) ∧
    (∀ c t, (strtol (strip_newline l)).rest = c :: t → c ≠ ' ' → c ≠ '\t' →
      read_int p ⟨l ++ '\n' :: rest, out⟩ =
        read_int p ⟨leftover 128 l rest, out ++ [⟨"%s", [.s p]⟩,
          ⟨"Valor invalido. Digite um numero inteiro (ex: 50).\n", []⟩]⟩) ∧
    (∀ c t, (strtof (strip_newline l)).rest = c :: t → c ≠ ' ' → c ≠ '\t' →
      read_float p ⟨l ++ '\n' :: rest, out⟩ =
        read_float p ⟨leftover 128 l rest, out ++ [⟨"%s", [.s p]⟩,
          ⟨"Valor invalido. Digite um numero (use ponto, ex: 12.5).\n", []⟩]⟩) := by
  refine ⟨fun c t h h1 h2 => ?_, fun c t h h1 h2 => ?_, fun c t h h1 h2 => ?_⟩
  · have hne : strip_newline l ≠ [] := by
      intro he; rw [he, strtoul_nil] at h; cases h
    apply (read_ulong_loopEq p).line_reject (by decide) rest out hnl hnul (by omega) hne
    simp [ulongAcc, h, skipBlanks_cons h1 h2]
  · have hne : strip_newline l ≠ [] := by
      intro he; rw [he, strtol_nil] at h; cases h
    apply (read_int_loopEq p).line_reject (by decide) rest out hnl hnul (by omega) hne
    simp [intAcc, h, skipBlanks_cons h1 h2]
  · have hne : strip_newline l ≠ [] := by
      intro he; rw [he, strtof_nil] at h; cases h
    apply (read_float_loopEq p).line_reject (by decide) rest out hnl hnul (by omega) hne
    simp [floatAcc, h, skipBlanks_cons h1 h2]

theorem numeric_readers_reject_suffix_witness :
    read_ulong "Populacao: " ⟨"10x\n7\n".toList, []⟩ =
      read_ulong "Populacao: " ⟨"7\n".toList, [⟨"%s", [.s "Populacao: "]⟩,
        ⟨"Valor invalido. Digite um numero inteiro (ex: 123).\n", []⟩]⟩ ∧
    read_int "Numero de Pontos Turisticos: " ⟨"123abc\n7\n".toList, []⟩ =
      read_int "Numero de Pontos Turisticos: "
        ⟨"7\n".toList, [⟨"%s", [.s "Numero de Pontos Turisticos: "]⟩,
          ⟨"Valor invalido. Digite um numero inteiro (ex: 50).\n", []⟩]⟩ ∧
    read_float "Area (km2): " ⟨"10x\n7\n".toList, []⟩ =
      read_float "Area (km2): " ⟨"7\n".toList, [⟨"%s", [.s "Area (km2): "]⟩,
        ⟨"Valor invalido. Digite um numero (use ponto, ex: 12.5).\n", []⟩]⟩ :=
  ⟨(numeric_readers_reject_suffix "Populacao: " "10x".toList "7\n".toList []
      (by decide) (by decide) (by decide)).1 'x' [] (by decide!) (by decide) (by decide),
   (numeric_readers_reject_suffix "Numero de Pontos Turisticos: " "123abc".toList "7\n".toList
      [] (by decide) (by decide) (by decide)).2.1 'a' "bc".toList (by decide!) (by decide)
      (by decide),
   (numeric_readers_reject_suffix "Area (km2): " "10x".toList "7\n".toList []
      (by decide) (by decide) (by decide)).2.2 'x' [] (by decide!) (by decide) (by decide)⟩

/-- C8 (as stated) fails on a line of 128 characters, 126 zeros and then `5x`: the first
127 characters are read as a line of their own, so `read_ulong` returns 5, the value of the
numeric prefix, although the prefix is followed by `x`, and does not go on to the next
line. -/
theorem read_ulong_long_line :
    (strtoul (List.replicate 126 '0' ++ "5x".toList)).val = 5 ∧
    (strtoul (List.replicate 126 '0' ++ "5x".toList)).rest = ['x'] ∧
    read_ulong "Populacao: " ⟨List.replicate 126 '0' ++ "5x".toList ++ "\n7\n".toList, []⟩ =
      .ret 5 ⟨"x\n7\n".toList, [⟨"%s", [.s "Populacao: "]⟩]⟩ ∧
    read_ulong "Populacao: " ⟨List.replicate 126 '0' ++ "5x".toList ++ "\n7\n".toList, []⟩ ≠
      read_ulong "Populacao: "
        ⟨"7\n".toList, [⟨"%s", [.s "Populacao: "]⟩,
          ⟨"Valor invalido. Digite um numero inteiro (ex: 123).\n", []⟩]⟩ := by
  decide!

theorem Outcome.bind_eq_ret {α β : Type} {x : Outcome α} {k : α → World → Outcome β}
    {b : β} {w' : World} (h : x.bind k = .ret b w') :
    ∃ a w1, x = .ret a w1 ∧ k a w1 = .ret b w' := by
  cases x with
  | ret a w1 => exact ⟨a, w1, rfl, h⟩
  | exit code w1 => cases h
  | timeout => cases h

/-- The seven readings behind a card returned by `cadastrar_carta`. -/
theorem cadastrar_carta_ret {idx : Int} {w w' : World} {c : Carta}
    (h : cadastrar_carta idx w = .ret c w') :
    ∃ w1 w2 w3 w4 w5 w6,
      read_estado "Estado (A a H): " (w.printf "=== Cadastro da Carta %d ===\n" [.d idx]) =
        .ret c.estado w1 ∧
      read_codigo ("Codigo da Carta (ex: " ++ String.singleton c.estado ++ "01): ") c.estado w1 =
        .ret c.codigo w2 ∧
      read_line "Nome da Cidade: " 100 w2 = .ret c.nomeCidade w3 ∧
      read_ulong "Populacao: " w3 = .ret c.populacao w4 ∧
      read_area w4 = .ret c.area w5 ∧
      read_float "PIB (em bilhoes de reais): " w5 = .ret c.pib w6 ∧
      read_int "Numero de Pontos Turisticos: " w6 = .ret c.pontosTuristicos w' := by
  unfold cadastrar_carta at h
  obtain ⟨estado, w1, h1, h⟩ := Outcome.bind_eq_ret h
  obtain ⟨codigo, w2, h2, h⟩ := Outcome.bind_eq_ret h
  obtain ⟨nome, w3, h3, h⟩ := Outcome.bind_eq_ret h
  obtain ⟨pop, w4, h4, h⟩ := Outcome.bind_eq_ret h
  obtain ⟨area, w5, h5, h⟩ := Outcome.bind_eq_ret h
  obtain ⟨pib, w6, h6, h⟩ := Outcome.bind_eq_ret h
  obtain ⟨pts, w7, h7, h⟩ := Outcome.bind_eq_ret h
  simp only [Outcome.ret.injEq] at h
  obtain ⟨hc, hw⟩ := h
  subst hc hw
  exact ⟨w1, w2, w3, w4, w5, w6, h1, h2, h3, h4, h5, h6, h7⟩

/-- The derived fields of a card returned by `cadastrar_carta`, in terms of its base fields. -/
theorem cadastrar_carta_derived {idx : Int} {w w' : World} {c : Carta}
    (h : cadastrar_carta idx w = .ret c w') :
    c.densidadePopulacional =
      (if c.populacao = 0 then F32.zero else F32.ofNat c.populacao / c.area) ∧
    c.pibPerCapita =
      (if c.populacao = 0 then F32.zero
       else (c.pib * F32.ofNat 1000000000) / F32.ofNat c.populacao) ∧
    c.superPoder =
      F32.ofNat c.populacao + c.area + c.pib + F32.ofInt c.pontosTuristicos + c.pibPerCapita
        + (if F32.gt c.densidadePopulacional F32.zero = true then
            F32.one / c.densidadePopulacional
          else F32.zero) := by
  unfold cadastrar_carta at h
  obtain ⟨estado, w1, -, h⟩ := Outcome.bind_eq_ret h
  obtain ⟨codigo, w2, -, h⟩ := Outcome.bind_eq_ret h
  obtain ⟨nome, w3, -, h⟩ := Outcome.bind_eq_ret h
  obtain ⟨pop, w4, -, h⟩ := Outcome.bind_eq_ret h
  obtain ⟨area, w5, -, h⟩ := Outcome.bind_eq_ret h
  obtain ⟨pib, w6, -, h⟩ := Outcome.bind_eq_ret h
  obtain ⟨pts, w7, -, h⟩ := Outcome.bind_eq_ret h
  simp only [Outcome.ret.injEq] at h
  obtain ⟨hc, -⟩ := h
  subst hc
  exact ⟨rfl, rfl, rfl⟩

theorem F32.lt_irrefl (x : F32) : F32.lt x x = false := by
  cases x with
  | nan => rfl
  | inf a => cases a <;> rfl
  | fin s m e => simp [F32.lt]

/-- C4. For every card returned by `cadastrar_carta`, `superPoder` is the binary32 sum, taken
left to right, of the population, the area, the PIB, the tourist spots, the PIB per capita
and the inverse density, the inverse density being `1 / densidadePopulacional` when the
density is greater than zero and zero otherwise. -/
theorem superPoder_formula (idx : Int) (w w' : World) (c : Carta)
    (h : cadastrar_carta idx w = .ret c w') :
    c.superPoder =
      F32.ofNat c.populacao + c.area + c.pib + F32.ofInt c.pontosTuristicos + c.pibPerCapita
        + (if F32.gt c.densidadePopulacional F32.zero = true then
            F32.one / c.densidadePopulacional
          else F32.zero) :=
  (cadastrar_carta_derived h).2.2

/-- C5. For every card returned by `cadastrar_carta` with population 0, whatever its other
fields, the population density and the PIB per capita are exactly `0.0f`. -/
theorem zero_population (idx : Int) (w w' : World) (c : Carta)
    (h : cadastrar_carta idx w = .ret c w') (hp : c.populacao = 0) :
    c.densidadePopulacional = F32.zero ∧ c.pibPerCapita = F32.zero := by
  obtain ⟨h1, h2, -⟩ := cadastrar_carta_derived h
  rw [h1, h2, if_pos hp, if_pos hp]
  exact ⟨rfl, rfl⟩

/-- C6. For every card returned by `cadastrar_carta` with population greater than 0, the
population density is the binary32 quotient of the population by the area; population
1,000,000 and area 500.0 give the density 2000.0. -/
theorem densidade_formula (idx : Int) (w w' : World) (c : Carta)
    (h : cadastrar_carta idx w = .ret c w') (hp : 0 < c.populacao) :
    c.densidadePopulacional = F32.ofNat c.populacao / c.area ∧
    (c.populacao = 1000000 → c.area = F32.ofNat 500 →
      c.densidadePopulacional = F32.ofNat 2000) := by
  obtain ⟨h1, -, -⟩ := cadastrar_carta_derived h
  rw [if_neg (by omega)] at h1
  refine ⟨h1, fun e1 e2 => ?_⟩
  rw [h1, e1, e2]
  decide!

/-- C7. For every card returned by `cadastrar_carta` with population greater than 0, the PIB
per capita is the binary32 quotient of `pib * 1e9` by the population; population 2,000,000
and PIB 10.0 give 5000.0. -/
theorem pibPerCapita_formula (idx : Int) (w w' : World) (c : Carta)
    (h : cadastrar_carta idx w = .ret c w') (hp : 0 < c.populacao) :
    c.pibPerCapita = (c.pib * F32.ofNat 1000000000) / F32.ofNat c.populacao ∧
    (c.populacao = 2000000 → c.pib = F32.ofNat 10 → c.pibPerCapita = F32.ofNat 5000) := by
  obtain ⟨-, h2, -⟩ := cadastrar_carta_derived h
  rw [if_neg (by omega)] at h2
  refine ⟨h2, fun e1 e2 => ?_⟩
  rw [h2, e1, e2]
  decide!

theorem imprimir_carta_stdin (idx : Int) (c : Carta) (w : World) :
    (imprimir_carta idx c w).stdin = w.stdin := rfl

theorem imprimir_resultado_eq (label : String) (b : Bool) (w : World) :
    imprimir_resultado label b w =
      ⟨w.stdin, w.stdout ++ [if b = true then linha label 1 1 else linha label 2 0]⟩ := by
  cases b <;> rfl

/-- C3. For every pair of cards read by `main`, the output ends with the seven comparison
lines for population, area, PIB, tourist spots, density, PIB per capita and super power, in
that order; each line names card 1 with indicator 1 exactly when card 1's value is strictly
greater than card 2's (strictly lower for the density) and otherwise names card 2 with
indicator 0, so a tie goes to card 2; with densities 100 and 50 the density line names
card 2. -/
theorem main_comparisons (w w1 w2 : World) (c1 c2 : Carta)
    (h1 : cadastrar_carta 1 w = .ret c1 w1)
    (h2 : cadastrar_carta 2 (w1.printf "\n" []) = .ret c2 w2) :
    main w = .ret 0 ⟨w2.stdin,
      (((imprimir_carta 2 c2 (imprimir_carta 1 c1 w2)).printf
          "\n==============================\n" []).printf
          "Comparacao de Cartas:\n\n" []).stdout ++
        [if c1.populacao > c2.populacao then linha "Populacao" 1 1 else linha "Populacao" 2 0,
         if F32.gt c1.area c2.area = true then linha "Area" 1 1 else linha "Area" 2 0,
         if F32.gt c1.pib c2.pib = true then linha "PIB" 1 1 else linha "PIB" 2 0,
         if c1.pontosTuristicos > c2.pontosTuristicos then linha "Pontos Turisticos" 1 1
           else linha "Pontos Turisticos" 2 0,
         if F32.lt c1.densidadePopulacional c2.densidadePopulacional = true then
           linha "Densidade Populacional" 1 1 else linha "Densidade Populacional" 2 0,
         if F32.gt c1.pibPerCapita c2.pibPerCapita = true then linha "PIB per Capita" 1 1
           else linha "PIB per Capita" 2 0,
         if F32.gt c1.superPoder c2.superPoder = true then linha "Super Poder" 1 1
           else linha "Super Poder" 2 0]⟩ ∧
    (c1.densidadePopulacional = F32.ofNat 100 → c2.densidadePopulacional = F32.ofNat 50 →
      (if F32.lt c1.densidadePopulacional c2.densidadePopulacional = true then
        linha "Densidade Populacional" 1 1 else linha "Densidade Populacional" 2 0) =
        linha "Densidade Populacional" 2 0) ∧
    (∀ x : F32, F32.gt x x = false ∧ F32.lt x x = false) := by
  refine ⟨?_, fun e1 e2 => ?_, fun x => ⟨F32.lt_irrefl x, F32.lt_irrefl x⟩⟩
  · unfold main
    rw [h1]
    simp only [Outcome.bind]
    rw [h2]
    simp only [imprimir_resultado_eq, decide_eq_true_eq, List.append_assoc, List.singleton_append,
      List.cons_append, List.nil_append, printf_stdin, imprimir_carta_stdin]
  · rw [e1, e2, if_neg]
    decide!

theorem main_comparisons_witness :
    cadastrar_carta 1 ⟨entradaA ++ entradaB, []⟩ =
      .ret cartaA ⟨entradaB, saidaCadastro 1 'A'⟩ ∧
    cadastrar_carta 2 ⟨entradaB, saidaCadastro 1 'A' ++ [⟨"\n", []⟩]⟩ =
      .ret cartaB ⟨[], saidaCadastro 1 'A' ++ [⟨"\n", []⟩] ++ saidaCadastro 2 'B'⟩ ∧
    (if F32.lt cartaA.densidadePopulacional cartaB.densidadePopulacional = true then
        linha "Densidade Populacional" 1 1 else linha "Densidade Populacional" 2 0) =
      linha "Densidade Populacional" 2 0 :=
  ⟨by decide!, by decide!,
    (main_comparisons ⟨entradaA ++ entradaB, []⟩ ⟨entradaB, saidaCadastro 1 'A'⟩
      ⟨[], saidaCadastro 1 'A' ++ [⟨"\n", []⟩] ++ saidaCadastro 2 'B'⟩ cartaA cartaB
      (by decide!) (by decide!)).2.1 rfl rfl⟩

theorem superPoder_formula_witness :
    cartaA.superPoder =
      F32.ofNat 100 + F32.ofNat 1 + F32.ofNat 1 + F32.ofInt 0 + F32.ofNat 10000000
        + F32.one / F32.ofNat 100 :=
  superPoder_formula 1 ⟨entradaA, []⟩ ⟨[], saidaCadastro 1 'A'⟩ cartaA (by decide!)

theorem zero_population_witness :
    cartaC.populacao = 0 ∧ cartaC.densidadePopulacional = F32.zero ∧
      cartaC.pibPerCapita = F32.zero :=
  ⟨rfl, zero_population 1 ⟨entradaC, []⟩ ⟨[], saidaCadastro 1 'C'⟩ cartaC (by decide!) rfl⟩

theorem densidade_formula_witness :
    cadastrar_carta 1 ⟨entradaD, []⟩ = .ret cartaD ⟨[], saidaCadastro 1 'D'⟩ ∧
    cartaD.densidadePopulacional = F32.ofNat 2000 :=
  ⟨by decide!,
    (densidade_formula 1 ⟨entradaD, []⟩ ⟨[], saidaCadastro 1 'D'⟩ cartaD (by decide!)
      (by decide)).2 rfl rfl⟩

theorem pibPerCapita_formula_witness :
    cadastrar_carta 1 ⟨entradaE, []⟩ = .ret cartaE ⟨[], saidaCadastro 1 'E'⟩ ∧
    cartaE.pibPerCapita = F32.ofNat 5000 :=
  ⟨by decide!,
    (pibPerCapita_formula 1 ⟨entradaE, []⟩ ⟨[], saidaCadastro 1 'E'⟩ cartaE (by decide!)
      (by decide)).2 rfl rfl⟩

/-- C9. On the input line `-5` the population reader does not re-prompt: `strtoul` accepts
the sign and `read_ulong` returns `2^64 - 5`. -/
theorem read_ulong_minus_five :
    read_ulong "Populacao: " ⟨"-5\n".toList, []⟩ =
      .ret 18446744073709551611 ⟨[], [⟨"%s", [.s "Populacao: "]⟩]⟩ := by
  decide!

/-- C10. On an input line made only of spaces or tabs the integer readers do not
re-prompt: `strtoul` and `strtol` convert nothing, the blanks are then skipped as trailing
white space, and `read_ulong` and `read_int` return 0. -/
theorem blank_line_read_as_zero :
    read_ulong "Populacao: " ⟨"   \n".toList, []⟩ =
      .ret 0 ⟨[], [⟨"%s", [.s "Populacao: "]⟩]⟩ ∧
    read_int "Numero de Pontos Turisticos: " ⟨" \t\n".toList, []⟩ =
      .ret 0 ⟨[], [⟨"%s", [.s "Numero de Pontos Turisticos: "]⟩]⟩ := by
  decide!

/-- What `main` returns when both cards are read. -/
theorem main_ret {w w1 w2 : World} {c1 c2 : Carta}
    (h1 : cadastrar_carta 1 w = .ret c1 w1)
    (h2 : cadastrar_carta 2 (w1.printf "\n" []) = .ret c2 w2) :
    main w = .ret 0
      (imprimir_resultado "Super Poder" (F32.gt c1.superPoder c2.superPoder)
      (imprimir_resultado "PIB per Capita" (F32.gt c1.pibPerCapita c2.pibPerCapita)
      (imprimir_resultado "Densidade Populacional"
        (F32.lt c1.densidadePopulacional c2.densidadePopulacional)
      (imprimir_resultado "Pontos Turisticos"
        (decide (c1.pontosTuristicos > c2.pontosTuristicos))
      (imprimir_resultado "PIB" (F32.gt c1.pib c2.pib)
      (imprimir_resultado "Area" (F32.gt c1.area c2.area)
      (imprimir_resultado "Populacao" (decide (c1.populacao > c2.populacao))
        (((imprimir_carta 2 c2 (imprimir_carta 1 c1 w2)).printf
          "\n==============================\n" []).printf
          "Comparacao de Cartas:\n\n" [])))))))) := by
  unfold main
  rw [h1]
  simp only [Outcome.bind]
  rw [h2]

theorem read_area_accept {w w1 : World} {a : F32} (h : read_float "Area (km2): " w = .ret a w1)
    (hp : F32.gt a F32.zero = true) : read_area w = .ret a w1 :=
  read_area_loopEq.accept h (by simp [areaAcc, hp])

theorem read_area_reject {w w1 : World} {a : F32} (h : read_float "Area (km2): " w = .ret a w1)
    (hp : F32.gt a F32.zero = false) :
    read_area w = read_area (w1.printf "Area invalida. Digite um valor maior que 0.\n" []) :=
  read_area_loopEq.reject (read_float_stepOk _) h (by simp [areaAcc, hp])

theorem read_float_line_accept (p : String) {l : List Char} (rest : List Char)
    (out : List Printf) (hnl : '\n' ∉ l) (hnul : NUL ∉ l) (hlen : l.length ≤ 127)
    (hne : strip_newline l ≠ []) {b : F32} (hacc : floatAcc (strip_newline l) = some b) :
    read_float p ⟨l ++ '\n' :: rest, out⟩ =
      .ret b ⟨leftover 128 l rest, out ++ [⟨"%s", [.s p]⟩]⟩ :=
  (read_float_loopEq p).line_accept (by decide) rest out hnl hnul (by omega) hne hacc

/-- C11. In the area loop of `cadastrar_carta` a value returned by `read_float` is accepted
exactly when it is strictly greater than zero; otherwise the message is printed and the area
is read again. The input lines `0` and `-5` are rejected and the line `0.01` is accepted. -/
theorem area_loop_accepts_iff (w w1 : World) (a : F32)
    (h : read_float "Area (km2): " w = .ret a w1) :
    (F32.gt a F32.zero = true → read_area w = .ret a w1) ∧
    (F32.gt a F32.zero = false →
      read_area w =
        read_area (w1.printf "Area invalida. Digite um valor maior que 0.\n" [])) ∧
    (∀ rest out, read_area ⟨"0".toList ++ '\n' :: rest, out⟩ =
      read_area ⟨rest, out ++ [⟨"%s", [.s "Area (km2): "]⟩,
        ⟨"Area invalida. Digite um valor maior que 0.\n", []⟩]⟩) ∧
    (∀ rest out, read_area ⟨"-5".toList ++ '\n' :: rest, out⟩ =
      read_area ⟨rest, out ++ [⟨"%s", [.s "Area (km2): "]⟩,
        ⟨"Area invalida. Digite um valor maior que 0.\n", []⟩]⟩) ∧
    (∀ rest out, read_area ⟨"0.01".toList ++ '\n' :: rest, out⟩ =
      .ret (F32.round false 1 100) ⟨rest, out ++ [⟨"%s", [.s "Area (km2): "]⟩]⟩) := by
  refine ⟨read_area_accept h, read_area_reject h, fun rest out => ?_, fun rest out => ?_,
    fun rest out => ?_⟩
  · have hf := read_float_line_accept "Area (km2): " (l := "0".toList) rest out
      (by decide) (by decide) (by decide) (by decide) (b := F32.zero) (by decide!)
    have := read_area_reject hf (by decide!)
    simpa [World.printf, leftover] using this
  · have hf := read_float_line_accept "Area (km2): " (l := "-5".toList) rest out
      (by decide) (by decide) (by decide) (by decide) (b := F32.ofInt (-5)) (by decide!)
    have := read_area_reject hf (by decide!)
    simpa [World.printf, leftover] using this
  · have hf := read_float_line_accept "Area (km2): " (l := "0.01".toList) rest out
      (by decide) (by decide) (by decide) (by decide) (b := F32.round false 1 100) (by decide!)
    have := read_area_accept hf (by decide!)
    simpa [leftover] using this

theorem area_loop_accepts_iff_witness :
    read_area ⟨"2.5\n".toList, []⟩ = .ret (F32.round false 5 2) ⟨[], [⟨"%s", [.s "Area (km2): "]⟩]⟩ :=
  (area_loop_accepts_iff ⟨"2.5\n".toList, []⟩ ⟨[], [⟨"%s", [.s "Area (km2): "]⟩]⟩
    (F32.round false 5 2) (by decide!)).1 (by decide!)

theorem char_eq_of_toNat {a b : Char} (h : a.toNat = b.toNat) : a = b := by
  rw [← Char.ofNat_toNat a, ← Char.ofNat_toNat b, h]

theorem estadoAcc_range {line : List Char} {e : Char} (h : estadoAcc line = some e) :
    'A' ≤ e ∧ e ≤ 'H' := by
  unfold estadoAcc at h
  split_ifs at h with h1 h2
  · simp only [Option.some.injEq] at h
    rw [← h]; exact ⟨h1.1, h1.2.1⟩
  · simp only [Option.some.injEq] at h
    have e1 : 'a'.toNat = 97 := by decide
    have e2 : 'h'.toNat = 104 := by decide
    have e3 : 'A'.toNat = 65 := by decide
    have e4 : 'H'.toNat = 72 := by decide
    have a1 := (char_le_iff _ _).1 h2.1
    have a2 := (char_le_iff _ _).1 h2.2.1
    rw [e1] at a1
    rw [e2] at a2
    have hn := toNat_ofNat_small ((charAt line 0).toNat - ('a'.toNat - 'A'.toNat))
      (by rw [e1, e3]; omega)
    rw [h] at hn
    rw [char_le_iff, char_le_iff, hn, e1, e3, e4]
    omega

theorem codigoAcc_form {e : Char} {line cod : List Char} (h : codigoAcc e line = some cod) :
    ∃ d, cod = [e, '0', d] ∧ '1' ≤ d ∧ d ≤ '4' := by
  unfold codigoAcc at h
  simp only at h
  generalize (if 'a' ≤ charAt line 0 ∧ charAt line 0 ≤ 'h' then
    Char.ofNat ((charAt line 0).toNat - ('a'.toNat - 'A'.toNat)) else charAt line 0) = s0 at h
  split_ifs at h with h1
  simp only [Option.some.injEq] at h
  obtain ⟨-, hs0, a1, a2, a3, a4, n1, n2⟩ := h1
  have z : '0'.toNat = 48 := by decide
  have b1 := (char_le_iff _ _).1 a1
  have b2 := (char_le_iff _ _).1 a2
  have b3 := (char_le_iff _ _).1 a3
  have b4 := (char_le_iff _ _).1 a4
  rw [z] at b1 b3 n1 n2
  have e9 : '9'.toNat = 57 := by decide
  rw [e9] at b2 b4
  have hd1 : charAt line 1 = '0' := by
    apply char_eq_of_toNat
    rw [z]; omega
  refine ⟨charAt line 2, ?_, ?_, ?_⟩
  · rw [← h, hs0, hd1]
  · rw [char_le_iff, show '1'.toNat = 49 by decide]; omega
  · rw [char_le_iff, show '4'.toNat = 52 by decide]; omega

/-- C12. Every card returned by `cadastrar_carta` satisfies the card invariant: `estado` is
in A..H, `codigo` has length 3, starts with `estado` and ends with two digits forming a
number from 01 to 04, and `area` is greater than zero. -/
theorem card_invariant (idx : Int) (w w' : World) (c : Carta)
    (h : cadastrar_carta idx w = .ret c w') :
    ('A' ≤ c.estado ∧ c.estado ≤ 'H') ∧
    c.codigo.length = 3 ∧
    (∃ d, c.codigo = [c.estado, '0', d] ∧ '1' ≤ d ∧ d ≤ '4') ∧
    F32.gt c.area F32.zero = true := by
  obtain ⟨w1, w2, w3, w4, w5, w6, h1, h2, -, -, h5, -, -⟩ := cadastrar_carta_ret h
  obtain ⟨l1, v1, -, a1⟩ := (read_estado_loopEq _).ret_acc _ _ _ _ h1
  obtain ⟨l2, v2, -, a2⟩ := (read_codigo_loopEq _ _).ret_acc _ _ _ _ h2
  obtain ⟨x5, v5, -, a5⟩ := read_area_loopEq.ret_acc _ _ _ _ h5
  obtain ⟨d, hd, hd1, hd2⟩ := codigoAcc_form a2
  refine ⟨estadoAcc_range a1, by rw [hd]; rfl, ⟨d, hd, hd1, hd2⟩, ?_⟩
  unfold areaAcc at a5
  split_ifs at a5 with hg
  simp only [Option.some.injEq] at a5
  rw [← a5]; exact hg

theorem card_invariant_witness :
    ('A' ≤ cartaA.estado ∧ cartaA.estado ≤ 'H') ∧
    cartaA.codigo.length = 3 ∧
    (∃ d, cartaA.codigo = [cartaA.estado, '0', d] ∧ '1' ≤ d ∧ d ≤ '4') ∧
    F32.gt cartaA.area F32.zero = true :=
  card_invariant 1 ⟨entradaA, []⟩ ⟨[], saidaCadastro 1 'A'⟩ cartaA (by decide!)

theorem ilog2_pow_le : ∀ (f n : Nat), 1 ≤ n → 2 ^ ilog2 f n ≤ n
  | 0, n, h => by simpa [ilog2] using h
  | f + 1, n, h => by
    unfold ilog2
    by_cases h2 : n < 2
    · simpa [h2] using h
    · rw [if_neg h2, pow_succ]
      have := ilog2_pow_le f (n / 2) (by omega)
      omega

theorem F32.isZero_of_gt_zero {a : F32} (h : F32.gt a F32.zero = true) : a.isZero = false := by
  cases a with
  | nan => rfl
  | inf b => rfl
  | fin s m e =>
    by_cases hm : m = 0
    · subst hm
      simp [F32.gt, F32.lt, F32.zero, F32.signedAt] at h
    · simp [F32.isZero, hm]

theorem F32.round_isZero {neg : Bool} {p q : Nat} (h : q ≤ p) (hq : 0 < q)
    (hs : ∀ e : Int, 0 ≤ e → e ≤ (ilog2 p p : Int) - (ilog2 q q : Int) - 23 →
      q * 2 ^ e.toNat ≤ p) :
    (F32.round neg p q).isZero = false := by
  unfold F32.round
  have hp : ¬ (p = 0 ∨ q = 0) := by omega
  rw [if_neg hp]
  simp only
  generalize he0 : (ilog2 p p : Int) - (ilog2 q q : Int) - 23 = e0 at hs
  generalize he1 : (if (F32.scale p q e0).1 / (F32.scale p q e0).2 < 2 ^ 23 then e0 - 1 else e0)
    = e1
  have h1 : e1 ≤ e0 := by rw [← he1]; split_ifs <;> omega
  generalize he : (if e1 < -149 then (-149 : Int) else e1) = e
  have h2 : e ≤ e0 ∨ e < 0 := by rw [← he]; split_ifs <;> omega
  have hm : 1 ≤ (F32.scale p q e).1 / (F32.scale p q e).2 := by
    unfold F32.scale
    by_cases hpos : 0 ≤ e
    · rw [if_pos hpos]
      have := hs e hpos (by omega)
      exact (Nat.one_le_div_iff (by positivity)).2 this
    · rw [if_neg hpos]
      apply (Nat.one_le_div_iff hq).2
      have : 1 ≤ 2 ^ (-e).toNat := Nat.one_le_two_pow
      calc q ≤ p := h
        _ = p * 1 := by ring
        _ ≤ p * 2 ^ (-e).toNat := Nat.mul_le_mul_left _ this
  generalize hmm : (F32.scale p q e).1 / (F32.scale p q e).2 = m at hm
  generalize hm1 : (if (F32.scale p q e).2 < 2 * ((F32.scale p q e).1 % (F32.scale p q e).2) ∨
      2 * ((F32.scale p q e).1 % (F32.scale p q e).2) = (F32.scale p q e).2 ∧ m % 2 = 1
    then m + 1 else m) = m1
  have h3 : m1 ≠ 0 := by rw [← hm1]; split_ifs <;> omega
  rw [if_neg h3]
  split_ifs <;> simp [F32.isZero, h3]

theorem F32.ofNat_isZero {n : Nat} (h : n ≠ 0) : (F32.ofNat n).isZero = false := by
  apply F32.round_isZero (by omega) (by omega)
  intro e he0 he
  have h1 : ilog2 1 1 = 0 := by decide
  rw [h1] at he
  have hl := ilog2_pow_le n n (by omega)
  have : e.toNat ≤ ilog2 n n := by omega
  calc 1 * 2 ^ e.toNat = 2 ^ e.toNat := by ring
    _ ≤ 2 ^ ilog2 n n := Nat.pow_le_pow_right (by omega) this
    _ ≤ n := hl

theorem cadastrar_carta_area_pos {idx : Int} {w w' : World} {c : Carta}
    (h : cadastrar_carta idx w = .ret c w') : F32.gt c.area F32.zero = true := by
  obtain ⟨w1, w2, w3, w4, w5, w6, -, -, -, -, h5, -, -⟩ := cadastrar_carta_ret h
  obtain ⟨x5, v5, -, a5⟩ := read_area_loopEq.ret_acc _ _ _ _ h5
  unfold areaAcc at a5
  split_ifs at a5 with hg
  simp only [Option.some.injEq] at a5
  rw [← a5]; exact hg

theorem F32.divChecked_eq {x y : F32} (h : y.isZero = false) :
    F32.divChecked x y = some (x / y) := by
  simp [F32.divChecked, h]

/-- With a positive area no division of the derived-field computation has a zero divisor,
and the computation gives the values that `cadastrar_carta` stores. -/
theorem derivados_eq (populacao : Nat) (area pib : F32) (pontosTuristicos : Int)
    (ha : F32.gt area F32.zero = true ∨ populacao = 0) :
    derivados populacao area pib pontosTuristicos =
      some
        (if populacao = 0 then F32.zero else F32.ofNat populacao / area,
         if populacao = 0 then F32.zero
           else (pib * F32.ofNat 1000000000) / F32.ofNat populacao,
         F32.ofNat populacao + area + pib + F32.ofInt pontosTuristicos
           + (if populacao = 0 then F32.zero
              else (pib * F32.ofNat 1000000000) / F32.ofNat populacao)
           + (if F32.gt (if populacao = 0 then F32.zero else F32.ofNat populacao / area)
                F32.zero = true then
               F32.one / (if populacao = 0 then F32.zero else F32.ofNat populacao / area)
             else F32.zero)) := by
  unfold derivados
  by_cases hp : populacao = 0
  · subst hp
    have hz : F32.gt F32.zero F32.zero = false := F32.lt_irrefl _
    simp [hz]
  · have ha2 : F32.gt area F32.zero = true := by
      rcases ha with ha | ha
      · exact ha
      · exact absurd ha hp
    rw [if_neg hp, F32.divChecked_eq (F32.isZero_of_gt_zero ha2),
      F32.divChecked_eq (F32.ofNat_isZero hp)]
    simp only [Option.bind, if_neg hp]
    by_cases hd : F32.gt (F32.ofNat populacao / area) F32.zero = true
    · rw [if_pos hd, F32.divChecked_eq (F32.isZero_of_gt_zero hd), if_pos hd]
    · rw [if_neg hd, if_neg hd]

/-- C17. For every card returned by `cadastrar_carta` (its area is greater than zero) the
computation of the derived fields, run with a division that fails on a zero divisor, does
not fail and gives the stored density, PIB per capita and super power. The computation
succeeds for every population, PIB and number of tourist spots when the area is greater
than zero, and with population 0 it succeeds whatever the area, zero included: the divisions
by the area and by the population are then not performed, nor is the division by the
density, which is not greater than zero. -/
theorem derived_fields_no_zero_division (idx : Int) (w w' : World) (c : Carta)
    (h : cadastrar_carta idx w = .ret c w') :
    derivados c.populacao c.area c.pib c.pontosTuristicos =
      some (c.densidadePopulacional, c.pibPerCapita, c.superPoder) ∧
    (∀ (populacao : Nat) (area pib : F32) (pontosTuristicos : Int),
      F32.gt area F32.zero = true →
        (derivados populacao area pib pontosTuristicos).isSome = true) ∧
    (∀ (area pib : F32) (pontosTuristicos : Int),
      (derivados 0 area pib pontosTuristicos).isSome = true) := by
  refine ⟨?_, fun p a b t ha => ?_, fun a b t => ?_⟩
  · obtain ⟨h1, h2, h3⟩ := cadastrar_carta_derived h
    rw [derivados_eq _ _ _ _ (Or.inl (cadastrar_carta_area_pos h)), h3, h2, h1]
  · rw [derivados_eq _ _ _ _ (Or.inl ha)]; rfl
  · rw [derivados_eq _ _ _ _ (Or.inr rfl)]; rfl

theorem derived_fields_no_zero_division_witness :
    derivados cartaA.populacao cartaA.area cartaA.pib cartaA.pontosTuristicos =
      some (cartaA.densidadePopulacional, cartaA.pibPerCapita, cartaA.superPoder) :=
  (derived_fields_no_zero_division 1 ⟨entradaA, []⟩ ⟨[], saidaCadastro 1 'A'⟩ cartaA
    (by decide!)).1

/-- C20. On the input line `4294967297` the tourist-spots reader does not re-prompt:
`strtol` returns the value as a 64-bit `long` without a range error and the conversion to
`int` keeps its low 32 bits, so `read_int` returns 1; on `2147483648` it returns
`-2147483648`. -/
theorem read_int_narrowing :
    read_int "Numero de Pontos Turisticos: " ⟨"4294967297\n".toList, []⟩ =
      .ret 1 ⟨[], [⟨"%s", [.s "Numero de Pontos Turisticos: "]⟩]⟩ ∧
    read_int "Numero de Pontos Turisticos: " ⟨"2147483648\n".toList, []⟩ =
      .ret (-2147483648) ⟨[], [⟨"%s", [.s "Numero de Pontos Turisticos: "]⟩]⟩ := by
  decide!

/-- C19, counterexample. The line `1e39` parses entirely as a real number but exceeds the
range of `float`: `strtof` reports a range error and the PIB reader rejects the line, then
returns the value of the next line. The line of 126 zeros followed by `e5` parses entirely
as the number zero, but `fgets` delivers only its first 127 characters, which end in `e`:
the reader rejects them and returns the value of the rest of the line, 5. -/
theorem pib_reader_rejects_number :
    read_float "PIB (em bilhoes de reais): " ⟨"1e39\n2\n".toList, []⟩ =
      .ret (F32.ofNat 2) ⟨[], [⟨"%s", [.s "PIB (em bilhoes de reais): "]⟩,
        ⟨"Valor invalido. Digite um numero (use ponto, ex: 12.5).\n", []⟩,
        ⟨"%s", [.s "PIB (em bilhoes de reais): "]⟩]⟩ ∧
    (strtof "1e39".toList).rest = [] ∧ (strtof "1e39".toList).erange = true ∧
    read_float "PIB (em bilhoes de reais): " ⟨linhaLonga ++ "\n".toList, []⟩ =
      .ret (F32.ofNat 5) ⟨[], [⟨"%s", [.s "PIB (em bilhoes de reais): "]⟩,
        ⟨"Valor invalido. Digite um numero (use ponto, ex: 12.5).\n", []⟩,
        ⟨"%s", [.s "PIB (em bilhoes de reais): "]⟩]⟩ ∧
    (strtof linhaLonga).rest = [] ∧ (strtof linhaLonga).erange = false := by
  decide!

/-- C19. The PIB reader performs no sign check: every input line of at most 127 characters
that `strtof` converts up to trailing blanks without a range error is accepted, and the
value returned is the converted one whatever its sign. The lines `-3.5`, `0` and `-0` are
accepted, with a negative value, zero and negative zero, whereas the area loop rejects
the value of `-3.5`, prints its message and reads again. -/
theorem pib_reader_no_sign_check (l rest : List Char) (out : List Printf)
    (hnl : '\n' ∉ l) (hnul : NUL ∉ l) (hlen : l.length ≤ 127)
    (hne : strip_newline l ≠ [])
    (hrange : (strtof (strip_newline l)).erange = false)
    (hend : skipBlanks (strtof (strip_newline l)).rest = []) :
    read_float "PIB (em bilhoes de reais): " ⟨l ++ '\n' :: rest, out⟩ =
      .ret (strtof (strip_newline l)).val
        ⟨leftover 128 l rest, out ++ [⟨"%s", [.s "PIB (em bilhoes de reais): "]⟩]⟩ ∧
    (∀ rest out, read_float "PIB (em bilhoes de reais): " ⟨"-3.5".toList ++ '\n' :: rest, out⟩ =
      .ret (F32.round true 7 2)
        ⟨rest, out ++ [⟨"%s", [.s "PIB (em bilhoes de reais): "]⟩]⟩) ∧
    F32.lt (F32.round true 7 2) F32.zero = true ∧
    (∀ rest out, read_float "PIB (em bilhoes de reais): " ⟨"0".toList ++ '\n' :: rest, out⟩ =
      .ret F32.zero ⟨rest, out ++ [⟨"%s", [.s "PIB (em bilhoes de reais): "]⟩]⟩) ∧
    (∀ rest out, read_float "PIB (em bilhoes de reais): " ⟨"-0".toList ++ '\n' :: rest, out⟩ =
      .ret (.fin true 0 0) ⟨rest, out ++ [⟨"%s", [.s "PIB (em bilhoes de reais): "]⟩]⟩) ∧
    (∀ rest out, read_area ⟨"-3.5".toList ++ '\n' :: rest, out⟩ =
      read_area ⟨rest, out ++ [⟨"%s", [.s "Area (km2): "]⟩,
        ⟨"Area invalida. Digite um valor maior que 0.\n", []⟩]⟩) := by
  refine ⟨read_float_line_accept _ rest out hnl hnul hlen hne (by simp [floatAcc, hrange, hend]),
    fun rest out => ?_, by decide!, fun rest out => ?_, fun rest out => ?_, fun rest out => ?_⟩
  · exact read_float_line_accept _ rest out (by decide) (by decide) (by decide) (by decide)
      (by decide!)
  · exact read_float_line_accept _ rest out (by decide) (by decide) (by decide) (by decide)
      (by decide!)
  · exact read_float_line_accept _ rest out (by decide) (by decide) (by decide) (by decide)
      (by decide!)
  · have h := read_float_line_accept "Area (km2): " (l := "-3.5".toList) rest out (by decide)
      (by decide) (by decide) (by decide) (b := F32.round true 7 2) (by decide!)
    have := read_area_reject h (by decide!)
    simpa [World.printf, leftover] using this

theorem pib_reader_no_sign_check_witness :
    read_float "PIB (em bilhoes de reais): " ⟨"-3.5 \r\n7\n".toList, []⟩ =
      .ret (strtof "-3.5 ".toList).val
        ⟨"7\n".toList, [⟨"%s", [.s "PIB (em bilhoes de reais): "]⟩]⟩ :=
  (pib_reader_no_sign_check "-3.5 \r".toList "7\n".toList [] (by decide) (by decide)
    (by decide) (by decide) (by decide!) (by decide!)).1

theorem cadastrar_carta_superPoder {idx : Int} {w w' : World} {c : Carta}
    (h : cadastrar_carta idx w = .ret c w') :
    c.superPoder = superPoderDe c.populacao c.area c.pib c.pontosTuristicos := by
  obtain ⟨h1, h2, h3⟩ := cadastrar_carta_derived h
  rw [h3, h2, h1]
  rfl

/-- The output of `main` when both cards are read: what was printed before, followed by the
seven comparison lines. -/
theorem main_out {w w1 w2 : World} {c1 c2 : Carta}
    (h1 : cadastrar_carta 1 w = .ret c1 w1)
    (h2 : cadastrar_carta 2 (w1.printf "\n" []) = .ret c2 w2) :
    main w = .ret 0 ⟨w2.stdin,
      (((imprimir_carta 2 c2 (imprimir_carta 1 c1 w2)).printf
          "\n==============================\n" []).printf
          "Comparacao de Cartas:\n\n" []).stdout ++
        [if c1.populacao > c2.populacao then linha "Populacao" 1 1 else linha "Populacao" 2 0,
         if F32.gt c1.area c2.area = true then linha "Area" 1 1 else linha "Area" 2 0,
         if F32.gt c1.pib c2.pib = true then linha "PIB" 1 1 else linha "PIB" 2 0,
         if c1.pontosTuristicos > c2.pontosTuristicos then linha "Pontos Turisticos" 1 1
           else linha "Pontos Turisticos" 2 0,
         if F32.lt c1.densidadePopulacional c2.densidadePopulacional = true then
           linha "Densidade Populacional" 1 1 else linha "Densidade Populacional" 2 0,
         if F32.gt c1.pibPerCapita c2.pibPerCapita = true then linha "PIB per Capita" 1 1
           else linha "PIB per Capita" 2 0,
         if F32.gt c1.superPoder c2.superPoder = true then linha "Super Poder" 1 1
           else linha "Super Poder" 2 0]⟩ := by
  rw [main_ret h1 h2]
  simp only [imprimir_resultado_eq, decide_eq_true_eq, List.append_assoc, List.singleton_append,
    List.cons_append, List.nil_append, printf_stdin, imprimir_carta_stdin]

/-- C14. For every pair of cards read by `main` with populations 100 (card 1) and 200
(card 2) and the same area, PIB and tourist spots, the population line names card 2, and so
do the lines of the three equal fields; the super power line names card 1 exactly when the
super power computed by the full formula from population 100 and the common fields is
greater than the one computed from population 200. With area 1000, PIB 1 and 0 tourist
spots the super powers are 10001111 and 5001206, and the super power line names card 1
although its population is the lower one. -/
theorem population_and_superPoder_lines (w w1 w2 : World) (c1 c2 : Carta)
    (h1 : cadastrar_carta 1 w = .ret c1 w1)
    (h2 : cadastrar_carta 2 (w1.printf "\n" []) = .ret c2 w2)
    (hp1 : c1.populacao = 100) (hp2 : c2.populacao = 200)
    (ha : c2.area = c1.area) (hpib : c2.pib = c1.pib)
    (hpt : c2.pontosTuristicos = c1.pontosTuristicos) :
    main w = .ret 0 ⟨w2.stdin,
      (((imprimir_carta 2 c2 (imprimir_carta 1 c1 w2)).printf
          "\n==============================\n" []).printf
          "Comparacao de Cartas:\n\n" []).stdout ++
        [linha "Populacao" 2 0, linha "Area" 2 0, linha "PIB" 2 0,
         linha "Pontos Turisticos" 2 0,
         if F32.lt c1.densidadePopulacional c2.densidadePopulacional = true then
           linha "Densidade Populacional" 1 1 else linha "Densidade Populacional" 2 0,
         if F32.gt c1.pibPerCapita c2.pibPerCapita = true then linha "PIB per Capita" 1 1
           else linha "PIB per Capita" 2 0,
         if F32.gt (superPoderDe 100 c1.area c1.pib c1.pontosTuristicos)
             (superPoderDe 200 c1.area c1.pib c1.pontosTuristicos) = true then
           linha "Super Poder" 1 1
         else linha "Super Poder" 2 0]⟩ ∧
    (c1.area = F32.ofNat 1000 → c1.pib = F32.ofNat 1 → c1.pontosTuristicos = 0 →
      c1.superPoder = F32.ofNat 10001111 ∧ c2.superPoder = F32.ofNat 5001206 ∧
      (if F32.gt (superPoderDe 100 c1.area c1.pib c1.pontosTuristicos)
             (superPoderDe 200 c1.area c1.pib c1.pontosTuristicos) = true then
           linha "Super Poder" 1 1
         else linha "Super Poder" 2 0) = linha "Super Poder" 1 1) := by
  have s1 := cadastrar_carta_superPoder h1
  have s2 := cadastrar_carta_superPoder h2
  rw [hp1] at s1
  rw [hp2, ha, hpib, hpt] at s2
  refine ⟨?_, fun ea ep et => ?_⟩
  · rw [main_out h1 h2, s1, s2, hp1, hp2, ha, hpib, hpt, F32.gt, F32.gt, F32.lt_irrefl,
      F32.lt_irrefl]
    simp
  · rw [s1, s2, ea, ep, et]
    exact ⟨by decide!, by decide!, by decide!⟩

theorem population_and_superPoder_lines_witness :
    cadastrar_carta 1 ⟨entradaF ++ entradaG, []⟩ =
      .ret cartaF ⟨entradaG, saidaCadastro 1 'F'⟩ ∧
    cadastrar_carta 2 ⟨entradaG, saidaCadastro 1 'F' ++ [⟨"\n", []⟩]⟩ =
      .ret cartaG ⟨[], saidaCadastro 1 'F' ++ [⟨"\n", []⟩] ++ saidaCadastro 2 'G'⟩ ∧
    cartaF.superPoder = F32.ofNat 10001111 ∧ cartaG.superPoder = F32.ofNat 5001206 ∧
    (if F32.gt (superPoderDe 100 cartaF.area cartaF.pib cartaF.pontosTuristicos)
           (superPoderDe 200 cartaF.area cartaF.pib cartaF.pontosTuristicos) = true then
         linha "Super Poder" 1 1
       else linha "Super Poder" 2 0) = linha "Super Poder" 1 1 :=
  ⟨by decide!, by decide!,
    (population_and_superPoder_lines ⟨entradaF ++ entradaG, []⟩ ⟨entradaG, saidaCadastro 1 'F'⟩
      ⟨[], saidaCadastro 1 'F' ++ [⟨"\n", []⟩] ++ saidaCadastro 2 'G'⟩ cartaF cartaG
      (by decide!) (by decide!) rfl rfl rfl rfl rfl).2 rfl rfl rfl⟩

theorem Avisou.refl (w : World) : Avisou w w := ⟨[], by simp, by simp⟩

theorem Avisou.trans {w w1 w2 : World} (h1 : Avisou w w1) (h2 : Avisou w1 w2) : Avisou w w2 := by
  obtain ⟨i1, e1, p1⟩ := h1
  obtain ⟨i2, e2, p2⟩ := h2
  refine ⟨i1 ++ i2, by rw [e2, e1, List.append_assoc], ?_⟩
  intro p hp
  rcases List.mem_append.1 hp with h | h
  · exact p1 p h
  · exact p2 p h

theorem Avisou.printf (w : World) (fmt : String) (args : List Arg) (h : fmt ∈ avisos) :
    Avisou w (w.printf fmt args) :=
  ⟨[⟨fmt, args⟩], rfl, by simpa using h⟩

theorem Outcome.quiet_of {α : Type} {o : Outcome α} {w w0 : World} (h : Avisou w w0)
    (ho : o.quiet w0) : o.quiet w := by
  cases o with
  | ret a w1 => exact h.trans ho
  | exit code w1 =>
    obtain ⟨hc, hs, w2, ha, ho⟩ := ho
    exact ⟨hc, hs, w2, h.trans ha, ho⟩
  | timeout => exact ho

theorem fgets_none {n : Nat} {s : List Char} (h : fgets n s = none) : s = [] := by
  cases s with
  | nil => rfl
  | cons c s => simp [fgets] at h

theorem read_line_quiet (p : String) {n : Nat} (hn : 2 ≤ n) :
    ∀ (k : Nat) (w : World), w.stdin.length < k → (read_line p n w).quiet w := by
  intro k
  induction k with
  | zero => intro w h; omega
  | succ k ih =>
    intro w hk
    rw [read_line_eq hn]
    cases hf : fgets n w.stdin with
    | none =>
      exact ⟨rfl, fgets_none hf, w.printf "%s" [.s p],
        Avisou.printf w "%s" [.s p] (by decide), rfl⟩
    | some br =>
      obtain ⟨buf, rest⟩ := br
      have hp := fgets_progress hn hf
      simp only
      cases hs : strip_newline (cstr buf) with
      | nil =>
        simp only
        refine Outcome.quiet_of ?_ (ih _ (by simp only [printf_stdin]; omega))
        exact ⟨[⟨"%s", [.s p]⟩, ⟨"Entrada vazia. Tente novamente.\n", []⟩],
          by simp [World.printf], by
            intro q hq
            simp only [List.mem_cons, List.mem_singleton, List.not_mem_nil, or_false] at hq
            rcases hq with h | h <;> rw [h]
            · show "%s" ∈ avisos
              decide
            · decide⟩
      | cons c cs =>
        exact ⟨[⟨"%s", [.s p]⟩], by simp [World.printf], by
          intro q hq
          simp only [List.mem_singleton] at hq
          rw [hq]
          show "%s" ∈ avisos
          decide⟩

theorem LoopEq.quiet {α β : Type} {f : Nat → World → Outcome β} {step : World → Outcome α}
    {acc : α → Option β} {fmt : String} {args : List Arg}
    (hl : LoopEq f step acc fmt args) (hs : StepOk step)
    (hq : ∀ w, (step w).quiet w) (hf : fmt ∈ avisos) :
    ∀ (k : Nat) (w : World), w.stdin.length < k → (f (w.stdin.length + 1) w).quiet w := by
  intro k
  induction k with
  | zero => intro w h; omega
  | succ k ih =>
    intro w hk
    have hw := hq w
    cases hst : step w with
    | timeout => rw [hst] at hw; exact hw.elim
    | exit code w1 =>
      rw [hl.exit hst]
      rw [hst] at hw
      exact hw
    | ret a w1 =>
      rw [hst] at hw
      have hlt := hs.2 _ _ _ hst
      cases hacc : acc a with
      | some b =>
        rw [hl.accept hst hacc]
        exact hw
      | none =>
        rw [hl.reject hs hst hacc]
        refine Outcome.quiet_of (Avisou.trans hw (Avisou.printf _ _ _ hf)) (ih _ ?_)
        simp only [printf_stdin]; omega

theorem Outcome.bind_quiet {α β : Type} {x : Outcome α} {k : α → World → Outcome β}
    {w : World} (hx : x.quiet w) (hk : ∀ a w1, (k a w1).quiet w1) : (x.bind k).quiet w := by
  cases x with
  | ret a w1 => exact Outcome.quiet_of hx (hk a w1)
  | exit code w1 => exact hx
  | timeout => exact hx

theorem read_estado_quiet (p : String) (w : World) : (read_estado p w).quiet w :=
  (read_estado_loopEq p).quiet (read_line_stepOk p (by decide))
    (fun w => read_line_quiet p (by decide) _ w (Nat.lt_succ_self _)) (by decide) _ w
    (Nat.lt_succ_self _)

theorem read_codigo_quiet (p : String) (e : Char) (w : World) : (read_codigo p e w).quiet w :=
  (read_codigo_loopEq p e).quiet (read_line_stepOk p (by decide))
    (fun w => read_line_quiet p (by decide) _ w (Nat.lt_succ_self _)) (by decide) _ w
    (Nat.lt_succ_self _)

theorem read_ulong_quiet (p : String) (w : World) : (read_ulong p w).quiet w :=
  (read_ulong_loopEq p).quiet (read_line_stepOk p (by decide))
    (fun w => read_line_quiet p (by decide) _ w (Nat.lt_succ_self _)) (by decide) _ w
    (Nat.lt_succ_self _)

theorem read_int_quiet (p : String) (w : World) : (read_int p w).quiet w :=
  (read_int_loopEq p).quiet (read_line_stepOk p (by decide))
    (fun w => read_line_quiet p (by decide) _ w (Nat.lt_succ_self _)) (by decide) _ w
    (Nat.lt_succ_self _)

theorem read_float_quiet (p : String) (w : World) : (read_float p w).quiet w :=
  (read_float_loopEq p).quiet (read_line_stepOk p (by decide))
    (fun w => read_line_quiet p (by decide) _ w (Nat.lt_succ_self _)) (by decide) _ w
    (Nat.lt_succ_self _)

theorem read_area_quiet (w : World) : (read_area w).quiet w :=
  read_area_loopEq.quiet (read_float_stepOk _) (read_float_quiet _) (by decide) _ w
    (Nat.lt_succ_self _)

theorem cadastrar_carta_quiet (idx : Int) (w : World) : (cadastrar_carta idx w).quiet w := by
  unfold cadastrar_carta
  refine Outcome.quiet_of
    (Avisou.printf w "=== Cadastro da Carta %d ===\n" [.d idx] (by decide)) ?_
  refine Outcome.bind_quiet (read_estado_quiet _ _) fun estado w1 => ?_
  refine Outcome.bind_quiet (read_codigo_quiet _ _ _) fun codigo w2 => ?_
  refine Outcome.bind_quiet (read_line_quiet _ (by decide) _ _ (Nat.lt_succ_self _))
    fun nome w3 => ?_
  refine Outcome.bind_quiet (read_ulong_quiet _ _) fun pop w4 => ?_
  refine Outcome.bind_quiet (read_area_quiet _) fun area w5 => ?_
  refine Outcome.bind_quiet (read_float_quiet _ _) fun pib w6 => ?_
  refine Outcome.bind_quiet (read_int_quiet _ _) fun pts w7 => ?_
  exact Avisou.refl _

theorem avisos_not_resultados : ∀ f ∈ avisos, f ∉ resultados := by
  decide

theorem main_exit_of_first {w w' : World} {code : Nat}
    (h1 : cadastrar_carta 1 w = .exit code w') : main w = .exit code w' := by
  unfold main
  rw [h1]
  rfl

theorem main_exit_of_second {w w1 w' : World} {c1 : Carta} {code : Nat}
    (h1 : cadastrar_carta 1 w = .ret c1 w1)
    (h2 : cadastrar_carta 2 (w1.printf "\n" []) = .exit code w') : main w = .exit code w' := by
  unfold main
  rw [h1]
  simp only [Outcome.bind]
  rw [h2]

theorem imprimir_carta_eq (idx : Int) (c : Carta) (w : World) :
    imprimir_carta idx c w = ⟨w.stdin, w.stdout ++ despejo idx c⟩ := by
  simp [imprimir_carta, World.printf, despejo]

theorem despejo_resultados (idx : Int) (c : Carta) : ∀ p ∈ despejo idx c, p.fmt ∈ resultados := by
  intro p hp
  simp only [despejo, List.mem_cons, List.mem_singleton, List.not_mem_nil, or_false] at hp
  rcases hp with h | h | h | h | h | h | h | h | h | h | h | h <;> rw [h] <;> dsimp only <;>
    decide

/-- What `main` prints when both cards are read, item by item: after the output `out` of the
two registrations come the twelve lines of card 1, the twelve lines of card 2, the
separator, the comparison heading and the seven comparison lines. -/
theorem main_saida {w w1 w2 : World} {c1 c2 : Carta}
    (h1 : cadastrar_carta 1 w = .ret c1 w1)
    (h2 : cadastrar_carta 2 (w1.printf "\n" []) = .ret c2 w2) :
    main w = .ret 0 ⟨w2.stdin,
      w2.stdout ++ despejo 1 c1 ++ despejo 2 c2 ++
        [⟨"\n==============================\n", []⟩, ⟨"Comparacao de Cartas:\n\n", []⟩] ++
        [if c1.populacao > c2.populacao then linha "Populacao" 1 1 else linha "Populacao" 2 0,
         if F32.gt c1.area c2.area = true then linha "Area" 1 1 else linha "Area" 2 0,
         if F32.gt c1.pib c2.pib = true then linha "PIB" 1 1 else linha "PIB" 2 0,
         if c1.pontosTuristicos > c2.pontosTuristicos then linha "Pontos Turisticos" 1 1
           else linha "Pontos Turisticos" 2 0,
         if F32.lt c1.densidadePopulacional c2.densidadePopulacional = true then
           linha "Densidade Populacional" 1 1 else linha "Densidade Populacional" 2 0,
         if F32.gt c1.pibPerCapita c2.pibPerCapita = true then linha "PIB per Capita" 1 1
           else linha "PIB per Capita" 2 0,
         if F32.gt c1.superPoder c2.superPoder = true then linha "Super Poder" 1 1
           else linha "Super Poder" 2 0]⟩ := by
  rw [main_out h1 h2]
  simp [imprimir_carta_eq, World.printf]

/-- C13. On every input `main` ends in one of two ways. Either both cards are collected:
then it returns 0 and its output is, item by item, the input's earlier output, the headings,
prompts and diagnostics of the two registrations, then the results: the twelve lines of
the dump of card 1 (separator, card number, and the ten fields with their values), the
twelve lines of the dump of card 2, the separator, the comparison heading and the seven
comparison lines. Or the collection of card 1 or of card 2 does not return: then
the process exits with status 1, the input is exhausted, the last output is the
end-of-input message, and everything printed before it is a registration heading, the
blank line between the registrations, a prompt or a diagnostic, none of which is a line of
a card dump or of the comparison. Every line of a card dump and every comparison line has
one of the formats of the results. On the empty input and on an input that holds the
lines of one card only the process exits with status 1; on the lines of two cards it
returns 0 with the complete output shown. -/
theorem main_exit_status (w : World) :
    ((∃ c1 w1 c2 w2 items, cadastrar_carta 1 w = .ret c1 w1 ∧
        cadastrar_carta 2 (w1.printf "\n" []) = .ret c2 w2 ∧
        w2.stdout = w.stdout ++ items ∧ (∀ p ∈ items, p.fmt ∈ avisos ∧ p.fmt ∉ resultados) ∧
        main w = .ret 0 ⟨w2.stdin,
          w.stdout ++ items ++
            [⟨"\n==============================\n", []⟩,
             ⟨"Carta %d:\n", [.d 1]⟩,
             ⟨"Estado: %c\n", [.c c1.estado]⟩,
             ⟨"Codigo: %s\n", [.s (String.mk c1.codigo)]⟩,
             ⟨"Nome da Cidade: %s\n", [.s (String.mk c1.nomeCidade)]⟩,
             ⟨"Populacao: %lu\n", [.lu c1.populacao]⟩,
             ⟨"Area: %.2f km2\n", [.f c1.area]⟩,
             ⟨"PIB: %.2f bilhoes de reais\n", [.f c1.pib]⟩,
             ⟨"Numero de Pontos Turisticos: %d\n", [.d c1.pontosTuristicos]⟩,
             ⟨"Densidade Populacional: %.2f hab/km2\n", [.f c1.densidadePopulacional]⟩,
             ⟨"PIB per Capita: %.2f reais\n", [.f c1.pibPerCapita]⟩,
             ⟨"Super Poder: %.2f\n", [.f c1.superPoder]⟩,
             ⟨"\n==============================\n", []⟩,
             ⟨"Carta %d:\n", [.d 2]⟩,
             ⟨"Estado: %c\n", [.c c2.estado]⟩,
             ⟨"Codigo: %s\n", [.s (String.mk c2.codigo)]⟩,
             ⟨"Nome da Cidade: %s\n", [.s (String.mk c2.nomeCidade)]⟩,
             ⟨"Populacao: %lu\n", [.lu c2.populacao]⟩,
             ⟨"Area: %.2f km2\n", [.f c2.area]⟩,
             ⟨"PIB: %.2f bilhoes de reais\n", [.f c2.pib]⟩,
             ⟨"Numero de Pontos Turisticos: %d\n", [.d c2.pontosTuristicos]⟩,
             ⟨"Densidade Populacional: %.2f hab/km2\n", [.f c2.densidadePopulacional]⟩,
             ⟨"PIB per Capita: %.2f reais\n", [.f c2.pibPerCapita]⟩,
             ⟨"Super Poder: %.2f\n", [.f c2.superPoder]⟩,
             ⟨"\n==============================\n", []⟩,
             ⟨"Comparacao de Cartas:\n\n", []⟩,
             if c1.populacao > c2.populacao then linha "Populacao" 1 1
               else linha "Populacao" 2 0,
             if F32.gt c1.area c2.area = true then linha "Area" 1 1 else linha "Area" 2 0,
             if F32.gt c1.pib c2.pib = true then linha "PIB" 1 1 else linha "PIB" 2 0,
             if c1.pontosTuristicos > c2.pontosTuristicos then linha "Pontos Turisticos" 1 1
               else linha "Pontos Turisticos" 2 0,
             if F32.lt c1.densidadePopulacional c2.densidadePopulacional = true then
               linha "Densidade Populacional" 1 1 else linha "Densidade Populacional" 2 0,
             if F32.gt c1.pibPerCapita c2.pibPerCapita = true then linha "PIB per Capita" 1 1
               else linha "PIB per Capita" 2 0,
             if F32.gt c1.superPoder c2.superPoder = true then linha "Super Poder" 1 1
               else linha "Super Poder" 2 0]⟩) ∨
     ((∀ c1 w1, cadastrar_carta 1 w = .ret c1 w1 →
          ∀ c2 w2, cadastrar_carta 2 (w1.printf "\n" []) ≠ .ret c2 w2) ∧
       ∃ w' items, main w = .exit 1 w' ∧ w'.stdin = [] ∧
         w'.stdout = w.stdout ++ items ++ [⟨"\nEntrada encerrada (EOF). Finalizando.\n", []⟩] ∧
         ∀ p ∈ items, p.fmt ∈ avisos ∧ p.fmt ∉ resultados)) ∧
    (∀ (idx : Int) (c : Carta) (w0 : World),
      (imprimir_carta idx c w0).stdout = w0.stdout ++ despejo idx c ∧
      ∀ p ∈ despejo idx c, p.fmt ∈ resultados) ∧
    (∀ (label : String) (b : Bool) (w0 : World),
      ∃ p, (imprimir_resultado label b w0).stdout = w0.stdout ++ [p] ∧ p.fmt ∈ resultados) ∧
    main ⟨[], []⟩ = .exit 1 ⟨[], [⟨"=== Cadastro da Carta %d ===\n", [.d 1]⟩,
      ⟨"%s", [.s "Estado (A a H): "]⟩,
      ⟨"\nEntrada encerrada (EOF). Finalizando.\n", []⟩]⟩ ∧
    main ⟨entradaA, []⟩ = .exit 1 ⟨[], saidaCadastro 1 'A' ++ [⟨"\n", []⟩,
      ⟨"=== Cadastro da Carta %d ===\n", [.d 2]⟩, ⟨"%s", [.s "Estado (A a H): "]⟩,
      ⟨"\nEntrada encerrada (EOF). Finalizando.\n", []⟩]⟩ ∧
    main ⟨entradaA ++ entradaB, []⟩ = .ret 0 ⟨[],
      saidaCadastro 1 'A' ++ [⟨"\n", []⟩] ++ saidaCadastro 2 'B' ++
        [⟨"\n==============================\n", []⟩,
         ⟨"Carta %d:\n", [.d 1]⟩,
         ⟨"Estado: %c\n", [.c 'A']⟩,
         ⟨"Codigo: %s\n", [.s "A01"]⟩,
         ⟨"Nome da Cidade: %s\n", [.s "Sao Paulo"]⟩,
         ⟨"Populacao: %lu\n", [.lu 100]⟩,
         ⟨"Area: %.2f km2\n", [.f (F32.ofNat 1)]⟩,
         ⟨"PIB: %.2f bilhoes de reais\n", [.f (F32.ofNat 1)]⟩,
         ⟨"Numero de Pontos Turisticos: %d\n", [.d 0]⟩,
         ⟨"Densidade Populacional: %.2f hab/km2\n", [.f (F32.ofNat 100)]⟩,
         ⟨"PIB per Capita: %.2f reais\n", [.f (F32.ofNat 10000000)]⟩,
         ⟨"Super Poder: %.2f\n", [.f (F32.ofNat 10000102)]⟩,
         ⟨"\n==============================\n", []⟩,
         ⟨"Carta %d:\n", [.d 2]⟩,
         ⟨"Estado: %c\n", [.c 'B']⟩,
         ⟨"Codigo: %s\n", [.s "B02"]⟩,
         ⟨"Nome da Cidade: %s\n", [.s "Rio"]⟩,
         ⟨"Populacao: %lu\n", [.lu 50]⟩,
         ⟨"Area: %.2f km2\n", [.f (F32.ofNat 1)]⟩,
         ⟨"PIB: %.2f bilhoes de reais\n", [.f (F32.ofNat 1)]⟩,
         ⟨"Numero de Pontos Turisticos: %d\n", [.d 0]⟩,
         ⟨"Densidade Populacional: %.2f hab/km2\n", [.f (F32.ofNat 50)]⟩,
         ⟨"PIB per Capita: %.2f reais\n", [.f (F32.ofNat 20000000)]⟩,
         ⟨"Super Poder: %.2f\n", [.f (F32.ofNat 20000052)]⟩,
         ⟨"\n==============================\n", []⟩,
         ⟨"Comparacao de Cartas:\n\n", []⟩,
         ⟨"%s: Carta %d venceu (%d)\n", [.s "Populacao", .d 1, .d 1]⟩,
         ⟨"%s: Carta %d venceu (%d)\n", [.s "Area", .d 2, .d 0]⟩,
         ⟨"%s: Carta %d venceu (%d)\n", [.s "PIB", .d 2, .d 0]⟩,
         ⟨"%s: Carta %d venceu (%d)\n", [.s "Pontos Turisticos", .d 2, .d 0]⟩,
         ⟨"%s: Carta %d venceu (%d)\n", [.s "Densidade Populacional", .d 2, .d 0]⟩,
         ⟨"%s: Carta %d venceu (%d)\n", [.s "PIB per Capita", .d 2, .d 0]⟩,
         ⟨"%s: Carta %d venceu (%d)\n", [.s "Super Poder", .d 2, .d 0]⟩]⟩ := by
  refine ⟨?_, fun idx c w0 => ⟨by rw [imprimir_carta_eq], despejo_resultados idx c⟩,
    fun label b w0 => ⟨_, by rw [imprimir_resultado_eq], by cases b <;> simp [linha, resultados]⟩,
    by decide!, by decide!, by decide!⟩
  have q1 := cadastrar_carta_quiet 1 w
  cases h1 : cadastrar_carta 1 w with
  | timeout => rw [h1] at q1; exact q1.elim
  | exit code w' =>
    rw [h1] at q1
    obtain ⟨hc, hs, w0, ⟨items, hi, hp⟩, ho⟩ := q1
    subst hc
    refine Or.inr ⟨fun c1 w1 h => (nomatch h), w', items, main_exit_of_first h1, hs, ?_, ?_⟩
    · rw [ho, hi]
    · exact fun p hpi => ⟨hp p hpi, avisos_not_resultados _ (hp p hpi)⟩
  | ret c1 w1 =>
    rw [h1] at q1
    have q2 := cadastrar_carta_quiet 2 (w1.printf "\n" [])
    cases h2 : cadastrar_carta 2 (w1.printf "\n" []) with
    | timeout => rw [h2] at q2; exact q2.elim
    | ret c2 w2 =>
      rw [h2] at q2
      obtain ⟨items, hi, hp⟩ := (q1.trans (Avisou.printf w1 "\n" [] (by decide))).trans q2
      refine Or.inl ⟨c1, w1, c2, w2, items, rfl, h2, hi,
        fun p hpi => ⟨hp p hpi, avisos_not_resultados _ (hp p hpi)⟩, ?_⟩
      rw [main_saida h1 h2, hi]
      simp [despejo]
    | exit code w' =>
      rw [h2] at q2
      obtain ⟨hc, hs, w0, ha, ho⟩ := q2
      subst hc
      obtain ⟨items, hi, hp⟩ := (q1.trans (Avisou.printf w1 "\n" [] (by decide))).trans ha
      refine Or.inr ⟨fun c w3 h => ?_, w', items, main_exit_of_second h1 h2, hs, ?_, ?_⟩
      · simp only [Outcome.ret.injEq] at h
        obtain ⟨-, hw⟩ := h
        subst hw
        intro c2 w2 hc2
        rw [h2] at hc2
        cases hc2
      · rw [ho, hi]
      · exact fun p hpi => ⟨hp p hpi, avisos_not_resultados _ (hp p hpi)⟩

theorem Outcome.mesmo_refl {α : Type} (x : Outcome α) : x.mesmo x := by
  cases x <;> simp [Outcome.mesmo]

theorem Outcome.mesmo_symm {α : Type} {x y : Outcome α} (h : x.mesmo y) : y.mesmo x := by
  cases x <;> cases y <;> simp_all [Outcome.mesmo]

theorem Outcome.mesmo_trans {α : Type} {x y z : Outcome α} (h1 : x.mesmo y) (h2 : y.mesmo z) :
    x.mesmo z := by
  cases x <;> cases y <;> cases z <;> simp_all [Outcome.mesmo]

theorem Outcome.mesmo_ret {α : Type} {x : Outcome α} {a : α} {w : World}
    (h : x.mesmo (.ret a w)) : ∃ o, x = .ret a ⟨w.stdin, o⟩ := by
  cases x with
  | ret b w1 =>
    obtain ⟨h1, h2⟩ := h
    exact ⟨w1.stdout, by rw [h1, ← h2]⟩
  | exit c w1 => exact h.elim
  | timeout => exact h.elim

theorem Outcome.ret_mesmo {α : Type} {x : Outcome α} {a : α} {w : World}
    (h : (Outcome.ret a w).mesmo x) : ∃ o, x = .ret a ⟨w.stdin, o⟩ :=
  Outcome.mesmo_ret (Outcome.mesmo_symm h)

theorem Outcome.bind_mesmo {α β : Type} {x y : Outcome α} {k : α → World → Outcome β}
    (h : x.mesmo y) (hk : ∀ a, Insensivel (k a)) : (x.bind k).mesmo (y.bind k) := by
  cases x with
  | ret a w1 =>
    cases y with
    | ret b w2 =>
      obtain ⟨h1, h2⟩ := h
      obtain ⟨s1, o1⟩ := w1
      obtain ⟨s2, o2⟩ := w2
      simp only at h2
      subst h1 h2
      exact hk a s1 o1 o2
    | exit c w2 => exact h.elim
    | timeout => exact h.elim
  | exit c w1 =>
    cases y with
    | ret b w2 => exact h.elim
    | exit c2 w2 => exact h
    | timeout => exact h.elim
  | timeout =>
    cases y with
    | ret b w2 => exact h.elim
    | exit c2 w2 => exact h.elim
    | timeout => trivial

theorem Insensivel.bind_insens {α β : Type} {F : World → Outcome α} {k : α → World → Outcome β}
    (hF : Insensivel F) (hk : ∀ a, Insensivel (k a)) : Insensivel (fun w => (F w).bind k) :=
  fun s o1 o2 => Outcome.bind_mesmo (hF s o1 o2) hk

theorem Insensivel.ret_insens {α : Type} (g : World → α) (hg : ∀ s o1 o2, g ⟨s, o1⟩ = g ⟨s, o2⟩) :
    Insensivel (fun w => Outcome.ret (g w) w) :=
  fun s o1 o2 => ⟨hg s o1 o2, rfl⟩

theorem Estavel.bind_estavel {α β : Type} {F : World → Outcome α} {k : α → World → Outcome β}
    (hF : Estavel F) (hk : ∀ a, Estavel (k a)) : Estavel (fun w => (F w).bind k) := by
  intro w v w' h
  obtain ⟨a, w1, h1, h2⟩ := Outcome.bind_eq_ret h
  obtain ⟨p1, e1, s1⟩ := hF w a w1 h1
  obtain ⟨p2, e2, s2⟩ := hk a w1 v w' h2
  refine ⟨p1 ++ p2, by rw [e1, e2, List.append_assoc], fun hne Y o => ?_⟩
  have hne1 : w1.stdin ≠ [] := by
    rw [e2]
    intro hc
    exact hne (List.append_eq_nil.1 hc).2
  obtain ⟨o1, q1⟩ := Outcome.mesmo_ret (s1 hne1 (p2 ++ Y) o)
  show ((F ⟨p1 ++ p2 ++ Y, o⟩).bind k).mesmo _
  rw [List.append_assoc, q1]
  exact Outcome.mesmo_trans (s2 hne Y o1) ⟨rfl, rfl⟩

theorem fgetsAux_stable : ∀ (m : Nat) (s : List Char), (fgetsAux m s).2 ≠ [] →
    ∀ Y, fgetsAux m ((fgetsAux m s).1 ++ Y) = ((fgetsAux m s).1, Y)
  | 0, s, _, Y => by simp [fgetsAux]
  | _ + 1, [], h, _ => by simp [fgetsAux] at h
  | m + 1, c :: t, h, Y => by
    by_cases hc : c = '\n'
    · simp [fgetsAux, hc]
    · simp only [fgetsAux, hc, if_false] at h ⊢
      have := fgetsAux_stable m t h Y
      rw [show (fgetsAux m t).1.append Y = (fgetsAux m t).1 ++ Y from rfl, this]

theorem fgets_split {n : Nat} {s buf rest : List Char} (h : fgets n s = some (buf, rest)) :
    s = buf ++ rest := by
  cases s with
  | nil => simp [fgets] at h
  | cons c t =>
    simp only [fgets, Option.some.injEq] at h
    have := fgetsAux_append (n - 1) (c :: t)
    rw [h] at this
    exact this.symm

theorem fgets_stable {n : Nat} (hn : 2 ≤ n) {s buf rest : List Char}
    (h : fgets n s = some (buf, rest)) (hr : rest ≠ []) (Y : List Char) :
    fgets n (buf ++ Y) = some (buf, Y) := by
  have hp := fgets_progress hn h
  have hs := fgets_split h
  have hb : buf ≠ [] := by
    intro hb
    rw [hs, hb] at hp
    simp at hp
  cases s with
  | nil => simp [fgets] at h
  | cons c t =>
    simp only [fgets, Option.some.injEq] at h
    have h1 : (fgetsAux (n - 1) (c :: t)).1 = buf := by rw [h]
    have h2 : (fgetsAux (n - 1) (c :: t)).2 = rest := by rw [h]
    have := fgetsAux_stable (n - 1) (c :: t) (by rw [h2]; exact hr) Y
    rw [h1] at this
    rw [fgets_cons _ _ (by simp [hb]), this]

theorem fgets_some {n : Nat} {s : List Char} (hs : s ≠ []) :
    ∃ buf rest, fgets n s = some (buf, rest) := by
  cases s with
  | nil => exact absurd rfl hs
  | cons c t => exact ⟨_, _, rfl⟩

theorem Leitor.insensivel {α : Type} {n : Nat} {dec : List Char → Option α}
    {F : World → Outcome α} (hF : Leitor n dec F) (hn : 2 ≤ n) : Insensivel F := by
  have key : ∀ (k : Nat) (s : List Char), s.length < k → ∀ o1 o2,
      (F ⟨s, o1⟩).mesmo (F ⟨s, o2⟩) := by
    intro k
    induction k with
    | zero => intro s h; omega
    | succ k ih =>
      intro s hk o1 o2
      by_cases hs : s = []
      · subst hs
        exact Outcome.mesmo_trans (hF.2.1 o1) (Outcome.mesmo_symm
          (Outcome.mesmo_trans (hF.2.1 o2) ⟨rfl, rfl⟩))
      · obtain ⟨buf, rest, hf⟩ := fgets_some (n := n) hs
        have hp := fgets_progress hn hf
        cases hd : dec (strip_newline (cstr buf)) with
        | some a =>
          exact Outcome.mesmo_trans (hF.2.2.1 s o1 buf rest a hf hd) (Outcome.mesmo_symm
            (Outcome.mesmo_trans (hF.2.2.1 s o2 buf rest a hf hd) ⟨rfl, rfl⟩))
        | none =>
          obtain ⟨p1, q1⟩ := hF.2.2.2 s o1 buf rest hf hd
          obtain ⟨p2, q2⟩ := hF.2.2.2 s o2 buf rest hf hd
          exact Outcome.mesmo_trans q1 (Outcome.mesmo_trans
            (ih rest (by omega) p1 p2) (Outcome.mesmo_symm q2))
  exact fun s o1 o2 => key _ s (Nat.lt_succ_self _) o1 o2

theorem Leitor.none {α : Type} {n : Nat} {dec : List Char → Option α}
    {F : World → Outcome α} (hF : Leitor n dec F) (hn : 2 ≤ n) {s buf rest : List Char}
    (o : List Printf) (hf : fgets n s = some (buf, rest))
    (hd : dec (strip_newline (cstr buf)) = none) : (F ⟨s, o⟩).mesmo (F ⟨rest, o⟩) := by
  obtain ⟨o2, h⟩ := hF.2.2.2 s o buf rest hf hd
  exact Outcome.mesmo_trans h (hF.insensivel hn rest o2 o)

theorem Leitor.estavel {α : Type} {n : Nat} {dec : List Char → Option α}
    {F : World → Outcome α} (hF : Leitor n dec F) (hn : 2 ≤ n) : Estavel F := by
  have key : ∀ (k : Nat) (s : List Char), s.length < k → ∀ o v w', F ⟨s, o⟩ = .ret v w' →
      ∃ a, s = a ++ w'.stdin ∧
        (w'.stdin ≠ [] → ∀ (Y : List Char) (o2 : List Printf),
          (F ⟨a ++ Y, o2⟩).mesmo (.ret v ⟨Y, o2⟩)) := by
    intro k
    induction k with
    | zero => intro s h; omega
    | succ k ih =>
      intro s hk o v w' h
      by_cases hs : s = []
      · subst hs
        have := hF.2.1 o
        rw [h] at this
        exact this.elim
      · obtain ⟨buf, rest, hf⟩ := fgets_some (n := n) hs
        have hp := fgets_progress hn hf
        have hsplit := fgets_split hf
        cases hd : dec (strip_newline (cstr buf)) with
        | some a =>
          have := hF.2.2.1 s o buf rest a hf hd
          rw [h] at this
          obtain ⟨e1, e2⟩ := this
          simp only at e2
          subst e1
          refine ⟨buf, by rw [e2]; exact hsplit, fun hne Y o2 => ?_⟩
          rw [e2] at hne
          exact hF.2.2.1 _ o2 buf Y v (fgets_stable hn hf hne Y) hd
        | none =>
          have := hF.none hn o hf hd
          rw [h] at this
          obtain ⟨o3, h3⟩ := Outcome.ret_mesmo this
          obtain ⟨a, ea, sa⟩ := ih rest (by omega) o v _ h3
          simp only at ea sa
          refine ⟨buf ++ a, by rw [List.append_assoc, ← ea]; exact hsplit, fun hne Y o2 => ?_⟩
          have hrest : rest ≠ [] := by
            rw [ea]
            intro hc
            exact hne (List.append_eq_nil.1 hc).2
          rw [List.append_assoc]
          exact Outcome.mesmo_trans
            (hF.none hn o2 (fgets_stable hn hf hrest (a ++ Y)) hd) (sa hne Y o2)
  intro w v w' h
  exact key _ w.stdin (Nat.lt_succ_self _) w.stdout v w' h

theorem Leitor.skip {α : Type} {n : Nat} {dec : List Char → Option α}
    {F : World → Outcome α} (hF : Leitor n dec F) (hn : 2 ≤ n) {s X : List Char}
    (h : Rejeitados n dec s X) (o : List Printf) : (F ⟨s, o⟩).mesmo (F ⟨X, o⟩) := by
  induction h with
  | aqui s => exact Outcome.mesmo_refl _
  | passo hf hd _ ih => exact Outcome.mesmo_trans (hF.none hn o hf hd) ih

theorem Rejeitados.replay {α : Type} {n : Nat} {dec : List Char → Option α} (hn : 2 ≤ n)
    {s X : List Char} (h : Rejeitados n dec s X) :
    ∃ b, s = b ++ X ∧ (X ≠ [] → ∀ Y, Rejeitados n dec (b ++ Y) Y) := by
  induction h with
  | aqui s => exact ⟨[], rfl, fun _ Y => .aqui _⟩
  | @passo s buf rest X hf hd _ ih =>
    obtain ⟨b, eb, sb⟩ := ih
    refine ⟨buf ++ b, by rw [List.append_assoc, ← eb]; exact fgets_split hf, fun hne Y => ?_⟩
    have hrest : rest ≠ [] := by
      rw [eb]
      intro hc
      exact hne (List.append_eq_nil.1 hc).2
    rw [List.append_assoc]
    exact .passo (fgets_stable hn hf hrest (b ++ Y)) hd (sb hne Y)

/-- A rejected line of text that fits the buffer is passed over, with the newline that it
leaves behind when it fills the buffer. -/
theorem Rejeitados.of_line {α : Type} {n : Nat} {dec : List Char → Option α} (hn : 2 ≤ n)
    (h0 : dec [] = none) {r : List Char} (X : List Char) (hnl : '\n' ∉ r) (hnul : NUL ∉ r)
    (hlen : r.length + 1 ≤ n) (hd : dec (strip_newline r) = none) :
    Rejeitados n dec (r ++ '\n' :: X) X := by
  obtain ⟨buf, hf, hb⟩ := fgets_line hn X hnl hnul hlen
  by_cases h2 : r.length + 2 ≤ n
  · rw [leftover, if_pos h2] at hf
    exact .passo hf (by rw [hb]; exact hd) (.aqui _)
  · rw [leftover, if_neg h2] at hf
    refine .passo hf (by rw [hb]; exact hd) ?_
    obtain ⟨buf2, hf2, hb2⟩ := fgets_line (l := []) hn X (by simp) (by simp) (by simp; omega)
    rw [leftover, if_pos (by simp; omega)] at hf2
    exact .passo hf2 (by rw [hb2]; exact h0) (.aqui _)

theorem Rejeitados.leftover {α : Type} {n : Nat} {dec : List Char → Option α} (hn : 2 ≤ n)
    (h0 : dec [] = none) (m : Nat) (l0 Z : List Char) :
    Rejeitados n dec (leftover m l0 Z) Z := by
  unfold CartasSuperTrunfo.leftover
  split_ifs
  · exact .aqui _
  · exact Rejeitados.of_line (r := []) hn h0 Z (by simp) (by simp) (by simp; omega) h0

/-- A reader that starts after a line of text, on the newline that line may have left
behind, accepts the next line when it fits the buffer and the decision accepts it. -/
theorem Leitor.line {α : Type} {n : Nat} {dec : List Char → Option α}
    {F : World → Outcome α} (hF : Leitor n dec F) (hn : 2 ≤ n) (m : Nat) (l0 : List Char)
    {l : List Char} (rest : List Char) (o : List Printf) (hnl : '\n' ∉ l) (hnul : NUL ∉ l)
    (hlen : l.length + 1 ≤ n) {b : α} (hd : dec (strip_newline l) = some b) :
    ∃ o2, F ⟨leftover m l0 (l ++ '\n' :: rest), o⟩ = .ret b ⟨leftover n l rest, o2⟩ := by
  obtain ⟨buf, hf, hb⟩ := fgets_line hn rest hnl hnul hlen
  have h1 := hF.skip hn (Rejeitados.leftover hn hF.1 m l0 (l ++ '\n' :: rest)) o
  have h2 := hF.2.2.1 _ o buf _ b hf (by rw [hb]; exact hd)
  exact Outcome.mesmo_ret (Outcome.mesmo_trans h1 h2)

theorem Outcome.mesmo_exit {α : Type} {x : Outcome α} {c : Nat} {w : World}
    (h : x.mesmo (.exit c w)) : ∃ o, x = .exit c ⟨w.stdin, o⟩ := by
  cases x with
  | ret b w1 => exact h.elim
  | exit c1 w1 =>
    obtain ⟨h1, h2⟩ := h
    exact ⟨w1.stdout, by rw [h1, ← h2]⟩
  | timeout => exact h.elim

theorem read_line_leitor (p : String) {n : Nat} (hn : 2 ≤ n) :
    Leitor n naoVazia (read_line p n) := by
  refine ⟨rfl, fun o => ?_, fun s o buf rest a hf hd => ?_, fun s o buf rest hf hd => ?_⟩
  · rw [read_line_eq hn]
    exact ⟨rfl, rfl⟩
  · rw [read_line_eq hn]
    simp only [hf]
    unfold naoVazia at hd
    split_ifs at hd with h
    simp only [Option.some.injEq] at hd
    cases hs : strip_newline (cstr buf) with
    | nil => exact absurd hs h
    | cons c cs =>
      rw [hs] at hd
      exact ⟨hd, rfl⟩
  · rw [read_line_eq hn]
    simp only [hf]
    unfold naoVazia at hd
    split_ifs at hd with h
    rw [h]
    exact ⟨_, Outcome.mesmo_refl _⟩

theorem LoopEq.insens {α β : Type} {f : Nat → World → Outcome β} {step : World → Outcome α}
    {acc : α → Option β} {fmt : String} {args : List Arg}
    (hl : LoopEq f step acc fmt args) (hs : StepOk step) (hi : Insensivel step) :
    Insensivel (fun w => f (w.stdin.length + 1) w) := by
  have key : ∀ (k : Nat) (s : List Char), s.length < k → ∀ o1 o2,
      (f (s.length + 1) ⟨s, o1⟩).mesmo (f (s.length + 1) ⟨s, o2⟩) := by
    intro k
    induction k with
    | zero => intro s h; omega
    | succ k ih =>
      intro s hk o1 o2
      have h12 := hi s o1 o2
      cases h1 : step ⟨s, o1⟩ with
      | timeout => exact absurd h1 (hs.1 _)
      | exit c w1 =>
        rw [h1] at h12
        obtain ⟨o3, h2⟩ := Outcome.mesmo_exit (Outcome.mesmo_symm h12)
        have e1 := hl.exit h1
        have e2 := hl.exit h2
        simp only at e1 e2
        rw [e1, e2]
        exact ⟨rfl, rfl⟩
      | ret a w1 =>
        rw [h1] at h12
        obtain ⟨o3, h2⟩ := Outcome.ret_mesmo h12
        have hlt := hs.2 _ _ _ h1
        simp only at hlt
        cases hacc : acc a with
        | some b =>
          have e1 := hl.accept h1 hacc
          have e2 := hl.accept h2 hacc
          simp only at e1 e2
          rw [e1, e2]
          exact ⟨rfl, rfl⟩
        | none =>
          have e1 := hl.reject hs h1 hacc
          have e2 := hl.reject hs h2 hacc
          simp only [printf_stdin] at e1 e2
          rw [e1, e2]
          exact ih w1.stdin (by omega) _ _
  exact fun s o1 o2 => key _ s (Nat.lt_succ_self _) o1 o2

theorem LoopEq.leitor {α β : Type} {f : Nat → World → Outcome β} {step : World → Outcome α}
    {acc : α → Option β} {fmt : String} {args : List Arg} {n : Nat}
    {dec : List Char → Option α}
    (hl : LoopEq f step acc fmt args) (hs : StepOk step) (hn : 2 ≤ n)
    (hd : Leitor n dec step) :
    Leitor n (fun l => (dec l).bind acc) (fun w => f (w.stdin.length + 1) w) := by
  have hins := hl.insens hs (hd.insensivel hn)
  refine ⟨by simp [hd.1], fun o => ?_, fun s o buf rest b hf hb => ?_,
    fun s o buf rest hf hb => ?_⟩
  · obtain ⟨o2, h⟩ := Outcome.mesmo_exit (hd.2.1 o)
    have e := hl.exit h
    simp only at e ⊢
    rw [e]
    exact ⟨rfl, rfl⟩
  · simp only [Option.bind_eq_some] at hb
    obtain ⟨a, ha, hab⟩ := hb
    obtain ⟨o2, h⟩ := Outcome.mesmo_ret (hd.2.2.1 s o buf rest a hf ha)
    have e := hl.accept h hab
    simp only at e ⊢
    rw [e]
    exact ⟨rfl, rfl⟩
  · simp only [Option.bind_eq_none] at hb
    cases ha : dec (strip_newline (cstr buf)) with
    | some a =>
      obtain ⟨o2, h⟩ := Outcome.mesmo_ret (hd.2.2.1 s o buf rest a hf ha)
      have hab : acc a = none := hb a ha
      have e := hl.reject hs h hab
      simp only [printf_stdin] at e ⊢
      rw [e]
      exact ⟨_, Outcome.mesmo_refl _⟩
    | none =>
      have h12 := hd.none hn o hf ha
      refine ⟨o, ?_⟩
      simp only
      cases h2 : step ⟨rest, o⟩ with
      | timeout => exact absurd h2 (hs.1 _)
      | exit c w1 =>
        rw [h2] at h12
        obtain ⟨o3, h1⟩ := Outcome.mesmo_exit h12
        have e1 := hl.exit h1
        have e2 := hl.exit h2
        simp only at e1 e2
        rw [e1, e2]
        exact ⟨rfl, rfl⟩
      | ret a w1 =>
        rw [h2] at h12
        obtain ⟨o3, h1⟩ := Outcome.mesmo_ret h12
        cases hacc : acc a with
        | some b =>
          have e1 := hl.accept h1 hacc
          have e2 := hl.accept h2 hacc
          simp only at e1 e2
          rw [e1, e2]
          exact ⟨rfl, rfl⟩
        | none =>
          have e1 := hl.reject hs h1 hacc
          have e2 := hl.reject hs h2 hacc
          simp only [printf_stdin] at e1 e2
          rw [e1, e2]
          exact hins w1.stdin (o3 ++ [⟨fmt, args⟩]) (w1.stdout ++ [⟨fmt, args⟩])

theorem read_estado_leitor (p : String) :
    Leitor 64 (fun l => (naoVazia l).bind estadoAcc) (read_estado p) :=
  (read_estado_loopEq p).leitor (read_line_stepOk p (by decide)) (by decide)
    (read_line_leitor p (by decide))

theorem read_codigo_leitor (p : String) (e : Char) :
    Leitor 64 (fun l => (naoVazia l).bind (codigoAcc e)) (read_codigo p e) :=
  (read_codigo_loopEq p e).leitor (read_line_stepOk p (by decide)) (by decide)
    (read_line_leitor p (by decide))

theorem read_ulong_leitor (p : String) :
    Leitor 128 (fun l => (naoVazia l).bind ulongAcc) (read_ulong p) :=
  (read_ulong_loopEq p).leitor (read_line_stepOk p (by decide)) (by decide)
    (read_line_leitor p (by decide))

theorem read_int_leitor (p : String) :
    Leitor 128 (fun l => (naoVazia l).bind intAcc) (read_int p) :=
  (read_int_loopEq p).leitor (read_line_stepOk p (by decide)) (by decide)
    (read_line_leitor p (by decide))

theorem read_float_leitor (p : String) :
    Leitor 128 (fun l => (naoVazia l).bind floatAcc) (read_float p) :=
  (read_float_loopEq p).leitor (read_line_stepOk p (by decide)) (by decide)
    (read_line_leitor p (by decide))

theorem read_area_leitor :
    Leitor 128 (fun l => ((naoVazia l).bind floatAcc).bind areaAcc) read_area :=
  read_area_loopEq.leitor (read_float_stepOk _) (by decide) (read_float_leitor _)

theorem Outcome.bind_assoc {α β γ : Type} (x : Outcome α) (k : α → World → Outcome β)
    (k2 : β → World → Outcome γ) :
    (x.bind k).bind k2 = x.bind fun a w => (k a w).bind k2 := by
  cases x <;> rfl

theorem Outcome.ret_bind {α β : Type} (a : α) (w : World) (k : α → World → Outcome β) :
    (Outcome.ret a w).bind k = k a w := rfl

/-- The function `cadastrar_carta` prints its heading, reads the seven fields in order and
computes the derived fields. -/
theorem cadastrar_carta_eq (idx : Int) (w : World) :
    cadastrar_carta idx w =
      (correr campos cartaVazia (w.printf "=== Cadastro da Carta %d ===\n" [.d idx])).bind
        fun c w7 => .ret (derivar c) w7 := by
  unfold cadastrar_carta
  simp only [campos, correr, campoEstado, campoCodigo, campoNome, campoPopulacao, campoArea,
    campoPib, campoPontos, Outcome.bind_assoc, Outcome.ret_bind]
  rfl

theorem correr_append (l1 l2 : List Campo) :
    ∀ (c : Carta) (w : World), correr (l1 ++ l2) c w = (correr l1 c w).bind (correr l2) := by
  induction l1 with
  | nil => intro c w; rfl
  | cons f fs ih =>
    intro c w
    simp only [List.cons_append, correr, Outcome.bind_assoc]
    congr 1
    funext c1 w1
    exact ih c1 w1

theorem Leitor.map {α β : Type} {n : Nat} {dec : List Char → Option α}
    {F : World → Outcome α} (hF : Leitor n dec F) (g : α → β) :
    Leitor n (fun l => (dec l).map g) (fun w => (F w).bind fun v w1 => .ret (g v) w1) := by
  have hk : ∀ a : α, Insensivel (fun w1 => Outcome.ret (g a) w1) :=
    fun a => Insensivel.ret_insens (fun _ => g a) (fun _ _ _ => rfl)
  refine ⟨by simp [hF.1], fun o => ?_, fun s o buf rest b hf hb => ?_,
    fun s o buf rest hf hb => ?_⟩
  · exact Outcome.bind_mesmo (hF.2.1 o) hk
  · simp only [Option.map_eq_some'] at hb
    obtain ⟨a, ha, hab⟩ := hb
    have := Outcome.bind_mesmo (k := fun v w1 => Outcome.ret (g v) w1)
      (hF.2.2.1 s o buf rest a hf ha) hk
    rw [← hab]
    exact this
  · simp only [Option.map_eq_none'] at hb
    obtain ⟨o2, h⟩ := hF.2.2.2 s o buf rest hf hb
    exact ⟨o2, Outcome.bind_mesmo h hk⟩

theorem campos_leitor : ∀ f ∈ campos, ∀ c : Carta,
    2 ≤ f.tam ∧ Leitor f.tam (f.aceita c) (f.ler c) := by
  intro f hf c
  simp only [campos, List.mem_cons, List.mem_singleton, List.not_mem_nil, or_false] at hf
  rcases hf with h | h | h | h | h | h | h <;> subst h
  · exact ⟨by decide, (read_estado_leitor _).map _⟩
  · exact ⟨by decide, (read_codigo_leitor _ _).map _⟩
  · exact ⟨by decide, (read_line_leitor _ (by decide)).map _⟩
  · exact ⟨by decide, (read_ulong_leitor _).map _⟩
  · exact ⟨by decide, read_area_leitor.map _⟩
  · exact ⟨by decide, (read_float_leitor _).map _⟩
  · exact ⟨by decide, (read_int_leitor _).map _⟩

theorem correr_insens : ∀ (fs : List Campo), (∀ f ∈ fs, f ∈ campos) → ∀ c : Carta,
    Insensivel (correr fs c)
  | [], _, c => fun s o1 o2 => ⟨rfl, rfl⟩
  | f :: fs, h, c =>
    Insensivel.bind_insens ((campos_leitor f (h f (by simp)) c).2.insensivel
      (campos_leitor f (h f (by simp)) c).1)
      (fun c1 => correr_insens fs (fun f1 h1 => h f1 (by simp [h1])) c1)

theorem correr_estavel : ∀ (fs : List Campo), (∀ f ∈ fs, f ∈ campos) → ∀ c : Carta,
    Estavel (correr fs c)
  | [], _, c => by
    intro w v w' h
    simp only [correr, Outcome.ret.injEq] at h
    obtain ⟨h1, h2⟩ := h
    subst h1 h2
    exact ⟨[], rfl, fun _ Y o => ⟨rfl, rfl⟩⟩
  | f :: fs, h, c =>
    Estavel.bind_estavel ((campos_leitor f (h f (by simp)) c).2.estavel
      (campos_leitor f (h f (by simp)) c).1)
      (fun c1 => correr_estavel fs (fun f1 h1 => h f1 (by simp [h1])) c1)

/-- C16, counterexample. The validation of the population rejects the line of 127 letters
followed by `5`. Inserted before the population line of `entradaA`, it does not leave the
card unchanged: `fgets` delivers its first 127 characters, which are rejected, and then
the rest of the line, `5`, which is accepted as the population; the population line is
read as the area, and the card collected is another one. -/
theorem long_rejected_line_changes_card :
    ulongAcc linhaRejeitada = none ∧
    cadastrar_carta 1 ⟨"a\nA01\nSao Paulo\n".toList ++ "100\n1\n1\n0\n".toList, []⟩ =
      .ret cartaA ⟨[], saidaCadastro 1 'A'⟩ ∧
    cadastrar_carta 1
        ⟨"a\nA01\nSao Paulo\n".toList ++ linhaRejeitada ++ '\n' :: "100\n1\n1\n0\n".toList,
          []⟩ =
      .ret cartaDeslocada ⟨"0\n".toList,
        [⟨"=== Cadastro da Carta %d ===\n", [.d 1]⟩,
         ⟨"%s", [.s "Estado (A a H): "]⟩,
         ⟨"%s", [.s "Codigo da Carta (ex: A01): "]⟩,
         ⟨"%s", [.s "Nome da Cidade: "]⟩,
         ⟨"%s", [.s "Populacao: "]⟩,
         ⟨"Valor invalido. Digite um numero inteiro (ex: 123).\n", []⟩,
         ⟨"%s", [.s "Populacao: "]⟩,
         ⟨"%s", [.s "Area (km2): "]⟩,
         ⟨"%s", [.s "PIB (em bilhoes de reais): "]⟩,
         ⟨"%s", [.s "Numero de Pontos Turisticos: "]⟩]⟩ ∧
    cartaDeslocada.populacao = 5 ∧ cartaA.populacao = 100 ∧ cartaDeslocada ≠ cartaA := by
  decide!

/-- C16. Take an input on which `cadastrar_carta` collects the card `c`, a field `f` of the
card, and a moment at which the reader of `f` asks for a line: the fields `antes` have been
read into `ck`, the reader of `f` has rejected what it was delivered so far, and `X` is the
input left, `a` the input consumed. Insert before `X` a line of text `r` that fits the
buffer of the field (at most 63 characters for the state and the code, 99 for the city
name, 127 for the numeric fields) and that the validation of the field rejects. Then
`cadastrar_carta` collects exactly the same card `c`, base and derived fields, and leaves
the same input. Every field rejects the empty line, and the area rejects every line whose
value is not greater than zero. -/
theorem rejected_line_skipped (idx : Int) (antes depois : List Campo) (f : Campo)
    (hk : campos = antes ++ f :: depois) (w w' wk : World) (c ck : Carta)
    (a X r : List Char)
    (h : cadastrar_carta idx w = .ret c w')
    (hantes : correr antes cartaVazia (w.printf "=== Cadastro da Carta %d ===\n" [.d idx]) =
      .ret ck wk)
    (hpos : Rejeitados f.tam (f.aceita ck) wk.stdin X)
    (hin : w.stdin = a ++ X)
    (hnl : '\n' ∉ r) (hnul : NUL ∉ r) (hlen : r.length + 1 ≤ f.tam)
    (hrej : f.aceita ck (strip_newline r) = none) :
    (∃ o, cadastrar_carta idx ⟨a ++ r ++ '\n' :: X, w.stdout⟩ = .ret c ⟨w'.stdin, o⟩) ∧
    (∀ g ∈ campos, ∀ c0 : Carta, g.aceita c0 [] = none) ∧
    (∀ (c0 : Carta) (l : List Char) (v : F32), floatAcc l = some v →
      F32.gt v F32.zero = false → campoArea.aceita c0 l = none) := by
  refine ⟨?_, fun g hg c0 => (campos_leitor g hg c0).2.1, fun c0 l v hv hgt => ?_⟩
  · have hmem : ∀ g ∈ antes, g ∈ campos := by
      intro g hg
      rw [hk]
      simp [hg]
    have hmemd : ∀ g ∈ depois, g ∈ campos := by
      intro g hg
      rw [hk]
      simp [hg]
    have hf : f ∈ campos := by
      rw [hk]
      simp
    obtain ⟨hn, hL⟩ := campos_leitor f hf ck
    have hG : ∀ c1 : Carta, Insensivel (fun w1 =>
        (correr depois c1 w1).bind fun c2 w7 => Outcome.ret (derivar c2) w7) :=
      fun c1 => Insensivel.bind_insens (correr_insens depois hmemd c1)
        (fun c2 => Insensivel.ret_insens (fun _ => derivar c2) (fun _ _ _ => rfl))
    have hcad : ∀ w0 : World, cadastrar_carta idx w0 =
        (correr antes cartaVazia (w0.printf "=== Cadastro da Carta %d ===\n" [.d idx])).bind
          fun c1 w1 => (f.ler c1 w1).bind fun c2 w2 =>
            (correr depois c2 w2).bind fun c3 w7 => Outcome.ret (derivar c3) w7 := by
      intro w0
      rw [cadastrar_carta_eq, hk, correr_append]
      simp only [correr, Outcome.bind_assoc]
    rw [hcad, hantes] at h
    simp only [Outcome.ret_bind] at h
    obtain ⟨v, w2, hv, -⟩ := Outcome.bind_eq_ret h
    have hv2 : f.ler ck ⟨wk.stdin, wk.stdout⟩ = .ret v w2 := hv
    have hX : X ≠ [] := by
      intro hx
      subst hx
      have e0 := hL.skip hn hpos wk.stdout
      rw [hv2] at e0
      obtain ⟨o, e2⟩ := Outcome.ret_mesmo e0
      have e3 := hL.2.1 wk.stdout
      rw [e2] at e3
      exact e3
    obtain ⟨b, hb, hbs⟩ := hpos.replay hn
    obtain ⟨a0, ha0, hst⟩ := correr_estavel antes hmem cartaVazia _ _ _ hantes
    simp only [printf_stdin] at ha0
    have hwk : wk.stdin ≠ [] := by
      rw [hb]
      intro hc
      exact hX (List.append_eq_nil.1 hc).2
    have ha : a = a0 ++ b := by
      have : a ++ X = (a0 ++ b) ++ X := by
        rw [← hin, List.append_assoc, ← hb]
        exact ha0
      exact List.append_cancel_right this
    subst ha
    obtain ⟨o1, e1⟩ := Outcome.mesmo_ret (hst hwk (b ++ (r ++ '\n' :: X))
      (w.stdout ++ [⟨"=== Cadastro da Carta %d ===\n", [.d idx]⟩]))
    simp only at e1
    rw [hcad]
    rw [show (World.mk (a0 ++ b ++ r ++ '\n' :: X) w.stdout).printf
        "=== Cadastro da Carta %d ===\n" [.d idx] =
        ⟨a0 ++ (b ++ (r ++ '\n' :: X)),
          w.stdout ++ [⟨"=== Cadastro da Carta %d ===\n", [.d idx]⟩]⟩ from by
      simp [World.printf], e1]
    simp only [Outcome.ret_bind]
    have s1 := hL.skip hn (hbs hX (r ++ '\n' :: X)) o1
    have s2 := hL.skip hn (Rejeitados.of_line hn hL.1 X hnl hnul hlen hrej) o1
    have s3 := hL.skip hn hpos o1
    have s4 := hL.insensivel hn wk.stdin o1 wk.stdout
    have tot := Outcome.mesmo_trans s1 (Outcome.mesmo_trans s2
      (Outcome.mesmo_trans (Outcome.mesmo_symm s3) s4))
    have fin := Outcome.bind_mesmo tot hG
    have h2 : (f.ler ck ⟨wk.stdin, wk.stdout⟩).bind (fun c2 w2 =>
        (correr depois c2 w2).bind fun c3 w7 => Outcome.ret (derivar c3) w7) = .ret c w' := h
    rw [h2] at fin
    exact Outcome.mesmo_ret fin
  · unfold campoArea
    simp only [Option.map_eq_none', Option.bind_eq_none]
    intro x hx
    unfold naoVazia at hx
    split_ifs at hx
    · simp at hx
    · simp only [Option.some_bind, hv, Option.some.injEq] at hx
      subst hx
      simp [areaAcc, hgt]

theorem rejected_line_skipped_witness :
    ∃ o, cadastrar_carta 1
      ⟨"a\nA01\nSao Paulo\n100\n".toList ++ "0".toList ++ '\n' :: "1\n1\n0\n".toList, []⟩ =
        .ret cartaA ⟨[], o⟩ :=
  (rejected_line_skipped 1 [campoEstado, campoCodigo, campoNome, campoPopulacao]
    [campoPib, campoPontos] campoArea rfl
    ⟨"a\nA01\nSao Paulo\n100\n".toList ++ "1\n1\n0\n".toList, []⟩
    ⟨[], saidaCadastro 1 'A'⟩
    ⟨"1\n1\n0\n".toList, (saidaCadastro 1 'A').take 5⟩ cartaA cartaParcial
    "a\nA01\nSao Paulo\n100\n".toList "1\n1\n0\n".toList "0".toList
    (by decide!) (by decide!) (.aqui _) rfl (by decide) (by decide) (by decide)
    (by decide!)).1

end CartasSuperTrunfo
